import Mathlib

/-!
# QNow queue management: queue / counter coordination

A shallow embedding of the backend of the QNow queue-management system
(`qnow-backend/src`): the Firestore collections `businesses`, `queues` and
`counters` become three lists of documents in a `Store`, every model method
(`Queue.create`, `Counter.assignQueue`, ...) becomes a function on the store, and
every controller (`joinQueue`, `callNextCustomer`, ...) becomes a function from
the store and the request to the new store and the HTTP response.

Conventions of the embedding:

* a Firestore document id is a non-empty string; the id of a freshly created
  document (`collection.doc()`) is an input of the operation;
* timestamps (`Timestamp.now()`, `new Date()`) are natural numbers of
  milliseconds, read from a `Clock` passed with the request;
* a JavaScript number is an IEEE 754 double: a finite one is the rational it
  denotes, and every arithmetic operation rounds its exact result with
  `roundDouble` (to the nearest double, a tie to the even one, 53 significant
  bits, gradual underflow); a missing (`undefined`) or `NaN` number is `none`;
  the infinities are not represented, so `roundDouble` does not overflow (a
  result of magnitude `2 ^ 1024` or more is outside the embedding) and a
  quotient by zero is `none`;
* a query `where(..).orderBy(f, dir)` is a filter followed by a sort on `f`, ties
  broken by document id in the same direction, as Firestore does;
* the notification dispatcher and the socket broadcaster are external
  collaborators: `sendNotification` catches every error and writes to none of the
  three collections, so the controllers below leave them out;
* a controller is a function of the store it starts from, so a request runs
  alone; where two requests overlap, the schedule is spelled out
  (`callNextConcurrently` splits `callNextCustomer` at its `await`s into its reads
  and its writes).
-/

namespace QNow

/-! ## Data model -/

/-- Values of `QUEUE_STATUS` in `config/constants.js`. -/
inductive QueueStatus where
  | waiting | called | serving | completed | cancelled | skipped
  deriving DecidableEq, Repr

/-- Values of `COUNTER_STATUS` in `config/constants.js` (`onBreak` is `'break'`). -/
inductive CounterStatus where
  | active | inactive | busy | onBreak
  deriving DecidableEq, Repr

/-- A document of the `queues` collection (`Queue.toFirestore`), with its id. -/
structure Queue where
  id : String
  queueNumber : String
  businessId : String
  customerId : String
  customerName : String
  customerPhone : String
  customerEmail : String
  serviceType : String
  status : QueueStatus
  position : Nat
  waitTime : Int
  estimatedTime : Int
  counterId : Option String
  calledAt : Option Nat
  servingAt : Option Nat
  completedAt : Option Nat
  joinedAt : Nat
  notes : String
  priority : Bool
  notifiedPositions : List Nat
  deriving DecidableEq, Repr

/-- Field `settings` of a counter. -/
structure CounterSettings where
  autoCall : Bool
  maxCustomersPerHour : Nat
  breakDuration : Nat
  breakFrequency : Nat
  deriving DecidableEq, Repr

/-- Field `stats` of a counter. -/
structure CounterStats where
  servedToday : Nat
  avgServingTime : Option ℚ
  totalServed : Nat
  efficiency : Option ℚ
  deriving DecidableEq, Repr

/-- A document of the `counters` collection (`Counter.toFirestore`), with its id. -/
structure Counter where
  id : String
  businessId : String
  name : String
  number : Nat
  serviceType : String
  staffId : Option String
  staffName : String
  status : CounterStatus
  currentQueueId : Option String
  currentQueueNumber : String
  nextAvailableAt : Option Nat
  settings : CounterSettings
  stats : CounterStats
  createdAt : Nat
  updatedAt : Nat
  isActive : Bool
  deriving DecidableEq, Repr

/-- Field `settings` of a business. -/
structure BusinessSettings where
  maxQueueLength : Nat
  maxWaitTime : Nat
  notifyBeforePositions : Nat
  autoCallInterval : Nat
  allowRemoteJoin : Bool
  requireCustomerInfo : Bool
  enableSmsNotifications : Bool
  enableEmailNotifications : Bool
  enablePushNotifications : Bool
  deriving DecidableEq, Repr

/-- One day of `operatingHours`; `open` and `close` are kept as the hour and
minute that `hours.open.split(':').map(Number)` yields. -/
structure Hours where
  openHour : Nat
  openMinute : Nat
  closeHour : Nat
  closeMinute : Nat
  isOpen : Bool
  deriving DecidableEq, Repr

/-- Weekday names, as `toLocaleDateString('en-US', weekday long)` lower-cased. -/
inductive Day where
  | sunday | monday | tuesday | wednesday | thursday | friday | saturday
  deriving DecidableEq, Repr

/-- Field `operatingHours` of a business: a day may have no record. -/
structure OperatingHours where
  sunday : Option Hours
  monday : Option Hours
  tuesday : Option Hours
  wednesday : Option Hours
  thursday : Option Hours
  friday : Option Hours
  saturday : Option Hours
  deriving DecidableEq, Repr

/-- The lookup `business.operatingHours[day]`. -/
def OperatingHours.get (h : OperatingHours) : Day → Option Hours
  | .sunday => h.sunday
  | .monday => h.monday
  | .tuesday => h.tuesday
  | .wednesday => h.wednesday
  | .thursday => h.thursday
  | .friday => h.friday
  | .saturday => h.saturday

/-- Field `stats` of a business; a key that the stored map lacks is `none`. -/
structure BusinessStats where
  totalCustomersServed : Option ℚ
  avgWaitTime : Option ℚ
  avgServingTime : Option ℚ
  customerSatisfaction : Option ℚ
  peakHours : Option (List Nat)
  deriving DecidableEq, Repr

/-- A document of the `businesses` collection, with the fields the queue logic
reads or writes. -/
structure Business where
  id : String
  name : String
  isActive : Bool
  settings : BusinessSettings
  operatingHours : OperatingHours
  stats : BusinessStats
  updatedAt : Nat
  deriving DecidableEq, Repr

/-- The three Firestore collections the queue logic works on. -/
structure Store where
  businesses : List Business
  queues : List Queue
  counters : List Counter
  deriving DecidableEq, Repr

/-- The wall clock of one request: `now` in milliseconds, and the local weekday,
hour and minute that `new Date()` reports. -/
structure Clock where
  now : Nat
  day : Day
  hours : Nat
  minutes : Nat
  deriving DecidableEq, Repr

/-! ## Strings and JavaScript helpers -/

/-- Truthiness of a JavaScript string: the empty string is falsy. -/
def truthy (s : String) : Bool := !(s.data.isEmpty)

/-- Truthiness of an optional string: `undefined`, `null` and `''` are falsy. -/
def truthyOpt : Option String → Bool
  | none => false
  | some s => truthy s

/-- Strict order of Firestore on strings (by code point, which is byte order on
the ASCII strings used here). -/
def strLt (a b : String) : Bool := decide (a.data < b.data)

/-- Value of `parseInt` once a first decimal digit has been seen: the digits up to
the first other character. -/
def parseIntAux : List Char → Nat → Nat
  | [], acc => acc
  | c :: cs, acc => if c.isDigit then parseIntAux cs (acc * 10 + (c.toNat - 48)) else acc

/-- The function `parseInt` on the strings `Queue.create` hands it, which are what
follows the `Q` of a stored queue number: a decimal digit string gives its value
and a string that does not start with a digit gives `NaN` (`none`). Signs, leading
blanks and the `0x` prefix, which no stored queue number has, are not covered. -/
def parseInt : List Char → Option Nat
  | [] => none
  | c :: cs => if c.isDigit then some (parseIntAux (c :: cs) 0) else none

/-- The method `padStart(3, '0')` of a string. -/
def padStart3 (s : List Char) : List Char :=
  List.replicate (3 - s.length) '0' ++ s

/-- The label `Q${nextNumber.toString().padStart(3, '0')}`; `NaN` prints as `NaN`. -/
def formatQueueNumber : Option Nat → String
  | none => String.mk ('Q' :: padStart3 ['N', 'a', 'N'])
  | some n => String.mk ('Q' :: padStart3 (Nat.repr n).data)

/-! ## JavaScript numbers -/

/-- The power `2 ^ k` of an integer exponent, as a rational. -/
def twoPow (k : Int) : ℚ :=
  if 0 ≤ k then ((2 ^ k.toNat : Nat) : ℚ) else 1 / ((2 ^ (-k).toNat : Nat) : ℚ)

/-- The number of binary digits of `n`, counted in at most `steps` halvings. -/
def binaryDigitsWithin : Nat → Nat → Nat
  | 0, _ => 0
  | steps + 1, n => if n = 0 then 0 else binaryDigitsWithin steps (n / 2) + 1

/-- The number of binary digits of `n`: 0 for 0, else the `b` with
`2 ^ (b - 1) ≤ n < 2 ^ b`. -/
def binaryDigits (n : Nat) : Nat := binaryDigitsWithin n n

/-- The binary exponent of the positive fraction `n / d`: the `e` with
`2 ^ e ≤ n / d < 2 ^ (e + 1)`. -/
def binaryExponent (n d : Nat) : Int :=
  let k : Int := (binaryDigits n : Int) - (binaryDigits d : Int)
  if d * 2 ^ k.toNat ≤ n * 2 ^ (-k).toNat then k else k - 1

/-- Rounding of a rational to the nearest integer, a tie going to the even one. -/
def roundHalfEven (x : ℚ) : Int :=
  let f := ⌊x⌋
  let r := x - (f : ℚ)
  if r < 1 / 2 then f
  else if 1 / 2 < r then f + 1
  else if f % 2 = 0 then f else f + 1

/-- The double that an arithmetic operation of JavaScript returns when its exact
result is `x`: `x` rounded to the nearest multiple of `2 ^ q`, a tie to the even
multiple, where `2 ^ q` is the spacing of the doubles around `x`: `q = e - 52` for
`2 ^ e ≤ |x| < 2 ^ (e + 1)`, and `q = -1074` in the subnormal range. Overflow to an
infinity, which happens from `2 ^ 1024` on, is not modelled. -/
def roundDouble (x : ℚ) : ℚ :=
  if x = 0 then 0
  else
    let q : Int := max (binaryExponent x.num.natAbs x.den - 52) (-1074)
    (roundHalfEven (x / twoPow q) : ℚ) * twoPow q

/-! ## `models/Business.model.js` -/

/-- The method `Business.findById`: the document with this id, if any. -/
def Business.findById (db : Store) (businessId : String) : Option Business :=
  db.businesses.find? (fun b => b.id == businessId)

/-- The method `Business.updateStats`: `update` with the key `'stats'` replaces the
whole stored `stats` map by `statsData` and stamps `updatedAt`. It throws (`none`)
when the document does not exist. -/
def Business.updateStats (db : Store) (now : Nat) (businessId : String)
    (statsData : BusinessStats) : Option Store :=
  match Business.findById db businessId with
  | none => none
  | some _ =>
    some { db with
      businesses := db.businesses.map (fun b =>
        if b.id == businessId then { b with stats := statsData, updatedAt := now } else b) }

/-! ## `models/Queue.model.js` -/

/-- The constructor of `Queue` run by `Queue.fromFirestore` on a stored document:
the `||` defaults that can change a stored value. -/
def Queue.fromFirestore (d : Queue) : Queue :=
  { d with
    serviceType := if truthy d.serviceType then d.serviceType else "general"
    position := if d.position = 0 then 1 else d.position
    counterId := if truthyOpt d.counterId then d.counterId else none }

/-- The method `Queue.findById`. -/
def Queue.findById (db : Store) (queueId : String) : Option Queue :=
  (db.queues.find? (fun q => q.id == queueId)).map Queue.fromFirestore

/-- Order of `orderBy('joinedAt', 'desc')`: `a` is listed before `b` when it
joined later, or at the same instant with the larger document id. -/
def Queue.newerFirst (a b : Queue) : Bool :=
  decide (b.joinedAt < a.joinedAt) || (decide (a.joinedAt = b.joinedAt) && !(strLt a.id b.id))

/-- The argument `filters` of `Queue.findByBusinessId`. -/
structure QueueFilters where
  status : Option QueueStatus := none
  serviceType : Option String := none
  limit : Option Nat := none
  deriving DecidableEq, Repr

/-- The `where` clauses of `Queue.findByBusinessId`: the stored entries of the
business that pass the truthy `status` and `serviceType` filters. -/
def Queue.matching (db : Store) (businessId : String) (filters : QueueFilters) : List Queue :=
  db.queues.filter (fun q =>
    q.businessId == businessId &&
    (match filters.status with
      | some st => q.status == st
      | none => true) &&
    (match filters.serviceType with
      | some t => if truthy t then q.serviceType == t else true
      | none => true))

/-- The method `Queue.findByBusinessId`: the entries of the business, newest
first, narrowed by the truthy filters and cut to `limit` documents. -/
def Queue.findByBusinessId (db : Store) (businessId : String)
    (filters : QueueFilters) : List Queue :=
  let ordered := (Queue.matching db businessId filters).insertionSort
    (fun a b => Queue.newerFirst a b = true)
  let limited := match filters.limit with
    | some n => if n = 0 then ordered else ordered.take n
    | none => ordered
  limited.map Queue.fromFirestore

/-- The patch `updateData` handed to `Queue.update`: `none` is an absent key. -/
structure QueueUpdate where
  status : Option QueueStatus := none
  counterId : Option String := none
  calledAt : Option Nat := none
  servingAt : Option Nat := none
  completedAt : Option Nat := none
  notes : Option String := none
  position : Option Nat := none
  notifiedPositions : Option (List Nat) := none
  deriving DecidableEq, Repr

/-- What `queueRef.update(updateData)` does to the stored document. -/
def QueueUpdate.apply (u : QueueUpdate) (q : Queue) : Queue :=
  { q with
    status := u.status.getD q.status
    counterId := match u.counterId with
      | some c => some c
      | none => q.counterId
    calledAt := match u.calledAt with
      | some t => some t
      | none => q.calledAt
    servingAt := match u.servingAt with
      | some t => some t
      | none => q.servingAt
    completedAt := match u.completedAt with
      | some t => some t
      | none => q.completedAt
    notes := u.notes.getD q.notes
    position := u.position.getD q.position
    notifiedPositions := u.notifiedPositions.getD q.notifiedPositions }

/-- The two defaults `Queue.update` adds to `updateData`: `completedAt` when the
status becomes `completed`, `servingAt` when it becomes `serving`. -/
def QueueUpdate.withDefaults (u : QueueUpdate) (now : Nat) : QueueUpdate :=
  let u1 := if u.status = some QueueStatus.completed ∧ u.completedAt = none
    then { u with completedAt := some now } else u
  if u1.status = some QueueStatus.serving ∧ u1.servingAt = none
    then { u1 with servingAt := some now } else u1

/-- The method `Queue.update`: patches the document and reads it back; it throws
(`none`) when the document does not exist. -/
def Queue.update (db : Store) (now : Nat) (queueId : String)
    (updateData : QueueUpdate) : Option (Store × Queue) :=
  match Queue.findById db queueId with
  | none => none
  | some _ =>
    let db1 : Store := { db with
      queues := db.queues.map (fun q =>
        if q.id == queueId then (updateData.withDefaults now).apply q else q) }
    match Queue.findById db1 queueId with
    | none => none
    | some q => some (db1, q)

/-- The method `Queue.getWaitingCount`. -/
def Queue.getWaitingCount (db : Store) (businessId : String) : Nat :=
  (db.queues.filter (fun q =>
    q.businessId == businessId && q.status == QueueStatus.waiting)).length

/-- Order of `orderBy('queueNumber', 'desc')`: larger string first, ties by
larger document id. -/
def Queue.largerNumberFirst (a b : Queue) : Bool :=
  strLt b.queueNumber a.queueNumber ||
    (decide (a.queueNumber = b.queueNumber) && !(strLt a.id b.id))

/-- The method `Queue.getLastQueueNumber`: the entry of the business whose
`queueNumber` string is the largest. -/
def Queue.getLastQueueNumber (db : Store) (businessId : String) : Option Queue :=
  (((db.queues.filter (fun q => q.businessId == businessId)).insertionSort
    (fun a b => Queue.largerNumberFirst a b = true)).head?).map Queue.fromFirestore

/-- The object `queueData` that `joinQueue` hands to `Queue.create`. -/
structure QueueData where
  businessId : String
  serviceType : String
  customerName : String
  customerPhone : String
  customerEmail : String
  customerId : Option String
  waitTime : Int
  estimatedTime : Int
  notes : String
  status : QueueStatus
  deriving DecidableEq, Repr

/-- The method `Queue.create`. It throws (`none`) when the business is missing.
The queue number is one more than the number parsed from the largest stored
`queueNumber` string, the position is the waiting count plus one. The closing
`Business.updateStats` call replaces `stats` by the map with the two keys
`totalCustomersServed` (`FieldValue.increment(0)` on the replaced map: `0`) and
`avgWaitTime` (`0`). -/
def Queue.create (db : Store) (newId : String) (now : Nat)
    (queueData : QueueData) : Option (Store × Queue) :=
  match Business.findById db queueData.businessId with
  | none => none
  | some _ =>
    let lastQueue := Queue.getLastQueueNumber db queueData.businessId
    let nextNumber : Option Nat := match lastQueue with
      | some l => (parseInt (l.queueNumber.data.drop 1)).map (fun n => n + 1)
      | none => some 1
    let waitingCount := Queue.getWaitingCount db queueData.businessId
    let queue : Queue :=
      { id := newId
        queueNumber := formatQueueNumber nextNumber
        businessId := queueData.businessId
        customerId := queueData.customerId.getD ""
        customerName := queueData.customerName
        customerPhone := queueData.customerPhone
        customerEmail := queueData.customerEmail
        serviceType := if truthy queueData.serviceType then queueData.serviceType else "general"
        status := queueData.status
        position := waitingCount + 1
        waitTime := queueData.waitTime
        estimatedTime := queueData.estimatedTime
        counterId := none
        calledAt := none
        servingAt := none
        completedAt := none
        joinedAt := now
        notes := queueData.notes
        priority := false
        notifiedPositions := [] }
    let db1 : Store := { db with queues := db.queues ++ [queue] }
    match Business.updateStats db1 now queueData.businessId
        { totalCustomersServed := some 0
          avgWaitTime := some 0
          avgServingTime := none
          customerSatisfaction := none
          peakHours := none } with
    | none => none
    | some db2 => some (db2, queue)

/-! ## `models/Counter.model.js` -/

/-- The constructor of `Counter` run by `Counter.fromFirestore` on a stored
document: the `||` defaults that can change a stored value. The constructor line
for `nextAvailableAt` is a labelled statement, not an assignment, so the object
read back never carries that field. -/
def Counter.fromFirestore (d : Counter) : Counter :=
  { d with
    number := if d.number = 0 then 1 else d.number
    serviceType := if truthy d.serviceType then d.serviceType else "general"
    staffId := if truthyOpt d.staffId then d.staffId else none
    currentQueueId := if truthyOpt d.currentQueueId then d.currentQueueId else none
    nextAvailableAt := none }

/-- The method `Counter.findById`. -/
def Counter.findById (db : Store) (counterId : String) : Option Counter :=
  (db.counters.find? (fun c => c.id == counterId)).map Counter.fromFirestore

/-- Order of `orderBy('number')`: smaller number first, ties by smaller id. -/
def Counter.lowerNumberFirst (a b : Counter) : Bool :=
  decide (a.number < b.number) || (decide (a.number = b.number) && !(strLt b.id a.id))

/-- The method `Counter.findByBusinessId`: the counters of the business in
ascending `number` order. -/
def Counter.findByBusinessId (db : Store) (businessId : String) : List Counter :=
  ((db.counters.filter (fun c => c.businessId == businessId)).insertionSort
    (fun a b => Counter.lowerNumberFirst a b = true)).map Counter.fromFirestore

/-- The patch `updateData` handed to `Counter.update` by the controllers of the
queue logic: `none` is an absent key, `some none` writes `null`. -/
structure CounterUpdate where
  status : Option CounterStatus := none
  currentQueueId : Option (Option String) := none
  currentQueueNumber : Option String := none
  nextAvailableAt : Option (Option Nat) := none
  deriving DecidableEq, Repr

/-- What `counterRef.update(updateData)` does to the stored document;
`Counter.update` always adds `updatedAt`. -/
def CounterUpdate.apply (u : CounterUpdate) (now : Nat) (c : Counter) : Counter :=
  { c with
    status := u.status.getD c.status
    currentQueueId := u.currentQueueId.getD c.currentQueueId
    currentQueueNumber := u.currentQueueNumber.getD c.currentQueueNumber
    nextAvailableAt := u.nextAvailableAt.getD c.nextAvailableAt
    updatedAt := now }

/-- A write to the stored counter `counterId` through `f`, read back with
`Counter.findById`; it throws (`none`) when the document does not exist. -/
def Counter.modify (db : Store) (counterId : String) (f : Counter → Counter) :
    Option (Store × Counter) :=
  match Counter.findById db counterId with
  | none => none
  | some _ =>
    let db1 : Store := { db with
      counters := db.counters.map (fun c => if c.id == counterId then f c else c) }
    match Counter.findById db1 counterId with
    | none => none
    | some c => some (db1, c)

/-- The method `Counter.update`. -/
def Counter.update (db : Store) (now : Nat) (counterId : String)
    (updateData : CounterUpdate) : Option (Store × Counter) :=
  Counter.modify db counterId (updateData.apply now)

/-- The method `Counter.delete`. -/
def Counter.delete (db : Store) (counterId : String) : Store :=
  { db with counters := db.counters.filter (fun c => !(c.id == counterId)) }

/-- The method `Counter.assignQueue`. -/
def Counter.assignQueue (db : Store) (now : Nat) (counterId queueId queueNumber : String) :
    Option (Store × Counter) :=
  Counter.modify db counterId (fun c =>
    { c with
      currentQueueId := some queueId
      currentQueueNumber := queueNumber
      status := CounterStatus.busy
      updatedAt := now })

/-- The method `Counter.completeQueue`. -/
def Counter.completeQueue (db : Store) (now : Nat) (counterId : String) :
    Option (Store × Counter) :=
  Counter.modify db counterId (fun c =>
    { c with
      currentQueueId := none
      currentQueueNumber := ""
      status := CounterStatus.active
      stats := { c.stats with
        servedToday := c.stats.servedToday + 1
        totalServed := c.stats.totalServed + 1 }
      updatedAt := now })

/-- The method `Counter.setBreak`: `duration` is in minutes. -/
def Counter.setBreak (db : Store) (now : Nat) (counterId : String) (duration : Nat) :
    Option (Store × Counter) :=
  Counter.modify db counterId (fun c =>
    { c with
      status := CounterStatus.onBreak
      nextAvailableAt := some (now + duration * 60000)
      updatedAt := now })

/-- The method `Counter.endBreak`. -/
def Counter.endBreak (db : Store) (now : Nat) (counterId : String) :
    Option (Store × Counter) :=
  Counter.modify db counterId (fun c =>
    { c with
      status := CounterStatus.active
      nextAvailableAt := none
      updatedAt := now })

/-! ## HTTP responses -/

/-- The `queue` object of the `201` response of `joinQueue`. -/
structure JoinedQueue where
  id : String
  queueNumber : String
  position : Nat
  estimatedTime : Int
  businessName : String
  serviceType : String
  joinedAt : Nat
  deriving DecidableEq, Repr

/-- What a controller sends: `res.status(status).json(body)`. The body keeps
`success`, `message` and the documents it carries. -/
structure Response where
  status : Nat
  success : Bool
  message : String
  joined : Option JoinedQueue := none
  queue : Option Queue := none
  counter : Option Counter := none
  fromCounterId : Option String := none
  deriving DecidableEq, Repr

/-- A failure body `success: false, message`. -/
def failure (status : Nat) (message : String) : Response :=
  { status := status, success := false, message := message }

/-! ## `controllers/queue.controller.js` -/

/-- The body of `POST /queue/join`; an absent string field is `""`, which the
controller treats like `undefined`. -/
structure JoinBody where
  businessId : String
  serviceType : String
  customerName : String
  customerPhone : String
  customerEmail : String
  notes : String
  deriving DecidableEq, Repr

/-- The counters counted by the wait-time estimate: `isActive` and status `active`
or `busy`. -/
def activeCounters (counters : List Counter) : List Counter :=
  counters.filter (fun c =>
    c.isActive && (c.status == CounterStatus.active || c.status == CounterStatus.busy))

/-- The expression `business.stats.avgServingTime || 5`. -/
def avgServingTimeOrDefault (stats : BusinessStats) : ℚ :=
  match stats.avgServingTime with
  | none => 5
  | some a => if a = 0 then 5 else a

/-- The expression `Math.ceil(position / activeCounters.length * avgServingTime)`:
the quotient is rounded to a double, then the product is, and `Math.ceil` rounds
that double up to an integer. The callers make sure that `activeCount` is not 0. -/
def ceilEstimate (position activeCount : Nat) (avgServingTime : ℚ) : Int :=
  ⌈roundDouble (roundDouble ((position : ℚ) / (activeCount : ℚ)) * avgServingTime)⌉

/-- The controller `joinQueue`. `userId` is `req.user?.userId`, `newId` the id of
the document reference that `Queue.create` makes. -/
def joinQueue (db : Store) (clock : Clock) (newId : String) (userId : Option String)
    (body : JoinBody) : Store × Response :=
  match Business.findById db body.businessId with
  | none => (db, failure 404 "Business not found or inactive")
  | some business =>
    if !business.isActive then (db, failure 404 "Business not found or inactive")
    else if !business.settings.allowRemoteJoin then
      (db, failure 403 "Remote queue joining is not allowed by this business")
    else
      match business.operatingHours.get clock.day with
      | none => (db, failure 400 "Business is currently closed")
      | some hours =>
        if !hours.isOpen then (db, failure 400 "Business is currently closed")
        else
          let currentTime := clock.hours * 60 + clock.minutes
          let openTime := hours.openHour * 60 + hours.openMinute
          let closeTime := hours.closeHour * 60 + hours.closeMinute
          if currentTime < openTime ∨ currentTime > closeTime then
            (db, failure 400 "Business is currently closed")
          else
            let waitingCount := Queue.getWaitingCount db body.businessId
            if waitingCount ≥ business.settings.maxQueueLength then
              (db, failure 400 "Queue is full. Please try again later.")
            else
              let counters := Counter.findByBusinessId db body.businessId
              let active := activeCounters counters
              let estimatedTime : Int :=
                if active.length > 0 then
                  ceilEstimate (waitingCount + 1) active.length
                    (avgServingTimeOrDefault business.stats)
                else 0
              let queueData : QueueData :=
                { businessId := body.businessId
                  serviceType := body.serviceType
                  customerName :=
                    if truthy body.customerName then body.customerName else "Walk-in Customer"
                  customerPhone := body.customerPhone
                  customerEmail := body.customerEmail
                  customerId := if truthyOpt userId then userId else none
                  waitTime := estimatedTime
                  estimatedTime := estimatedTime
                  notes := body.notes
                  status := QueueStatus.waiting }
              match Queue.create db newId clock.now queueData with
              | none => (db, failure 500 "Error joining queue")
              | some (db1, queue) =>
                (db1,
                  { status := 201
                    success := true
                    message := "Successfully joined the queue"
                    joined := some
                      { id := queue.id
                        queueNumber := queue.queueNumber
                        position := queue.position
                        estimatedTime := queue.estimatedTime
                        businessName := business.name
                        serviceType := queue.serviceType
                        joinedAt := queue.joinedAt } })

/-- The body of `POST /queue/business/call-next`. -/
structure CallNextBody where
  counterId : Option String := none
  serviceType : Option String := none
  deriving DecidableEq, Repr

/-- The predicate of `counters.find` in `callNextCustomer`: `isActive`, status
`active`, and no service type asked for, or the counter's own, or `general`. -/
def availableFor (serviceType : Option String) (c : Counter) : Bool :=
  c.isActive && c.status == CounterStatus.active &&
    (!(truthyOpt serviceType) || some c.serviceType == serviceType ||
      c.serviceType == "general")

/-- The `filters` object that `callNextCustomer` builds: status `waiting`, limit 1,
and the service type when it is given and is not `'all'`. -/
def callNextFilters (serviceType : Option String) : QueueFilters :=
  { status := some QueueStatus.waiting
    limit := some 1
    serviceType :=
      if truthyOpt serviceType ∧ serviceType ≠ some "all" then serviceType else none }

/-- The first half of `callNextCustomer`: the counter named by `counterId`, which
must exist and belong to the business, or else the first available counter. -/
def resolveCounter (db : Store) (businessId : String) (body : CallNextBody) :
    Except Response Counter :=
  match body.counterId with
  | some counterId =>
    if truthy counterId then
      match Counter.findById db counterId with
      | none => .error (failure 404 "Counter not found")
      | some counter =>
        if counter.businessId ≠ businessId then .error (failure 404 "Counter not found")
        else .ok counter
    else
      match (Counter.findByBusinessId db businessId).find? (availableFor body.serviceType) with
      | none => .error (failure 400 "No available counters for this service")
      | some counter => .ok counter
  | none =>
    match (Counter.findByBusinessId db businessId).find? (availableFor body.serviceType) with
    | none => .error (failure 400 "No available counters for this service")
    | some counter => .ok counter

/-- The controller `callNextCustomer`. `businessId` is `req.user.businessId`. The
response carries the counter object read before the assignment, as the source
does. -/
def callNextCustomer (db : Store) (clock : Clock) (businessId : String)
    (body : CallNextBody) : Store × Response :=
  match resolveCounter db businessId body with
  | .error r => (db, r)
  | .ok counter =>
    match Queue.findByBusinessId db businessId (callNextFilters body.serviceType) with
    | [] => (db, failure 404 "No customers waiting in queue")
    | nextCustomer :: _ =>
      match Queue.update db clock.now nextCustomer.id
          { status := some QueueStatus.called
            counterId := some counter.id
            calledAt := some clock.now } with
      | none => (db, failure 500 "Error calling next customer")
      | some (db1, updatedQueue) =>
        match Counter.assignQueue db1 clock.now counter.id nextCustomer.id
            nextCustomer.queueNumber with
        | none => (db1, failure 500 "Error calling next customer")
        | some (db2, _) =>
          (db2,
            { status := 200
              success := true
              message := "Customer called successfully"
              queue := some updatedQueue
              counter := some counter })

/-- The reads of `callNextCustomer`, up to the line `const nextCustomer =
waitingQueue[0]`: the counter resolved and the entry at the head of the query, or
the failure answered. Nothing is written. -/
def callNextRead (db : Store) (businessId : String) (body : CallNextBody) :
    Except Response (Counter × Queue) :=
  match resolveCounter db businessId body with
  | .error r => .error r
  | .ok counter =>
    match Queue.findByBusinessId db businessId (callNextFilters body.serviceType) with
    | [] => .error (failure 404 "No customers waiting in queue")
    | nextCustomer :: _ => .ok (counter, nextCustomer)

/-- The writes of `callNextCustomer`, from `Queue.update(nextCustomer.id, ..)` on,
for the `counter` and `nextCustomer` it holds in its local variables. Neither write
is conditional on what the store holds by then. -/
def callNextWrite (db : Store) (clock : Clock) (counter : Counter) (nextCustomer : Queue) :
    Store × Response :=
  match Queue.update db clock.now nextCustomer.id
      { status := some QueueStatus.called
        counterId := some counter.id
        calledAt := some clock.now } with
  | none => (db, failure 500 "Error calling next customer")
  | some (db1, updatedQueue) =>
    match Counter.assignQueue db1 clock.now counter.id nextCustomer.id
        nextCustomer.queueNumber with
    | none => (db1, failure 500 "Error calling next customer")
    | some (db2, _) =>
      (db2,
        { status := 200
          success := true
          message := "Customer called successfully"
          queue := some updatedQueue
          counter := some counter })

/-- Two `callNextCustomer` requests that run concurrently, in the schedule where
each has finished its reads (its `await`s on `Counter.findByBusinessId` and
`Queue.findByBusinessId`) before either starts to write: both read the store `db`,
then the first writes, then the second. The result is the final store and the two
responses. -/
def callNextConcurrently (db : Store) (clock1 clock2 : Clock) (businessId : String)
    (body1 body2 : CallNextBody) : Store × Response × Response :=
  let read1 := callNextRead db businessId body1
  let read2 := callNextRead db businessId body2
  let step1 : Store × Response :=
    match read1 with
    | .error r => (db, r)
    | .ok (counter, nextCustomer) => callNextWrite db clock1 counter nextCustomer
  let step2 : Store × Response :=
    match read2 with
    | .error r => (step1.1, r)
    | .ok (counter, nextCustomer) => callNextWrite step1.1 clock2 counter nextCustomer
  (step2.1, step1.2, step2.2)

/-- The lookup that opens `startServing`, `completeService`, `skipCustomer` and
`transferQueue`: the entry must exist and belong to the caller's business. -/
def findOwnQueue (db : Store) (businessId queueId : String) : Option Queue :=
  match Queue.findById db queueId with
  | none => none
  | some queue => if queue.businessId ≠ businessId then none else some queue

/-- The controller `startServing`. -/
def startServing (db : Store) (clock : Clock) (businessId queueId : String) :
    Store × Response :=
  match findOwnQueue db businessId queueId with
  | none => (db, failure 404 "Queue not found")
  | some queue =>
    if queue.status ≠ QueueStatus.called then (db, failure 400 "Customer must be called first")
    else
      match Queue.update db clock.now queueId
          { status := some QueueStatus.serving, servingAt := some clock.now } with
      | none => (db, failure 500 "Error starting service")
      | some (db1, updatedQueue) =>
        (db1,
          { status := 200
            success := true
            message := "Started serving customer"
            queue := some updatedQueue })

/-- The serving time in minutes that `completeService` feeds to the average:
`(new Date() - queue.servingAt.toDate()) / (1000 * 60)`, or `0` without
`servingAt`. The difference of the two times and its quotient by `60000` are each
rounded to a double. -/
def servingMinutes (now : Nat) (servingAt : Option Nat) : ℚ :=
  match servingAt with
  | some t => roundDouble (roundDouble ((now : ℚ) - (t : ℚ)) / 60000)
  | none => 0

/-- The `stats` map that `completeService` writes: `newTotal`, the count plus one,
and `newAvg`, the re-weighted average
`(avgServingTime * totalCustomersServed + servingTime) / newTotal`, each operation
rounded to a double. Arithmetic on a missing number gives `NaN` (`none`); a
`newTotal` of 0, which takes a stored count of -1, makes the quotient `NaN` or an
infinity (`none`); and the keys that the map does not name are dropped by the
replacement. -/
def completedStats (stats : BusinessStats) (servingTime : ℚ) : BusinessStats :=
  { totalCustomersServed := stats.totalCustomersServed.map (fun n => roundDouble (n + 1))
    avgServingTime :=
      match stats.avgServingTime, stats.totalCustomersServed with
      | some a, some n =>
        if roundDouble (n + 1) = 0 then none
        else
          some (roundDouble
            (roundDouble (roundDouble (a * n) + servingTime) / roundDouble (n + 1)))
      | _, _ => none
    avgWaitTime := none
    customerSatisfaction := none
    peakHours := none }

/-- The controller `completeService`. It checks no status. A failing write (the
counter of the entry no longer exists) leaves the earlier writes in place and
answers 500. -/
def completeService (db : Store) (clock : Clock) (businessId queueId : String) :
    Store × Response :=
  match findOwnQueue db businessId queueId with
  | none => (db, failure 404 "Queue not found")
  | some queue =>
    match Queue.update db clock.now queueId
        { status := some QueueStatus.completed, completedAt := some clock.now } with
    | none => (db, failure 500 "Error completing service")
    | some (db1, updatedQueue) =>
      let released : Option Store :=
        match queue.counterId with
        | some counterId => (Counter.completeQueue db1 clock.now counterId).map Prod.fst
        | none => some db1
      match released with
      | none => (db1, failure 500 "Error completing service")
      | some db2 =>
        let db3 : Option Store :=
          match Business.findById db2 businessId with
          | some business =>
            Business.updateStats db2 clock.now businessId
              (completedStats business.stats (servingMinutes clock.now queue.servingAt))
          | none => some db2
        match db3 with
        | none => (db2, failure 500 "Error completing service")
        | some db4 =>
          (db4,
            { status := 200
              success := true
              message := "Service completed successfully"
              queue := some updatedQueue })

/-- The patch that `skipCustomer` and `transferQueue` apply to free a counter. -/
def freeCounter : CounterUpdate :=
  { currentQueueId := some none
    currentQueueNumber := some ""
    status := some CounterStatus.active }

/-- The controller `skipCustomer`; `reason` is `req.body.reason`. It checks no
status. -/
def skipCustomer (db : Store) (clock : Clock) (businessId queueId : String)
    (reason : Option String) : Store × Response :=
  match findOwnQueue db businessId queueId with
  | none => (db, failure 404 "Queue not found")
  | some queue =>
    match Queue.update db clock.now queueId
        { status := some QueueStatus.skipped
          notes := some (match reason with
            | some r => if truthy r then "Skipped: " ++ r else queue.notes
            | none => queue.notes) } with
    | none => (db, failure 500 "Error skipping customer")
    | some (db1, updatedQueue) =>
      let released : Option Store :=
        match queue.counterId with
        | some counterId => (Counter.update db1 clock.now counterId freeCounter).map Prod.fst
        | none => some db1
      match released with
      | none => (db1, failure 500 "Error skipping customer")
      | some db2 =>
        (db2,
          { status := 200
            success := true
            message := "Customer skipped"
            queue := some updatedQueue })

/-- The controller `transferQueue`. It checks neither the status of the entry nor
that of the target counter. -/
def transferQueue (db : Store) (clock : Clock) (businessId queueId toCounterId : String) :
    Store × Response :=
  match findOwnQueue db businessId queueId with
  | none => (db, failure 404 "Queue not found")
  | some queue =>
    match Counter.findById db toCounterId with
    | none => (db, failure 404 "Target counter not found")
    | some toCounter =>
      if toCounter.businessId ≠ businessId then (db, failure 404 "Target counter not found")
      else
        let released : Option Store :=
          match queue.counterId with
          | some counterId => (Counter.update db clock.now counterId freeCounter).map Prod.fst
          | none => some db
        match released with
        | none => (db, failure 500 "Error transferring queue")
        | some db1 =>
          match Counter.assignQueue db1 clock.now toCounter.id queue.id queue.queueNumber with
          | none => (db1, failure 500 "Error transferring queue")
          | some (db2, _) =>
            match Queue.update db2 clock.now queue.id { counterId := some toCounter.id } with
            | none => (db2, failure 500 "Error transferring queue")
            | some (db3, updatedQueue) =>
              (db3,
                { status := 200
                  success := true
                  message := "Queue transferred successfully"
                  queue := some updatedQueue
                  fromCounterId := queue.counterId
                  counter := some toCounter })

/-! ## `controllers/counter.controller.js` -/

/-- The lookup that opens every counter controller: the counter must exist and
belong to the caller's business. -/
def findOwnCounter (db : Store) (businessId counterId : String) : Option Counter :=
  match Counter.findById db counterId with
  | none => none
  | some counter => if counter.businessId ≠ businessId then none else some counter

/-- The test `validStatuses.includes(status)` of `setCounterStatus`, with the
status it names. -/
def parseCounterStatus (status : String) : Option CounterStatus :=
  if status = "active" then some CounterStatus.active
  else if status = "inactive" then some CounterStatus.inactive
  else if status = "busy" then some CounterStatus.busy
  else if status = "break" then some CounterStatus.onBreak
  else none

/-- The expression `x || 15` on a break duration in minutes. -/
def orFifteen (minutes : Nat) : Nat := if minutes = 0 then 15 else minutes

/-- The controller `deleteCounter`. -/
def deleteCounter (db : Store) (businessId counterId : String) : Store × Response :=
  match findOwnCounter db businessId counterId with
  | none => (db, failure 404 "Counter not found")
  | some counter =>
    if counter.status = CounterStatus.busy then
      (db, failure 400 "Cannot delete counter while serving customer")
    else
      (Counter.delete db counterId,
        { status := 200, success := true, message := "Counter deleted successfully" })

/-- The controller `setCounterStatus`; `status` is `req.body.status`. It accepts
every valid status whatever the current one. -/
def setCounterStatus (db : Store) (clock : Clock) (businessId counterId status : String) :
    Store × Response :=
  match findOwnCounter db businessId counterId with
  | none => (db, failure 404 "Counter not found")
  | some counter =>
    match parseCounterStatus status with
    | none => (db, failure 400 "Invalid status")
    | some st =>
      let updateData : CounterUpdate :=
        { status := some st
          nextAvailableAt :=
            if st = CounterStatus.onBreak then
              some (some (clock.now + orFifteen counter.settings.breakDuration * 60000))
            else some none }
      match Counter.update db clock.now counterId updateData with
      | none => (db, failure 500 "Error updating counter status")
      | some (db1, updatedCounter) =>
        (db1,
          { status := 200
            success := true
            message := "Counter status updated successfully"
            counter := some updatedCounter })

/-- The controller `setCounterBreak`; `duration` is `req.body.duration` (`0` when
absent). -/
def setCounterBreak (db : Store) (clock : Clock) (businessId counterId : String)
    (duration : Nat) : Store × Response :=
  match findOwnCounter db businessId counterId with
  | none => (db, failure 404 "Counter not found")
  | some counter =>
    if counter.status = CounterStatus.busy then
      (db, failure 400 "Cannot set break while serving customer")
    else
      let breakDuration :=
        if duration = 0 then orFifteen counter.settings.breakDuration else duration
      match Counter.setBreak db clock.now counterId breakDuration with
      | none => (db, failure 500 "Error setting counter break")
      | some (db1, updatedCounter) =>
        (db1,
          { status := 200
            success := true
            message := "Counter break set successfully"
            counter := some updatedCounter })

/-- The controller `endCounterBreak`. -/
def endCounterBreak (db : Store) (clock : Clock) (businessId counterId : String) :
    Store × Response :=
  match findOwnCounter db businessId counterId with
  | none => (db, failure 404 "Counter not found")
  | some counter =>
    if counter.status ≠ CounterStatus.onBreak then
      (db, failure 400 "Counter is not on break")
    else
      match Counter.endBreak db clock.now counterId with
      | none => (db, failure 500 "Error ending counter break")
      | some (db1, updatedCounter) =>
        (db1,
          { status := 200
            success := true
            message := "Counter break ended successfully"
            counter := some updatedCounter })

/-! ## `services/queue.service.js` -/

/-- The method `QueueService.calculateEstimatedWaitTime`: `0` without the business
or without a counter that is `isActive` with status `active` or `busy`, else the
rounded-up share of the position per such counter times the average serving
time. -/
def QueueService.calculateEstimatedWaitTime (db : Store) (businessId : String)
    (position : Nat) : Int :=
  match Business.findById db businessId with
  | none => 0
  | some business =>
    let active := activeCounters (Counter.findByBusinessId db businessId)
    if active.length = 0 then 0
    else ceilEstimate position active.length (avgServingTimeOrDefault business.stats)

/-- What `checkForNotifications` hands to `sendNotification` with type
`near_turn`: the contact fields of the entry and the `data` object. -/
structure NearTurn where
  customerId : String
  customerPhone : String
  customerEmail : String
  queueNumber : String
  customerName : String
  positionsAhead : Nat
  estimatedTime : Int
  deriving DecidableEq, Repr

/-- The test of `checkForNotifications` on one in-memory entry: its position is
at most the threshold and is not among its `notifiedPositions`. -/
def QueueService.dueForNotification (notifyPosition : Nat) (customer : Queue) : Bool :=
  decide (customer.position ≤ notifyPosition) &&
    !(customer.notifiedPositions.contains customer.position)

/-- The `near_turn` request that `checkForNotifications` makes for an entry. -/
def QueueService.nearTurnFor (db : Store) (businessId : String) (customer : Queue) : NearTurn :=
  { customerId := customer.customerId
    customerPhone := customer.customerPhone
    customerEmail := customer.customerEmail
    queueNumber := customer.queueNumber
    customerName := customer.customerName
    positionsAhead := customer.position - 1
    estimatedTime :=
      QueueService.calculateEstimatedWaitTime db businessId (customer.position - 1) }

/-- The `for` loop of `checkForNotifications` over the in-memory entries: for each
entry that is due, request the notification and write its `notifiedPositions`
extended by its position. A failing write ends the loop (the `catch` around it
only logs). The result is the store and the requests made, in order. -/
def QueueService.notifyLoop (db : Store) (now : Nat) (businessId : String)
    (notifyPosition : Nat) : List Queue → Store × List NearTurn
  | [] => (db, [])
  | customer :: rest =>
    if QueueService.dueForNotification notifyPosition customer then
      match Queue.update db now customer.id
          { notifiedPositions := some (customer.notifiedPositions ++ [customer.position]) } with
      | none => (db, [QueueService.nearTurnFor db businessId customer])
      | some (db1, _) =>
        ((QueueService.notifyLoop db1 now businessId notifyPosition rest).1,
          QueueService.nearTurnFor db businessId customer ::
            (QueueService.notifyLoop db1 now businessId notifyPosition rest).2)
    else QueueService.notifyLoop db now businessId notifyPosition rest

/-- The method `QueueService.checkForNotifications` on the in-memory list `queue`:
nothing happens without the business or with a falsy `notifyBeforePositions`. -/
def QueueService.checkForNotifications (db : Store) (now : Nat) (businessId : String)
    (queue : List Queue) : Store × List NearTurn :=
  match Business.findById db businessId with
  | none => (db, [])
  | some business =>
    if business.settings.notifyBeforePositions = 0 then (db, [])
    else QueueService.notifyLoop db now businessId business.settings.notifyBeforePositions queue

/-- The call `waitingQueue.sort((a, b) => a.joinedAt - b.joinedAt)`: a stable sort
by ascending join time. -/
def QueueService.sortByJoinTime (waitingQueue : List Queue) : List Queue :=
  waitingQueue.insertionSort (fun a b => a.joinedAt ≤ b.joinedAt)

/-- The writes `Queue.update(queue.id, { position: index + 1 })` of
`updateQueuePositions`, from index `index` on; a failing write throws (`none`). -/
def QueueService.writePositions (db : Store) (now : Nat) : List Queue → Nat → Option Store
  | [], _ => some db
  | queue :: rest, index =>
    match Queue.update db now queue.id { position := some (index + 1) } with
    | none => none
    | some (db1, _) => QueueService.writePositions db1 now rest (index + 1)

/-- The method `QueueService.updateQueuePositions`: read the waiting entries, sort
them by join time, store `position = index + 1` for each, then run
`checkForNotifications` on the sorted list. That list holds the objects read
before the writes, so the positions it carries are the old stored ones. The result
is the store, the returned list and the `near_turn` requests made. -/
def QueueService.updateQueuePositions (db : Store) (now : Nat) (businessId : String) :
    Option (Store × List Queue × List NearTurn) :=
  let waitingQueue := Queue.findByBusinessId db businessId { status := some QueueStatus.waiting }
  let sortedQueue := QueueService.sortByJoinTime waitingQueue
  match QueueService.writePositions db now sortedQueue 0 with
  | none => none
  | some db1 =>
    some ((QueueService.checkForNotifications db1 now businessId sortedQueue).1, sortedQueue,
      (QueueService.checkForNotifications db1 now businessId sortedQueue).2)

/-! ## `services/notification.service.js` -/

/-- What a JavaScript `throw` carries: an `Error` object with its message, or a
value without properties (`null`, `undefined`). -/
inductive Thrown where
  | error (message : String)
  | nullish
  deriving DecidableEq, Repr

/-- The outcome of a step that is outside the program (sending a mail, calling the
SMS client, writing the log document): it returns or it throws. -/
inductive Outcome where
  | done
  | throws (thrown : Thrown)
  deriving DecidableEq, Repr

/-- The expression `error.message` of a `catch` handler: reading a property of
`null` or `undefined` is itself a `TypeError`. -/
def Thrown.message : Thrown → Except Thrown String
  | .error message => .ok message
  | .nullish => .error (.error "Cannot read properties of null (reading 'message')")

/-- The argument of `sendNotification`; an absent string is `""`, `hasData` tells
whether `data` is an object. -/
structure NotificationData where
  type : String
  customerId : String
  customerPhone : String
  customerEmail : String
  businessId : String
  hasData : Bool
  deriving DecidableEq, Repr

/-- Everything `sendNotification` depends on besides its argument: whether the SMS
client is configured, and how each outside step ends. -/
structure Transports where
  twilioConfigured : Bool
  sendMail : Outcome
  sendSms : Outcome
  pushLog : Outcome
  logWrite : Outcome
  deriving DecidableEq, Repr

/-- One element of `results`. -/
structure MethodResult where
  method : String
  success : Bool
  error : Option String
  deriving DecidableEq, Repr

/-- The object `sendNotification` returns. -/
structure SendResult where
  success : Bool
  results : List MethodResult
  error : Option String
  deriving DecidableEq, Repr

/-- The keys of the `templates` table: the four notification types of
`NOTIFICATION_TYPES` that have a template (each with `email` and `sms`). -/
def hasTemplate (type : String) : Bool :=
  type == "queue_update" || type == "call_next" || type == "near_turn" ||
    type == "customer_joined"

/-- A `try { step } catch (error) { results.push({ method, success: false, error:
error.message }) }` block of `sendNotification`: the entry it pushes, or what the
handler itself throws. -/
def attempt (method : String) (step : Outcome) : Except Thrown MethodResult :=
  match step with
  | .done => .ok { method := method, success := true, error := none }
  | .throws thrown =>
    match thrown.message with
    | .ok message => .ok { method := method, success := false, error := some message }
    | .error thrown1 => .error thrown1

/-- The block `try { log write } catch (error) { console.error(..) }` of
`sendNotification`: whatever the write does, the block completes. -/
def logSilently (step : Outcome) : Except Thrown Unit :=
  match step with
  | .done => .ok ()
  | .throws _ => .ok ()

/-- The `try` block of `sendNotification`: destructuring the argument, the template
lookup, the guarded mail, SMS and push steps, the log write (whose own `catch` only
prints) and the returned object. Rendering a template from a missing `data` throws
a `TypeError` inside the step. -/
def sendNotificationBody (arg : Option NotificationData) (t : Transports) :
    Except Thrown SendResult :=
  match arg with
  | none => .error (.error "Cannot destructure property 'type' of 'notificationData'")
  | some n =>
    if !hasTemplate n.type then .error (.error ("Unknown notification type: " ++ n.type))
    else
      let render (send : Outcome) : Outcome :=
        if n.hasData then send
        else .throws (.error "Cannot read properties of undefined")
      let email : Except Thrown (List MethodResult) :=
        if truthy n.customerEmail then (attempt "email" (render t.sendMail)).map (fun r => [r])
        else .ok []
      let sms : Except Thrown (List MethodResult) :=
        if truthy n.customerPhone && t.twilioConfigured then
          (attempt "sms" (render t.sendSms)).map (fun r => [r])
        else .ok []
      let push : Except Thrown (List MethodResult) :=
        if truthy n.customerId then (attempt "push" t.pushLog).map (fun r => [r])
        else .ok []
      match email with
      | .error e => .error e
      | .ok r1 =>
        match sms with
        | .error e => .error e
        | .ok r2 =>
          match push with
          | .error e => .error e
          | .ok r3 =>
            match logSilently t.logWrite with
            | .error e => .error e
            | .ok _ =>
              .ok { success := (r1 ++ r2 ++ r3).any (fun r => r.success)
                    results := r1 ++ r2 ++ r3
                    error := none }

/-- The function `sendNotification`: the `try` block, and the outer `catch` that
returns `success: false` with `error.message`. -/
def sendNotification (arg : Option NotificationData) (t : Transports) :
    Except Thrown SendResult :=
  match sendNotificationBody arg t with
  | .ok result => .ok result
  | .error thrown =>
    match thrown.message with
    | .ok message => .ok { success := false, results := [], error := some message }
    | .error thrown1 => .error thrown1

/-- The statement `await sendNotification(..)` inside the `try` block of a
controller, followed by the rest of the controller: a throw would reach the
controller's `catch`, which answers 500 with `errorMessage`. -/
def awaitNotification (sent : Except Thrown SendResult) (errorMessage : String)
    (rest : Response) : Response :=
  match sent with
  | .ok _ => rest
  | .error _ => failure 500 errorMessage

/-! ## Properties of a store -/

/-- The entry that a counter's `currentQueueId` references, if it is set and such
an entry is stored. -/
def currentEntry (db : Store) (c : Counter) : Option Queue :=
  match c.currentQueueId with
  | none => none
  | some queueId => db.queues.find? (fun q => q.id == queueId)

/-- The busy-counter condition on one counter: a `busy` counter references an
entry in status `called` or `serving` whose `counterId` is this counter, and a
counter that is not `busy` has `currentQueueId = null`. -/
def counterConsistent (db : Store) (c : Counter) : Bool :=
  if c.status = CounterStatus.busy then
    match currentEntry db c with
    | some q =>
      (q.status == QueueStatus.called || q.status == QueueStatus.serving) &&
        q.counterId == some c.id
    | none => false
  else c.currentQueueId.isNone

/-- The busy-counter invariant: every counter of the store is consistent. -/
def busyCounterInvariant (db : Store) : Prop :=
  ∀ c ∈ db.counters, counterConsistent db c = true

instance (db : Store) : Decidable (busyCounterInvariant db) :=
  inferInstanceAs (Decidable (∀ c ∈ db.counters, counterConsistent db c = true))

/-- The stored positions of the waiting entries of a business. -/
def waitingPositions (db : Store) (businessId : String) : List Nat :=
  (db.queues.filter (fun q =>
    q.businessId == businessId && q.status == QueueStatus.waiting)).map (fun q => q.position)

/-- What the loop of `checkForNotifications` over the in-memory list `queue` does
to one stored document: the first entry of the list with the same id, when it
is due, replaces the stored `notifiedPositions` by its own extended by its
position. -/
def QueueService.markNotified (notifyPosition : Nat) (queue : List Queue) (d : Queue) : Queue :=
  match queue.find? (fun c => c.id == d.id) with
  | some c =>
    if QueueService.dueForNotification notifyPosition c then
      { d with notifiedPositions := c.notifiedPositions ++ [c.position] }
    else d
  | none => d

/-- The waiting entries of a business as `updateQueuePositions` reads them. -/
def QueueService.readWaiting (db : Store) (businessId : String) : List Queue :=
  Queue.findByBusinessId db businessId { status := some QueueStatus.waiting }

/-- The store after the loop of `checkForNotifications` with threshold
`notifyPosition` has run over the waiting entries just read. -/
def QueueService.markedStore (notifyPosition : Nat) (db : Store) (businessId : String) : Store :=
  { db with
    queues := db.queues.map
      (QueueService.markNotified notifyPosition (QueueService.readWaiting db businessId)) }

/-- What the writes of `updateQueuePositions` over the list `sortedQueue`, numbered
from `index` on, do to one stored document: a document whose id is in the list gets
the position `index + i + 1`, with `i` the place of its id in the list. -/
def QueueService.positioned (sortedQueue : List Queue) (index : Nat) (d : Queue) : Queue :=
  if d.id ∈ sortedQueue.map (fun q => q.id) then
    { d with position := index + (sortedQueue.map (fun q => q.id)).indexOf d.id + 1 }
  else d

/-- The list that `updateQueuePositions` sorts and numbers. -/
def QueueService.sortedWaiting (db : Store) (businessId : String) : List Queue :=
  QueueService.sortByJoinTime (QueueService.readWaiting db businessId)

/-- The store after the writes of `updateQueuePositions`, before its notification
check. -/
def QueueService.positionedStore (db : Store) (businessId : String) : Store :=
  { db with
    queues := db.queues.map
      (QueueService.positioned (QueueService.sortedWaiting db businessId) 0) }

/-- Every entry's `counterId` refers to a counter of the entry's own business: a
stored counter with that id has the entry's `businessId`. -/
def countersOfOwnBusiness (db : Store) : Prop :=
  ∀ e ∈ db.queues, ∀ c ∈ db.counters, e.counterId = some c.id → c.businessId = e.businessId

instance (db : Store) : Decidable (countersOfOwnBusiness db) :=
  inferInstanceAs (Decidable (∀ e ∈ db.queues, ∀ c ∈ db.counters,
    e.counterId = some c.id → c.businessId = e.businessId))

/-- The documents of `after` that belong to another business than `businessId`
are those of `before`, unchanged: the entries and counters with another
`businessId`, and the other business documents. -/
def unchangedOutside (businessId : String) (before after : Store) : Prop :=
  after.queues.filter (fun q => q.businessId != businessId)
    = before.queues.filter (fun q => q.businessId != businessId) ∧
  after.counters.filter (fun c => c.businessId != businessId)
    = before.counters.filter (fun c => c.businessId != businessId) ∧
  after.businesses.filter (fun b => b.id != businessId)
    = before.businesses.filter (fun b => b.id != businessId)

/-- Every stored entry with the id `queueId` belongs to the business. -/
def ownsQueue (db : Store) (businessId queueId : String) : Prop :=
  ∀ d ∈ db.queues, d.id = queueId → d.businessId = businessId

/-- Every stored counter with the id `counterId` belongs to the business. -/
def ownsCounter (db : Store) (businessId counterId : String) : Prop :=
  ∀ d ∈ db.counters, d.id = counterId → d.businessId = businessId

/-! ## Sample data for the scenarios -/

/-- Opening hours that cover the whole day. -/
def openAllDay : Hours :=
  { openHour := 0, openMinute := 0, closeHour := 23, closeMinute := 59, isOpen := true }

/-- An active business `b1`, open every day but Sunday, that allows remote joining
and admits `maxQueueLength` waiting entries. -/
def sampleBusiness (maxQueueLength : Nat) : Business :=
  { id := "b1"
    name := "Shop"
    isActive := true
    settings :=
      { maxQueueLength := maxQueueLength
        maxWaitTime := 120
        notifyBeforePositions := 3
        autoCallInterval := 30
        allowRemoteJoin := true
        requireCustomerInfo := false
        enableSmsNotifications := false
        enableEmailNotifications := true
        enablePushNotifications := true }
    operatingHours :=
      { sunday := none
        monday := some openAllDay
        tuesday := some openAllDay
        wednesday := some openAllDay
        thursday := some openAllDay
        friday := some openAllDay
        saturday := some openAllDay }
    stats :=
      { totalCustomersServed := some 0
        avgWaitTime := some 0
        avgServingTime := some 0
        customerSatisfaction := some 0
        peakHours := some [] }
    updatedAt := 0 }

/-- A counter of business `b1` with `isActive = true`. -/
def sampleCounter (id : String) (number : Nat) (serviceType : String)
    (status : CounterStatus) (currentQueueId : Option String)
    (currentQueueNumber : String) : Counter :=
  { id := id
    businessId := "b1"
    name := "Counter"
    number := number
    serviceType := serviceType
    staffId := none
    staffName := ""
    status := status
    currentQueueId := currentQueueId
    currentQueueNumber := currentQueueNumber
    nextAvailableAt := none
    settings :=
      { autoCall := false, maxCustomersPerHour := 20, breakDuration := 15, breakFrequency := 120 }
    stats := { servedToday := 0, avgServingTime := some 0, totalServed := 0, efficiency := some 0 }
    createdAt := 0
    updatedAt := 0
    isActive := true }

/-- An entry of business `b1` for service type `general`. -/
def sampleEntry (id queueNumber : String) (joinedAt : Nat) (status : QueueStatus)
    (position : Nat) (counterId : Option String) : Queue :=
  { id := id
    queueNumber := queueNumber
    businessId := "b1"
    customerId := ""
    customerName := "Ann"
    customerPhone := ""
    customerEmail := ""
    serviceType := "general"
    status := status
    position := position
    waitTime := 0
    estimatedTime := 0
    counterId := counterId
    calledAt := none
    servingAt := none
    completedAt := none
    joinedAt := joinedAt
    notes := ""
    priority := false
    notifiedPositions := [] }

/-- A Monday, 10:00 local time, at timestamp `now`. -/
def mondayAt (now : Nat) : Clock :=
  { now := now, day := Day.monday, hours := 10, minutes := 0 }

/-- A join request for business `b1`. -/
def sampleJoin : JoinBody :=
  { businessId := "b1"
    serviceType := "general"
    customerName := "Ann"
    customerPhone := ""
    customerEmail := ""
    notes := "" }

/-- Business `b1` with one free general counter and no entry. -/
def emptyShop (maxQueueLength : Nat) : Store :=
  { businesses := [sampleBusiness maxQueueLength]
    queues := []
    counters := [sampleCounter "c1" 1 "general" CounterStatus.active none ""] }

/-- The store after two joins to the empty shop with `maxQueueLength = 2`. -/
def afterTwoJoins : Store :=
  (joinQueue (joinQueue (emptyShop 2) (mondayAt 1000) "q1" none sampleJoin).1
    (mondayAt 2000) "q2" none sampleJoin).1

/-- Two waiting entries, `Q001` joined before `Q002`, and one free counter. -/
def twoWaiting : Store :=
  { businesses := [sampleBusiness 50]
    queues :=
      [sampleEntry "q1" "Q001" 1000 QueueStatus.waiting 1 none,
        sampleEntry "q2" "Q002" 2000 QueueStatus.waiting 2 none]
    counters := [sampleCounter "c1" 1 "general" CounterStatus.active none ""] }

/-- A business whose largest queue number so far is `Q998`. -/
def nearRollover : Store :=
  { businesses := [sampleBusiness 50]
    queues := [sampleEntry "q998" "Q998" 1000 QueueStatus.completed 1 none]
    counters := [] }

/-- Three successive joins, with fresh ids `a`, `b`, `c`. -/
def threeJoins (db : Store) : Store :=
  (joinQueue (joinQueue (joinQueue db (mondayAt 2000) "a" none sampleJoin).1
    (mondayAt 3000) "b" none sampleJoin).1 (mondayAt 4000) "c" none sampleJoin).1

/-- Counter `c1` is busy with the called entry `Q001`, entry `Q002` waits and
counter `c2` is free. -/
def calledAtCounter : Store :=
  { businesses := [sampleBusiness 50]
    queues :=
      [sampleEntry "q1" "Q001" 1000 QueueStatus.called 1 (some "c1"),
        sampleEntry "q2" "Q002" 2000 QueueStatus.waiting 2 none]
    counters :=
      [sampleCounter "c1" 1 "general" CounterStatus.busy (some "q1") "Q001",
        sampleCounter "c2" 2 "general" CounterStatus.active none ""] }

/-- Entry `Q001` was completed at counter `c1`, which is now busy with the called
entry `Q002`. -/
def reusedCounter : Store :=
  { businesses := [sampleBusiness 50]
    queues :=
      [sampleEntry "q1" "Q001" 1000 QueueStatus.completed 1 (some "c1"),
        sampleEntry "q2" "Q002" 2000 QueueStatus.called 2 (some "c1")]
    counters := [sampleCounter "c1" 1 "general" CounterStatus.busy (some "q2") "Q002"] }

/-- One waiting entry and one free counter whose service type is `payment`. -/
def paymentOnly : Store :=
  { businesses := [sampleBusiness 50]
    queues := [sampleEntry "q1" "Q001" 1000 QueueStatus.waiting 1 none]
    counters := [sampleCounter "c1" 1 "payment" CounterStatus.active none ""] }

/-- The sample business with remote joining switched off. -/
def remoteOff : Store :=
  { businesses :=
      [{ sampleBusiness 50 with
          settings := { (sampleBusiness 50).settings with allowRemoteJoin := false } }]
    queues := []
    counters := [sampleCounter "c1" 1 "general" CounterStatus.active none ""] }

/-- A business with average serving time 5, one free and one busy counter and a
counter on break. -/
def twoActiveCounters : Store :=
  { businesses :=
      [{ sampleBusiness 50 with
          stats := { (sampleBusiness 50).stats with avgServingTime := some 5 } }]
    queues := [sampleEntry "q1" "Q001" 1000 QueueStatus.called 1 (some "c2")]
    counters :=
      [sampleCounter "c1" 1 "general" CounterStatus.active none "",
        sampleCounter "c2" 2 "general" CounterStatus.busy (some "q1") "Q001",
        sampleCounter "c3" 3 "general" CounterStatus.onBreak none ""] }

/-- Entry `Q001` is being served at the busy counter `c1`; counter `c2` is free. -/
def servingAtCounter : Store :=
  { businesses := [sampleBusiness 50]
    queues :=
      [{ sampleEntry "q1" "Q001" 1000 QueueStatus.serving 1 (some "c1") with
          calledAt := some 2000, servingAt := some 3000 }]
    counters :=
      [sampleCounter "c1" 1 "general" CounterStatus.busy (some "q1") "Q001",
        sampleCounter "c2" 2 "general" CounterStatus.active none ""] }

/-- Five waiting entries `Q001` to `Q005` at positions 1 to 5; the business has
`notifyBeforePositions = 3`. -/
def fiveWaiting : Store :=
  { businesses := [sampleBusiness 50]
    queues :=
      [sampleEntry "q1" "Q001" 1000 QueueStatus.waiting 1 none,
        sampleEntry "q2" "Q002" 2000 QueueStatus.waiting 2 none,
        sampleEntry "q3" "Q003" 3000 QueueStatus.waiting 3 none,
        sampleEntry "q4" "Q004" 4000 QueueStatus.waiting 4 none,
        sampleEntry "q5" "Q005" 5000 QueueStatus.waiting 5 none]
    counters := [sampleCounter "c1" 1 "general" CounterStatus.active none ""] }

/-- One departure followed by one run of the position engine: the waiting entry
`queueId` is skipped, then `updateQueuePositions` runs. The result is the store
and the `near_turn` requests of that run. -/
def departThenUpdate (db : Store) (now : Nat) (queueId : String) : Store × List NearTurn :=
  match QueueService.updateQueuePositions
      (skipCustomer db (mondayAt now) "b1" queueId none).1 now "b1" with
  | none => (db, [])
  | some (db1, _, requests) => (db1, requests)

/-- The `near_turn` requests of a run that concern the entry `Q005`, as
`positionsAhead` values. -/
def requestsForQ005 (run : Store × List NearTurn) : List Nat :=
  (run.2.filter (fun n => n.queueNumber == "Q005")).map (fun n => n.positionsAhead)

/-- The stored position of the entry `q5`. -/
def positionOfQ5 (db : Store) : Option Nat :=
  (db.queues.find? (fun q => q.id == "q5")).map (fun q => q.position)

/-- The first run: `Q001` leaves, `Q005` moves from position 5 to 4. -/
def nearTurnRun1 : Store × List NearTurn := departThenUpdate fiveWaiting 6000 "q1"

/-- The second run: `Q002` leaves, `Q005` moves to position 3. -/
def nearTurnRun2 : Store × List NearTurn := departThenUpdate nearTurnRun1.1 7000 "q2"

/-- The third run: `Q003` leaves, `Q005` moves to position 2. -/
def nearTurnRun3 : Store × List NearTurn := departThenUpdate nearTurnRun2.1 8000 "q3"

/-- The fourth run: `Q004` leaves, `Q005` moves to position 1. -/
def nearTurnRun4 : Store × List NearTurn := departThenUpdate nearTurnRun3.1 9000 "q4"

/-- One waiting entry `Q001` and one free counter of service type `general`. -/
def singleCounter : Store :=
  { businesses := [sampleBusiness 50]
    queues := [sampleEntry "q1" "Q001" 1000 QueueStatus.waiting 1 none]
    counters := [sampleCounter "c1" 1 "general" CounterStatus.active none ""] }

/-- Two waiting entries and two free counters. -/
def twoFreeCounters : Store :=
  { businesses := [sampleBusiness 50]
    queues :=
      [sampleEntry "q1" "Q001" 1000 QueueStatus.waiting 1 none,
        sampleEntry "q2" "Q002" 2000 QueueStatus.waiting 2 none]
    counters :=
      [sampleCounter "c1" 1 "general" CounterStatus.active none "",
        sampleCounter "c2" 2 "general" CounterStatus.active none ""] }

/-- A business that has served 10 customers with an average serving time of 8
minutes; entry `Q001` is being served at counter `c1` since timestamp 60000. -/
def seasonedShop : Store :=
  { businesses :=
      [{ sampleBusiness 50 with
          stats := { (sampleBusiness 50).stats with
            totalCustomersServed := some 10, avgServingTime := some 8 } }]
    queues :=
      [{ sampleEntry "q1" "Q001" 1000 QueueStatus.serving 1 (some "c1") with
          calledAt := some 30000, servingAt := some 60000 }]
    counters := [sampleCounter "c1" 1 "general" CounterStatus.busy (some "q1") "Q001"] }

/-- Five waiting entries whose stored positions are stale: `Q001` has left (it is
`skipped`), the entries behind it still carry the positions 2 to 5, and an entry of
another business `b2` waits at position 7. -/
def stalePositions : Store :=
  { businesses := [sampleBusiness 50]
    queues :=
      [sampleEntry "q1" "Q001" 1000 QueueStatus.skipped 1 none,
        sampleEntry "q3" "Q003" 3000 QueueStatus.waiting 3 none,
        sampleEntry "q2" "Q002" 2000 QueueStatus.waiting 2 none,
        { sampleEntry "x1" "Q001" 1500 QueueStatus.waiting 7 none with businessId := "b2" },
        sampleEntry "q5" "Q005" 5000 QueueStatus.waiting 5 none,
        sampleEntry "q4" "Q004" 4000 QueueStatus.waiting 4 none]
    counters := [sampleCounter "c1" 1 "general" CounterStatus.active none ""] }

/-- Two businesses: `b1` has the called entry `Q001` at its busy counter `c1`, a
waiting entry `Q002` and a free counter `c2`; `b2` has a called entry at its busy
counter `k1` and a waiting entry. -/
def twoShops : Store :=
  { businesses := [sampleBusiness 50, { sampleBusiness 50 with id := "b2", name := "Other" }]
    queues :=
      [sampleEntry "q1" "Q001" 1000 QueueStatus.called 1 (some "c1"),
        { sampleEntry "x1" "Q001" 1500 QueueStatus.called 1 (some "k1") with businessId := "b2" },
        sampleEntry "q2" "Q002" 2000 QueueStatus.waiting 2 none,
        { sampleEntry "x2" "Q002" 2500 QueueStatus.waiting 2 none with businessId := "b2" }]
    counters :=
      [sampleCounter "c1" 1 "general" CounterStatus.busy (some "q1") "Q001",
        { sampleCounter "k1" 1 "general" CounterStatus.busy (some "x1") "Q001" with
          businessId := "b2" },
        sampleCounter "c2" 2 "general" CounterStatus.active none ""] }

/-- A business with average serving time 27 and three free counters. -/
def threeFreeCounters : Store :=
  { businesses :=
      [{ sampleBusiness 50 with
          stats := { (sampleBusiness 50).stats with avgServingTime := some 27 } }]
    queues := []
    counters :=
      [sampleCounter "c1" 1 "general" CounterStatus.active none "",
        sampleCounter "c2" 2 "general" CounterStatus.active none "",
        sampleCounter "c3" 3 "general" CounterStatus.active none ""] }

/-! ## Lemmas on the model methods -/

/-- A successful `Queue.update` rewrites exactly the documents with the given id. -/
theorem queueUpdate_store {db db1 : Store} {now : Nat} {queueId : String} {u : QueueUpdate}
    {q : Queue} (h : Queue.update db now queueId u = some (db1, q)) :
    db1 = { db with queues := db.queues.map (fun x =>
      if x.id = queueId then (u.withDefaults now).apply x else x) } := by
  unfold Queue.update at h
  split at h
  · exact absurd h (by simp)
  · dsimp only at h
    split at h
    · exact absurd h (by simp)
    · simp only [Option.some.injEq, Prod.mk.injEq] at h
      rw [← h.1]
      simp

/-- A successful counter write rewrites exactly the documents with the given id. -/
theorem counterModify_store {db db1 : Store} {counterId : String} {f : Counter → Counter}
    {c : Counter} (h : Counter.modify db counterId f = some (db1, c)) :
    db1 = { db with counters := db.counters.map (fun x =>
      if x.id = counterId then f x else x) } := by
  unfold Counter.modify at h
  split at h
  · exact absurd h (by simp)
  · dsimp only at h
    split at h
    · exact absurd h (by simp)
    · simp only [Option.some.injEq, Prod.mk.injEq] at h
      rw [← h.1]
      simp

/-- Every entry returned by `Queue.findByBusinessId` is the read form of a stored
entry of that business, in the status asked for. -/
theorem mem_queueFindByBusinessId {db : Store} {businessId : String} {filters : QueueFilters}
    {e : Queue} (h : e ∈ Queue.findByBusinessId db businessId filters) :
    ∃ e0 ∈ db.queues, e = Queue.fromFirestore e0 ∧ e0.businessId = businessId ∧
      ∀ st, filters.status = some st → e0.status = st := by
  unfold Queue.findByBusinessId at h
  simp only [List.mem_map] at h
  obtain ⟨e0, he0, rfl⟩ := h
  have hord : e0 ∈ (Queue.matching db businessId filters).insertionSort
      (fun a b => Queue.newerFirst a b = true) := by
    split at he0
    · split at he0
      · exact he0
      · exact List.mem_of_mem_take he0
    · exact he0
  rw [(List.perm_insertionSort _ _).mem_iff] at hord
  unfold Queue.matching at hord
  simp only [List.mem_filter, Bool.and_eq_true, beq_iff_eq] at hord
  refine ⟨e0, hord.1, rfl, hord.2.1.1, ?_⟩
  intro st hst
  have h2 := hord.2.1.2
  rw [hst] at h2
  simpa using h2

/-- A counter that `Counter.findById` returns is the read form of a stored one. -/
theorem counterFindById_mem {db : Store} {counterId : String} {c : Counter}
    (h : Counter.findById db counterId = some c) :
    ∃ c0 ∈ db.counters, c = Counter.fromFirestore c0 ∧ c0.id = counterId := by
  unfold Counter.findById at h
  simp only [Option.map_eq_some'] at h
  obtain ⟨c0, hc0, rfl⟩ := h
  exact ⟨c0, List.mem_of_find?_eq_some hc0, rfl, by simpa using List.find?_some hc0⟩

/-- A counter that `Counter.findByBusinessId` lists is the read form of a stored
counter of that business. -/
theorem mem_counterFindByBusinessId {db : Store} {businessId : String} {c : Counter}
    (h : c ∈ Counter.findByBusinessId db businessId) :
    ∃ c0 ∈ db.counters, c = Counter.fromFirestore c0 ∧ c0.businessId = businessId := by
  unfold Counter.findByBusinessId at h
  simp only [List.mem_map] at h
  obtain ⟨c0, hc0, rfl⟩ := h
  rw [(List.perm_insertionSort _ _).mem_iff] at hc0
  simp only [List.mem_filter, beq_iff_eq] at hc0
  exact ⟨c0, hc0.1, rfl, hc0.2⟩

/-- The counter that `resolveCounter` yields is the read form of a stored counter
of the caller's business. -/
theorem resolveCounter_ok {db : Store} {businessId : String} {body : CallNextBody}
    {c : Counter} (h : resolveCounter db businessId body = .ok c) :
    ∃ c0 ∈ db.counters, c = Counter.fromFirestore c0 ∧ c0.businessId = businessId := by
  have hfind : ∀ {p : Counter → Bool},
      (Counter.findByBusinessId db businessId).find? p = some c →
      ∃ c0 ∈ db.counters, c = Counter.fromFirestore c0 ∧ c0.businessId = businessId :=
    fun hp => mem_counterFindByBusinessId (List.mem_of_find?_eq_some hp)
  unfold resolveCounter at h
  split at h
  · split at h
    · split at h
      · exact absurd h (by simp)
      · rename_i counter hc
        split at h
        · exact absurd h (by simp)
        · rename_i hb
          simp only [Except.ok.injEq] at h
          subst h
          obtain ⟨c0, hmem, rfl, -⟩ := counterFindById_mem hc
          exact ⟨c0, hmem, rfl, by simpa using hb⟩
    · split at h
      · exact absurd h (by simp)
      · rename_i counter hc
        simp only [Except.ok.injEq] at h
        subst h
        exact hfind hc
  · split at h
    · exact absurd h (by simp)
    · rename_i counter hc
      simp only [Except.ok.injEq] at h
      subst h
      exact hfind hc

/-- A failure of `resolveCounter` is a 404 or a 400 response. -/
theorem resolveCounter_error {db : Store} {businessId : String} {body : CallNextBody}
    {r : Response} (h : resolveCounter db businessId body = .error r) :
    r = failure 404 "Counter not found" ∨
      r = failure 400 "No available counters for this service" := by
  unfold resolveCounter at h
  split at h
  · split at h
    · split at h
      · simp only [Except.error.injEq] at h; exact Or.inl h.symm
      · split at h
        · simp only [Except.error.injEq] at h; exact Or.inl h.symm
        · exact absurd h (by simp)
    · split at h
      · simp only [Except.error.injEq] at h; exact Or.inr h.symm
      · exact absurd h (by simp)
  · split at h
    · simp only [Except.error.injEq] at h; exact Or.inr h.symm
    · exact absurd h (by simp)

/-- `Business.updateStats` changes neither entries nor counters. -/
theorem businessUpdateStats_frame {db db1 : Store} {now : Nat} {businessId : String}
    {stats : BusinessStats} (h : Business.updateStats db now businessId stats = some db1) :
    db1.queues = db.queues ∧ db1.counters = db.counters := by
  unfold Business.updateStats at h
  split at h
  · exact absurd h (by simp)
  · simp only [Option.some.injEq] at h
    rw [← h]
    exact ⟨rfl, rfl⟩

/-- Looking a key up after rewriting the documents with that key by a
key-preserving function finds the rewritten first match. -/
theorem find_map_rewrite {α : Type} (key : α → String) (id : String) (f : α → α)
    (hf : ∀ x, key (f x) = key x) (l : List α) :
    (l.map (fun x => if key x == id then f x else x)).find? (fun x => key x == id)
      = (l.find? (fun x => key x == id)).map f := by
  induction l with
  | nil => rfl
  | cons a t ih =>
    by_cases h : key a = id
    · simp [List.find?, h, hf]
    · have h1 : (key a == id) = false := by simpa using h
      simp only [List.map_cons, List.find?, h1, Bool.false_eq_true, if_false]
      exact ih

/-- The patch of `Queue.update` keeps the document id. -/
theorem queueUpdate_apply_id (u : QueueUpdate) (q : Queue) : (u.apply q).id = q.id := rfl

/-- When the entry exists, `Queue.update` succeeds: it rewrites the documents
with that id and returns the read form of the rewritten entry. -/
theorem queueUpdate_of_found {db : Store} {queueId : String} {q0 : Queue} (now : Nat)
    (u : QueueUpdate) (h : db.queues.find? (fun q => q.id == queueId) = some q0) :
    Queue.update db now queueId u =
      some ({ db with queues := db.queues.map (fun x =>
          if x.id == queueId then (u.withDefaults now).apply x else x) },
        Queue.fromFirestore ((u.withDefaults now).apply q0)) := by
  unfold Queue.update
  have h1 : Queue.findById db queueId = some (Queue.fromFirestore q0) := by
    simp [Queue.findById, h]
  have h2 : Queue.findById { db with queues := db.queues.map (fun x =>
      if x.id == queueId then (u.withDefaults now).apply x else x) } queueId
      = some (Queue.fromFirestore ((u.withDefaults now).apply q0)) := by
    unfold Queue.findById
    rw [find_map_rewrite (fun (q : Queue) => q.id) queueId _ (queueUpdate_apply_id _), h]
    rfl
  simp only [h1, h2]

/-- When the counter exists, a counter write that keeps the id succeeds: it
rewrites the documents with that id and returns the read form of the result. -/
theorem counterModify_of_found {db : Store} {counterId : String} {c0 : Counter}
    (f : Counter → Counter) (hf : ∀ x, (f x).id = x.id)
    (h : db.counters.find? (fun c => c.id == counterId) = some c0) :
    Counter.modify db counterId f =
      some ({ db with counters := db.counters.map (fun x =>
          if x.id == counterId then f x else x) },
        Counter.fromFirestore (f c0)) := by
  unfold Counter.modify
  have h1 : Counter.findById db counterId = some (Counter.fromFirestore c0) := by
    simp [Counter.findById, h]
  have h2 : Counter.findById { db with counters := db.counters.map (fun x =>
      if x.id == counterId then f x else x) } counterId
      = some (Counter.fromFirestore (f c0)) := by
    unfold Counter.findById
    rw [find_map_rewrite (fun (c : Counter) => c.id) counterId f hf, h]
    rfl
  simp only [h1, h2]

/-- A stored document can be looked up by its own id. -/
theorem find_isSome_of_mem {α : Type} (key : α → String) {l : List α} {a : α}
    (h : a ∈ l) : ∃ b, l.find? (fun x => key x == key a) = some b := by
  cases hfind : l.find? (fun x => key x == key a) with
  | some b => exact ⟨b, rfl⟩
  | none =>
    rw [List.find?_eq_none] at hfind
    exact absurd (hfind a h) (by simp)

/-- The call succeeds as soon as a counter is resolved and an entry is waiting:
no write of `callNextCustomer` can fail. -/
theorem callNextCustomer_succeeds {db : Store} {businessId : String} {body : CallNextBody}
    {c : Counter} {e : Queue} {rest : List Queue} (clock : Clock)
    (hc : resolveCounter db businessId body = .ok c)
    (he : Queue.findByBusinessId db businessId (callNextFilters body.serviceType) = e :: rest) :
    (callNextCustomer db clock businessId body).2.status = 200 := by
  obtain ⟨c0, hc0, rfl, -⟩ := resolveCounter_ok hc
  obtain ⟨e0, he0, rfl, -, -⟩ := mem_queueFindByBusinessId
    (show e ∈ Queue.findByBusinessId db businessId (callNextFilters body.serviceType) by
      rw [he]; exact List.mem_cons_self _ _)
  obtain ⟨e1, he1⟩ := find_isSome_of_mem (fun (q : Queue) => q.id) he0
  obtain ⟨c1, hc1⟩ := find_isSome_of_mem (fun (k : Counter) => k.id) hc0
  unfold callNextCustomer
  simp only [hc, he]
  rw [show (Queue.fromFirestore e0).id = e0.id from rfl,
    show (Counter.fromFirestore c0).id = c0.id from rfl, queueUpdate_of_found _ _ he1]
  simp only [Counter.assignQueue]
  rw [counterModify_of_found]
  · exact fun _ => rfl
  · exact hc1

/-- Inserting into a list that is descending in `key` keeps it descending, when
the order `r` used for the insertion agrees with `key`. -/
theorem orderedInsert_descending {α : Type} (r : α → α → Prop) [DecidableRel r]
    (key : α → Nat) (hr : ∀ a b, r a b → key b ≤ key a) (hnr : ∀ a b, ¬ r a b → key a ≤ key b)
    (a : α) (l : List α) (hl : l.Pairwise (fun x y => key y ≤ key x)) :
    (l.orderedInsert r a).Pairwise (fun x y => key y ≤ key x) := by
  induction l with
  | nil => simp
  | cons b t ih =>
    rw [List.pairwise_cons] at hl
    by_cases hab : r a b
    · rw [List.orderedInsert, if_pos hab]
      refine List.pairwise_cons.mpr ⟨?_, List.pairwise_cons.mpr hl⟩
      intro y hy
      rcases List.mem_cons.mp hy with rfl | hy
      · exact hr _ _ hab
      · exact le_trans (hl.1 y hy) (hr _ _ hab)
    · rw [List.orderedInsert, if_neg hab]
      refine List.pairwise_cons.mpr ⟨?_, ih hl.2⟩
      intro y hy
      rcases (List.mem_orderedInsert r).mp hy with rfl | hy
      · exact hnr _ _ hab
      · exact hl.1 y hy

/-- An insertion sort by an order that agrees with `key` lists the documents in
descending `key`. -/
theorem insertionSort_descending {α : Type} (r : α → α → Prop) [DecidableRel r]
    (key : α → Nat) (hr : ∀ a b, r a b → key b ≤ key a) (hnr : ∀ a b, ¬ r a b → key a ≤ key b)
    (l : List α) : (l.insertionSort r).Pairwise (fun x y => key y ≤ key x) := by
  induction l with
  | nil => simp
  | cons a t ih => exact orderedInsert_descending r key hr hnr a _ ih

/-- The entry at the head of `Queue.findByBusinessId` joined no earlier than any
stored entry that passes the filters: the query lists the newest entry first. -/
theorem queueFindByBusinessId_head_newest {db : Store} {businessId : String}
    {filters : QueueFilters} {e : Queue} {rest : List Queue}
    (h : Queue.findByBusinessId db businessId filters = e :: rest) :
    ∀ x ∈ Queue.matching db businessId filters, x.joinedAt ≤ e.joinedAt := by
  have hsorted := insertionSort_descending (fun a b => Queue.newerFirst a b = true)
    (fun (q : Queue) => q.joinedAt)
    (by
      intro a b hab
      simp only [Queue.newerFirst, Bool.or_eq_true, Bool.and_eq_true, decide_eq_true_eq] at hab
      show b.joinedAt ≤ a.joinedAt
      omega)
    (by
      intro a b hab
      simp only [Queue.newerFirst, Bool.or_eq_true, Bool.and_eq_true, decide_eq_true_eq,
        not_or] at hab
      show a.joinedAt ≤ b.joinedAt
      omega)
    (Queue.matching db businessId filters)
  intro x hx
  rw [← (List.perm_insertionSort (fun a b => Queue.newerFirst a b = true) _).mem_iff] at hx
  unfold Queue.findByBusinessId at h
  generalize (Queue.matching db businessId filters).insertionSort
    (fun a b => Queue.newerFirst a b = true) = sorted at h hsorted hx
  cases sorted with
  | nil => exact absurd hx (by simp)
  | cons s t =>
    have he : e = Queue.fromFirestore s := by
      split at h
      · split at h
        · simp only [List.map_cons, List.cons.injEq] at h; exact h.1.symm
        · rename_i n _ hn
          obtain ⟨m, rfl⟩ := Nat.exists_eq_succ_of_ne_zero hn
          simp only [List.take_succ_cons, List.map_cons, List.cons.injEq] at h
          exact h.1.symm
      · simp only [List.map_cons, List.cons.injEq] at h; exact h.1.symm
    rw [he]
    rw [List.pairwise_cons] at hsorted
    rcases List.mem_cons.mp hx with rfl | hx
    · exact le_refl _
    · exact hsorted.1 x hx

/-- The counters that `calculateEstimatedWaitTime` counts are as many as the stored
counters of the business that are `isActive` with status `active` or `busy`. -/
theorem activeCounters_length (db : Store) (businessId : String) :
    (activeCounters (Counter.findByBusinessId db businessId)).length
      = (db.counters.filter (fun c =>
          c.businessId == businessId && (c.isActive &&
            (c.status == CounterStatus.active || c.status == CounterStatus.busy)))).length := by
  unfold activeCounters Counter.findByBusinessId
  rw [List.filter_map, List.length_map]
  have hf : ((fun (c : Counter) =>
      c.isActive && (c.status == CounterStatus.active || c.status == CounterStatus.busy)) ∘
        Counter.fromFirestore)
      = (fun (c : Counter) =>
        c.isActive && (c.status == CounterStatus.active || c.status == CounterStatus.busy)) := rfl
  rw [hf, ((List.perm_insertionSort _ _).filter _).length_eq, List.filter_filter]
  congr 1
  apply List.filter_congr
  intro c _
  exact Bool.and_comm _ _

/-- The entry that `findOwnQueue` returns is the read form of the first stored
document with that id, and it belongs to the business. -/
theorem findOwnQueue_some {db : Store} {businessId queueId : String} {q : Queue}
    (h : findOwnQueue db businessId queueId = some q) :
    ∃ q0, db.queues.find? (fun x => x.id == queueId) = some q0 ∧
      q = Queue.fromFirestore q0 ∧ q0.businessId = businessId := by
  unfold findOwnQueue Queue.findById at h
  cases hfind : db.queues.find? (fun x => x.id == queueId) with
  | none => simp [hfind] at h
  | some q0 =>
    simp only [hfind, Option.map_some'] at h
    split at h
    · exact absurd h (by simp)
    · rename_i hb
      simp only [Option.some.injEq] at h
      exact ⟨q0, rfl, h.symm, by simpa [Queue.fromFirestore] using hb⟩

/-- The lemma `queueUpdate_of_found` with the id test written as an equation. -/
theorem queueUpdate_found_eq {db : Store} {queueId : String} {q0 : Queue} (now : Nat)
    (u : QueueUpdate) (h : db.queues.find? (fun q => q.id == queueId) = some q0) :
    Queue.update db now queueId u =
      some ({ db with queues := db.queues.map (fun x =>
          if x.id = queueId then (u.withDefaults now).apply x else x) },
        Queue.fromFirestore ((u.withDefaults now).apply q0)) := by
  rw [queueUpdate_of_found now u h]
  simp only [beq_iff_eq]

/-- The lemma `counterModify_of_found` with the id test written as an equation. -/
theorem counterModify_found_eq {db : Store} {counterId : String} {c0 : Counter}
    (f : Counter → Counter) (hf : ∀ x, (f x).id = x.id)
    (h : db.counters.find? (fun c => c.id == counterId) = some c0) :
    Counter.modify db counterId f =
      some ({ db with counters := db.counters.map (fun x =>
          if x.id = counterId then f x else x) },
        Counter.fromFirestore (f c0)) := by
  rw [counterModify_of_found f hf h]
  simp only [beq_iff_eq]

/-- A counter write throws when no counter has the id. -/
theorem counterModify_of_missing {db : Store} {counterId : String} (f : Counter → Counter)
    (h : db.counters.find? (fun c => c.id == counterId) = none) :
    Counter.modify db counterId f = none := by
  unfold Counter.modify Counter.findById
  simp [h]

/-- The counter that `Counter.findById` returns is the read form of the first
stored document with that id. -/
theorem counterFindById_some {db : Store} {counterId : String} {c : Counter}
    (h : Counter.findById db counterId = some c) :
    ∃ c0, db.counters.find? (fun k => k.id == counterId) = some c0 ∧
      c = Counter.fromFirestore c0 ∧ c0.id = counterId := by
  unfold Counter.findById at h
  cases hfind : db.counters.find? (fun k => k.id == counterId) with
  | none => simp [hfind] at h
  | some c0 =>
    simp only [hfind, Option.map_some', Option.some.injEq] at h
    exact ⟨c0, rfl, h.symm, by simpa using List.find?_some hfind⟩

/-- Looking a key up after mapping a key-preserving function over the documents
finds the image of the first match. -/
theorem find_map_key {α : Type} (key : α → String) (id : String) (g : α → α)
    (hg : ∀ x, key (g x) = key x) (l : List α) :
    (l.map g).find? (fun x => key x == id) = (l.find? (fun x => key x == id)).map g := by
  induction l with
  | nil => rfl
  | cons a t ih =>
    by_cases h : key a = id
    · simp [List.find?, h, hg]
    · have h1 : (key a == id) = false := by simpa using h
      have h2 : (key (g a) == id) = false := by rw [hg]; exact h1
      simp only [List.map_cons, List.find?, h1, h2]
      exact ih

/-- What the handler of a `try`/`catch` step of `sendNotification` throws, if
anything, is an `Error` object. -/
theorem attempt_throws_error {method : String} {step : Outcome} {e : Thrown}
    (h : attempt method step = .error e) : ∃ message, e = Thrown.error message := by
  unfold attempt at h
  cases step with
  | done => exact absurd h (by simp)
  | throws thrown =>
    cases thrown with
    | error message => exact absurd h (by simp [Thrown.message])
    | nullish =>
      simp only [Thrown.message, Except.error.injEq] at h
      exact ⟨_, h.symm⟩

/-- Whatever the `try` block of `sendNotification` throws is an `Error` object. -/
theorem sendNotificationBody_throws_error {arg : Option NotificationData} {t : Transports}
    {e : Thrown} (h : sendNotificationBody arg t = .error e) :
    ∃ message, e = Thrown.error message := by
  have hmap : ∀ {method : String} {step : Outcome} {e1 : Thrown},
      (attempt method step).map (fun r => [r]) = .error e1 → ∃ message, e1 = Thrown.error message := by
    intro method step e1 h1
    cases ha : attempt method step with
    | error e2 =>
      rw [ha] at h1
      simp only [Except.map, Except.error.injEq] at h1
      rw [← h1]
      exact attempt_throws_error ha
    | ok r =>
      rw [ha] at h1
      exact absurd h1 (by simp [Except.map])
  unfold sendNotificationBody at h
  cases arg with
  | none =>
    simp only [Except.error.injEq] at h
    exact ⟨_, h.symm⟩
  | some n =>
    simp only at h
    split at h
    · simp only [Except.error.injEq] at h
      exact ⟨_, h.symm⟩
    · split at h
      · rename_i e1 he1
        simp only [Except.error.injEq] at h
        rw [← h]
        split at he1
        · exact hmap he1
        · exact absurd he1 (by simp)
      · split at h
        · rename_i e1 he1
          simp only [Except.error.injEq] at h
          rw [← h]
          split at he1
          · exact hmap he1
          · exact absurd he1 (by simp)
        · split at h
          · rename_i e1 he1
            simp only [Except.error.injEq] at h
            rw [← h]
            split at he1
            · exact hmap he1
            · exact absurd he1 (by simp)
          · split at h
            · rename_i e1 he1
              unfold logSilently at he1
              split at he1 <;> exact absurd he1 (by simp)
            · exact absurd h (by simp)

/-- The loop of `checkForNotifications` over entries none of which is due makes no
request and no write. -/
theorem notifyLoop_none_due (db : Store) (now : Nat) (businessId : String) (n : Nat)
    (queue : List Queue) (h : ∀ c ∈ queue, QueueService.dueForNotification n c = false) :
    QueueService.notifyLoop db now businessId n queue = (db, []) := by
  induction queue with
  | nil => rfl
  | cons c rest ih =>
    unfold QueueService.notifyLoop
    rw [h c (List.mem_cons_self _ _)]
    simp only [Bool.false_eq_true, if_false]
    exact ih (fun x hx => h x (List.mem_cons_of_mem _ hx))

/-- A document whose id is among the stored ids can be looked up. -/
theorem find_isSome_of_id_mem {l : List Queue} {id : String}
    (h : id ∈ l.map (fun q => q.id)) : ∃ d, l.find? (fun q => q.id == id) = some d := by
  obtain ⟨a, ha, rfl⟩ := List.mem_map.mp h
  exact find_isSome_of_mem (fun (q : Queue) => q.id) ha

/-- No entry of a list has the id of a document when that id is not among the
ids of the list. -/
theorem find_none_of_id_not_mem {rest : List Queue} {id : String}
    (h : id ∉ rest.map (fun c => c.id)) : rest.find? (fun x => x.id == id) = none := by
  rw [List.find?_eq_none]
  intro x hx hxid
  exact h (List.mem_map.mpr ⟨x, hx, by simpa using hxid⟩)

/-- One step of the loop for a due entry `c`, followed by the rest of the loop,
acts on a stored document as the loop over `c :: rest` does. -/
theorem markNotified_cons_due {n : Nat} {c : Queue} {rest : List Queue}
    (hdue : QueueService.dueForNotification n c = true)
    (hnew : c.id ∉ rest.map (fun c => c.id)) (d : Queue) :
    QueueService.markNotified n rest
        (if d.id = c.id then { d with notifiedPositions := c.notifiedPositions ++ [c.position] }
          else d)
      = QueueService.markNotified n (c :: rest) d := by
  by_cases hd : d.id = c.id
  · rw [if_pos hd]
    unfold QueueService.markNotified
    have h1 : rest.find? (fun x => x.id == d.id) = none := by
      rw [hd]; exact find_none_of_id_not_mem hnew
    have h2 : (c.id == d.id) = true := by simpa using hd.symm
    simp only [h1, List.find?, h2, hdue, if_true]
  · rw [if_neg hd]
    have h2 : (c.id == d.id) = false := by simpa using fun h => hd h.symm
    unfold QueueService.markNotified
    simp only [List.find?, h2]

/-- An entry that is not due leaves the effect of the loop on a stored document
to the rest of the list. -/
theorem markNotified_cons_not_due {n : Nat} {c : Queue} {rest : List Queue}
    (hdue : QueueService.dueForNotification n c = false)
    (hnew : c.id ∉ rest.map (fun c => c.id)) (d : Queue) :
    QueueService.markNotified n rest d = QueueService.markNotified n (c :: rest) d := by
  unfold QueueService.markNotified
  by_cases hd : d.id = c.id
  · have h1 : rest.find? (fun x => x.id == d.id) = none := by
      rw [hd]; exact find_none_of_id_not_mem hnew
    have h2 : (c.id == d.id) = true := by simpa using hd.symm
    simp only [h1, List.find?, h2, hdue, Bool.false_eq_true, if_false]
  · have h2 : (c.id == d.id) = false := by simpa using fun h => hd h.symm
    simp only [List.find?, h2]

/-- The loop of `checkForNotifications`, for in-memory entries with distinct ids
that are all stored: the stored documents change as `markNotified` says and the
requests are those of the due entries, in order. -/
theorem notifyLoop_eq (now : Nat) (businessId : String) (n : Nat) :
    ∀ (queue : List Queue) (db : Store), (queue.map (fun c => c.id)).Nodup →
      (∀ c ∈ queue, c.id ∈ db.queues.map (fun q => q.id)) →
      QueueService.notifyLoop db now businessId n queue =
        ({ db with queues := db.queues.map (QueueService.markNotified n queue) },
          (queue.filter (QueueService.dueForNotification n)).map
            (QueueService.nearTurnFor db businessId)) := by
  intro queue
  induction queue with
  | nil =>
    intro db _ _
    have : db.queues.map (QueueService.markNotified n []) = db.queues := by
      rw [show QueueService.markNotified n [] = id from rfl, List.map_id]
    simp [QueueService.notifyLoop, this]
  | cons c rest ih =>
    intro db hnodup hstored
    rw [List.map_cons, List.nodup_cons] at hnodup
    unfold QueueService.notifyLoop
    by_cases hdue : QueueService.dueForNotification n c = true
    · obtain ⟨d0, hd0⟩ := find_isSome_of_id_mem (hstored c (List.mem_cons_self _ _))
      have hstored1 : ∀ x ∈ rest, x.id ∈ (db.queues.map (fun d =>
          if d.id = c.id then
            ({ notifiedPositions := some (c.notifiedPositions ++ [c.position]) } :
              QueueUpdate).apply d
          else d)).map (fun q => q.id) := by
        intro x hx
        have hx1 := hstored x (List.mem_cons_of_mem _ hx)
        rw [List.map_map]
        have hfun : ((fun (q : Queue) => q.id) ∘ fun d =>
            if d.id = c.id then
              ({ notifiedPositions := some (c.notifiedPositions ++ [c.position]) } :
                QueueUpdate).apply d
            else d) = fun q => q.id := by
          funext d
          show (if d.id = c.id then _ else d).id = d.id
          split <;> rfl
        rw [hfun]
        exact hx1
      simp only [hdue, if_true]
      rw [queueUpdate_found_eq now _ hd0]
      simp only []
      rw [ih _ hnodup.2 hstored1]
      simp only [List.filter_cons, hdue, if_true, List.map_cons, Prod.mk.injEq]
      refine ⟨?_, rfl⟩
      congr 1
      rw [List.map_map]
      apply List.map_congr_left
      intro d _
      exact markNotified_cons_due hdue hnodup.1 d
    · have hdue' : QueueService.dueForNotification n c = false := by simpa using hdue
      simp only [hdue', Bool.false_eq_true, if_false]
      rw [ih db hnodup.2 (fun x hx => hstored x (List.mem_cons_of_mem _ hx))]
      simp only [List.filter_cons, hdue', Bool.false_eq_true, if_false, Prod.mk.injEq, and_true]
      congr 1
      apply List.map_congr_left
      intro d _
      exact markNotified_cons_not_due hdue' hnodup.1 d

/-- A stored waiting entry of the business is among the entries that
`updateQueuePositions` reads. -/
theorem mem_readWaiting {db : Store} {businessId : String} {d : Queue} (hd : d ∈ db.queues)
    (hb : d.businessId = businessId) (hs : d.status = QueueStatus.waiting) :
    Queue.fromFirestore d ∈ QueueService.readWaiting db businessId := by
  unfold QueueService.readWaiting Queue.findByBusinessId
  simp only [List.mem_map]
  refine ⟨d, ?_, rfl⟩
  rw [(List.perm_insertionSort _ _).mem_iff]
  unfold Queue.matching
  simp [List.mem_filter, hd, hb, hs]

/-- The entries that `updateQueuePositions` reads have distinct ids when the
stored documents do. -/
theorem readWaiting_nodup {db : Store} (businessId : String)
    (hids : (db.queues.map (fun q => q.id)).Nodup) :
    ((QueueService.readWaiting db businessId).map (fun c => c.id)).Nodup := by
  unfold QueueService.readWaiting Queue.findByBusinessId
  simp only [List.map_map]
  have hfun : ((fun (c : Queue) => c.id) ∘ Queue.fromFirestore) = fun c => c.id := rfl
  rw [hfun]
  have hperm := (List.perm_insertionSort (fun a b => Queue.newerFirst a b = true)
    (Queue.matching db businessId { status := some QueueStatus.waiting })).map (fun c => c.id)
  rw [hperm.nodup_iff]
  unfold Queue.matching
  exact hids.sublist ((List.filter_sublist _).map _)

/-- Looking up the id of a stored waiting entry among the entries read finds the
read form of that entry, when stored ids are distinct. -/
theorem readWaiting_find {db : Store} {businessId : String} {d : Queue}
    (hids : (db.queues.map (fun q => q.id)).Nodup) (hd : d ∈ db.queues)
    (hb : d.businessId = businessId) (hs : d.status = QueueStatus.waiting) :
    (QueueService.readWaiting db businessId).find? (fun c => c.id == d.id)
      = some (Queue.fromFirestore d) := by
  cases hfind : (QueueService.readWaiting db businessId).find? (fun c => c.id == d.id) with
  | none =>
    rw [List.find?_eq_none] at hfind
    exact absurd (hfind _ (mem_readWaiting hd hb hs)) (by simp [Queue.fromFirestore])
  | some c0 =>
    have hmem := List.mem_of_find?_eq_some hfind
    have hid : c0.id = d.id := by simpa using List.find?_some hfind
    obtain ⟨d0, hd0, rfl, -, -⟩ := mem_queueFindByBusinessId hmem
    have : d0 = d := List.inj_on_of_nodup_map hids hd0 hd hid
    rw [this]

/-- The effect of the loop on a stored document, given the entry found for its id. -/
theorem markNotified_of_find {n : Nat} {queue : List Queue} {d c : Queue}
    (h : queue.find? (fun x => x.id == d.id) = some c) :
    QueueService.markNotified n queue d =
      if QueueService.dueForNotification n c then
        { d with notifiedPositions := c.notifiedPositions ++ [c.position] }
      else d := by
  unfold QueueService.markNotified
  rw [h]

/-- The loop of `checkForNotifications` keeps every field of a stored document
but `notifiedPositions`. -/
theorem markNotified_fields (n : Nat) (queue : List Queue) (d : Queue) :
    (QueueService.markNotified n queue d).id = d.id ∧
    (QueueService.markNotified n queue d).businessId = d.businessId ∧
    (QueueService.markNotified n queue d).status = d.status ∧
    (QueueService.markNotified n queue d).position = d.position := by
  unfold QueueService.markNotified
  split
  · split <;> exact ⟨rfl, rfl, rfl, rfl⟩
  · exact ⟨rfl, rfl, rfl, rfl⟩

/-- After the loop over the entries read, no stored waiting entry of the business
is due any more. -/
theorem markNotified_not_due {db : Store} {businessId : String} (n : Nat) {d : Queue}
    (hids : (db.queues.map (fun q => q.id)).Nodup) (hd : d ∈ db.queues)
    (hb : d.businessId = businessId) (hs : d.status = QueueStatus.waiting) :
    QueueService.dueForNotification n (Queue.fromFirestore
      (QueueService.markNotified n (QueueService.readWaiting db businessId) d)) = false := by
  rw [markNotified_of_find (readWaiting_find hids hd hb hs)]
  by_cases hdue : QueueService.dueForNotification n (Queue.fromFirestore d) = true
  · rw [if_pos hdue]
    simp [QueueService.dueForNotification, Queue.fromFirestore]
  · rw [if_neg hdue]
    simpa using hdue

/-- `checkForNotifications` on the entries just read, for a store with distinct
document ids: without the business or with a falsy threshold nothing happens,
otherwise the stored documents change as `markNotified` says and the requests
are those of the due entries. -/
theorem checkForNotifications_eq (db : Store) (now : Nat) (businessId : String)
    (hids : (db.queues.map (fun q => q.id)).Nodup) :
    QueueService.checkForNotifications db now businessId
        (QueueService.readWaiting db businessId) = (db, []) ∨
    ∃ n, (∃ business, Business.findById db businessId = some business ∧
        business.settings.notifyBeforePositions = n) ∧ n ≠ 0 ∧
      QueueService.checkForNotifications db now businessId
          (QueueService.readWaiting db businessId) =
        (QueueService.markedStore n db businessId,
          ((QueueService.readWaiting db businessId).filter
            (QueueService.dueForNotification n)).map (QueueService.nearTurnFor db businessId)) := by
  unfold QueueService.checkForNotifications
  cases hb : Business.findById db businessId with
  | none => exact Or.inl rfl
  | some business =>
    by_cases h0 : business.settings.notifyBeforePositions = 0
    · left; simp [h0]
    · right
      refine ⟨business.settings.notifyBeforePositions, ⟨business, rfl, rfl⟩, h0, ?_⟩
      simp only [h0, if_false]
      exact notifyLoop_eq now businessId _ _ db (readWaiting_nodup businessId hids) (by
        intro c hc
        obtain ⟨d0, hd0, rfl, -, -⟩ := mem_queueFindByBusinessId hc
        exact List.mem_map.mpr ⟨d0, hd0, rfl⟩)

/-- A due entry is within the threshold and its position is not among its
`notifiedPositions`. -/
theorem dueForNotification_true {n : Nat} {c : Queue}
    (h : QueueService.dueForNotification n c = true) :
    c.position ≤ n ∧ c.position ∉ c.notifiedPositions := by
  simpa [QueueService.dueForNotification] using h

/-- The controller `callNextCustomer` is its reads followed by its writes. -/
theorem callNextCustomer_read_write (db : Store) (clock : Clock) (businessId : String)
    (body : CallNextBody) :
    callNextCustomer db clock businessId body =
      match callNextRead db businessId body with
      | .error r => (db, r)
      | .ok (counter, nextCustomer) => callNextWrite db clock counter nextCustomer := by
  unfold callNextCustomer callNextRead callNextWrite
  cases resolveCounter db businessId body with
  | error r => rfl
  | ok counter =>
    cases Queue.findByBusinessId db businessId (callNextFilters body.serviceType) with
    | nil => rfl
    | cons e rest => rfl

/-- The counters that `Counter.findByBusinessId` lists when exactly one stored
counter belongs to the business. -/
theorem counterFindByBusinessId_single {db : Store} {businessId : String} {c : Counter}
    (h : db.counters.filter (fun k => k.businessId == businessId) = [c]) :
    Counter.findByBusinessId db businessId = [Counter.fromFirestore c] := by
  unfold Counter.findByBusinessId
  rw [h]
  rfl

/-- The head query of `callNextCustomer` without a service type, when exactly one
stored entry of the business is waiting. -/
theorem callNextQuery_single {db : Store} {businessId : String} {e : Queue}
    (h : db.queues.filter
      (fun q => q.businessId == businessId && q.status == QueueStatus.waiting) = [e]) :
    Queue.findByBusinessId db businessId (callNextFilters none) = [Queue.fromFirestore e] := by
  have hm : Queue.matching db businessId (callNextFilters none) = [e] := by
    rw [← h]
    unfold Queue.matching callNextFilters
    apply List.filter_congr
    intro q _
    simp [truthyOpt]
  unfold Queue.findByBusinessId
  rw [hm]
  rfl

/-- The counter that `findOwnCounter` returns is the read form of the first stored
document with that id, and it belongs to the business. -/
theorem findOwnCounter_some {db : Store} {businessId counterId : String} {c : Counter}
    (h : findOwnCounter db businessId counterId = some c) :
    ∃ c0, db.counters.find? (fun k => k.id == counterId) = some c0 ∧
      c = Counter.fromFirestore c0 ∧ c0.businessId = businessId := by
  unfold findOwnCounter at h
  cases hfind : Counter.findById db counterId with
  | none => simp [hfind] at h
  | some c1 =>
    simp only [hfind] at h
    split at h
    · exact absurd h (by simp)
    · rename_i hb
      simp only [Option.some.injEq] at h
      subst h
      obtain ⟨c0, hc0, rfl, -⟩ := counterFindById_some hfind
      exact ⟨c0, hc0, rfl, by simpa [Counter.fromFirestore] using hb⟩

/-- A successful `Queue.create` appends the new entry and replaces the `stats` map
of the business by the two keys it names. -/
theorem queueCreate_store {db db1 : Store} {newId : String} {now : Nat} {queueData : QueueData}
    {queue : Queue} (h : Queue.create db newId now queueData = some (db1, queue)) :
    db1.queues = db.queues ++ [queue] ∧ db1.counters = db.counters ∧
    db1.businesses = db.businesses.map (fun b =>
      if b.id = queueData.businessId then
        { b with
          stats :=
            { totalCustomersServed := some 0
              avgWaitTime := some 0
              avgServingTime := none
              customerSatisfaction := none
              peakHours := none }
          updatedAt := now }
      else b) := by
  unfold Queue.create at h
  split at h
  · exact absurd h (by simp)
  · rename_i business hb
    have hb1 : ∀ (qs : List Queue),
        Business.findById { db with queues := qs } queueData.businessId = some business :=
      fun _ => hb
    simp only [Business.updateStats, hb1, Option.some.injEq, Prod.mk.injEq] at h
    obtain ⟨h1, h2⟩ := h
    subst h1
    subst h2
    refine ⟨rfl, rfl, ?_⟩
    simp only [beq_iff_eq]

/-- A successful counter write changes neither entries nor businesses. -/
theorem counterModify_frame {db db1 : Store} {counterId : String} {f : Counter → Counter}
    {c : Counter} (h : Counter.modify db counterId f = some (db1, c)) :
    db1.queues = db.queues ∧ db1.businesses = db.businesses := by
  rw [counterModify_store h]
  exact ⟨rfl, rfl⟩

/-- The mean of `n` samples, re-weighted with one more sample `d`, is the mean of
the `n + 1` samples. -/
theorem mean_step (samples : List ℚ) (n : Nat) (a d : ℚ) (hlen : samples.length = n)
    (hmean : n ≠ 0 → a = samples.sum / (n : ℚ)) :
    (a * (n : ℚ) + d) / ((n : ℚ) + 1)
      = (samples ++ [d]).sum / (((samples ++ [d]).length : Nat) : ℚ) := by
  have hsum : a * (n : ℚ) = samples.sum := by
    by_cases h0 : n = 0
    · subst h0
      have : samples = [] := List.length_eq_zero.mp hlen
      subst this
      simp
    · rw [hmean h0]
      have : (n : ℚ) ≠ 0 := by exact_mod_cast h0
      field_simp
  rw [hsum, List.sum_append, List.length_append, hlen]
  simp

/-- A `joinQueue` answered with a status from 400 to 499 leaves the store as it was. -/
theorem joinQueue_rejected (db : Store) (clock : Clock) (newId : String)
    (userId : Option String) (body : JoinBody)
    (h4 : 400 ≤ (joinQueue db clock newId userId body).2.status)
    (h5 : (joinQueue db clock newId userId body).2.status < 500) :
    (joinQueue db clock newId userId body).1 = db := by
  generalize hres : joinQueue db clock newId userId body = res at h4 h5 ⊢
  unfold joinQueue at hres
  repeat' (first | split at hres | (dsimp only at hres; split at hres))
  all_goals subst hres
  all_goals first | rfl | (dsimp only [failure] at h4 h5; omega)

/-- A `callNextCustomer` answered with a status from 400 to 499 leaves the store as it
was. -/
theorem callNextCustomer_rejected (db : Store) (clock : Clock) (businessId : String)
    (body : CallNextBody)
    (h4 : 400 ≤ (callNextCustomer db clock businessId body).2.status)
    (h5 : (callNextCustomer db clock businessId body).2.status < 500) :
    (callNextCustomer db clock businessId body).1 = db := by
  generalize hres : callNextCustomer db clock businessId body = res at h4 h5 ⊢
  unfold callNextCustomer at hres
  repeat' split at hres
  all_goals subst hres
  all_goals first | rfl | (dsimp only [failure] at h4 h5; omega)

/-- A `startServing` answered with a status from 400 to 499 leaves the store as it was. -/
theorem startServing_rejected (db : Store) (clock : Clock) (businessId queueId : String)
    (h4 : 400 ≤ (startServing db clock businessId queueId).2.status)
    (h5 : (startServing db clock businessId queueId).2.status < 500) :
    (startServing db clock businessId queueId).1 = db := by
  generalize hres : startServing db clock businessId queueId = res at h4 h5 ⊢
  unfold startServing at hres
  repeat' split at hres
  all_goals subst hres
  all_goals first | rfl | (dsimp only [failure] at h4 h5; omega)

/-- A `completeService` answered with a status from 400 to 499 leaves the store as it
was. -/
theorem completeService_rejected (db : Store) (clock : Clock) (businessId queueId : String)
    (h4 : 400 ≤ (completeService db clock businessId queueId).2.status)
    (h5 : (completeService db clock businessId queueId).2.status < 500) :
    (completeService db clock businessId queueId).1 = db := by
  generalize hres : completeService db clock businessId queueId = res at h4 h5 ⊢
  unfold completeService at hres
  repeat' (first | split at hres | (dsimp only at hres; split at hres))
  all_goals subst hres
  all_goals first | rfl | (dsimp only [failure] at h4 h5; omega)

/-- A `skipCustomer` answered with a status from 400 to 499 leaves the store as it was. -/
theorem skipCustomer_rejected (db : Store) (clock : Clock) (businessId queueId : String)
    (reason : Option String)
    (h4 : 400 ≤ (skipCustomer db clock businessId queueId reason).2.status)
    (h5 : (skipCustomer db clock businessId queueId reason).2.status < 500) :
    (skipCustomer db clock businessId queueId reason).1 = db := by
  generalize hres : skipCustomer db clock businessId queueId reason = res at h4 h5 ⊢
  unfold skipCustomer at hres
  repeat' (first | split at hres | (dsimp only at hres; split at hres))
  all_goals subst hres
  all_goals first | rfl | (dsimp only [failure] at h4 h5; omega)

/-- A `transferQueue` answered with a status from 400 to 499 leaves the store as it
was. -/
theorem transferQueue_rejected (db : Store) (clock : Clock)
    (businessId queueId toCounterId : String)
    (h4 : 400 ≤ (transferQueue db clock businessId queueId toCounterId).2.status)
    (h5 : (transferQueue db clock businessId queueId toCounterId).2.status < 500) :
    (transferQueue db clock businessId queueId toCounterId).1 = db := by
  generalize hres : transferQueue db clock businessId queueId toCounterId = res at h4 h5 ⊢
  unfold transferQueue at hres
  repeat' (first | split at hres | (dsimp only at hres; split at hres))
  all_goals subst hres
  all_goals first | rfl | (dsimp only [failure] at h4 h5; omega)

/-- A `deleteCounter` answered with a status from 400 to 499 leaves the store as it
was. -/
theorem deleteCounter_rejected (db : Store) (businessId counterId : String)
    (h4 : 400 ≤ (deleteCounter db businessId counterId).2.status)
    (h5 : (deleteCounter db businessId counterId).2.status < 500) :
    (deleteCounter db businessId counterId).1 = db := by
  generalize hres : deleteCounter db businessId counterId = res at h4 h5 ⊢
  unfold deleteCounter at hres
  repeat' split at hres
  all_goals subst hres
  all_goals first | rfl | (dsimp only [failure] at h4 h5; omega)

/-- A `setCounterStatus` answered with a status from 400 to 499 leaves the store as it
was. -/
theorem setCounterStatus_rejected (db : Store) (clock : Clock)
    (businessId counterId status : String)
    (h4 : 400 ≤ (setCounterStatus db clock businessId counterId status).2.status)
    (h5 : (setCounterStatus db clock businessId counterId status).2.status < 500) :
    (setCounterStatus db clock businessId counterId status).1 = db := by
  generalize hres : setCounterStatus db clock businessId counterId status = res at h4 h5 ⊢
  unfold setCounterStatus at hres
  repeat' (first | split at hres | (dsimp only at hres; split at hres))
  all_goals subst hres
  all_goals first | rfl | (dsimp only [failure] at h4 h5; omega)

/-- A `setCounterBreak` answered with a status from 400 to 499 leaves the store as it
was. -/
theorem setCounterBreak_rejected (db : Store) (clock : Clock)
    (businessId counterId : String) (duration : Nat)
    (h4 : 400 ≤ (setCounterBreak db clock businessId counterId duration).2.status)
    (h5 : (setCounterBreak db clock businessId counterId duration).2.status < 500) :
    (setCounterBreak db clock businessId counterId duration).1 = db := by
  generalize hres : setCounterBreak db clock businessId counterId duration = res at h4 h5 ⊢
  unfold setCounterBreak at hres
  repeat' (first | split at hres | (dsimp only at hres; split at hres))
  all_goals subst hres
  all_goals first | rfl | (dsimp only [failure] at h4 h5; omega)

/-- An `endCounterBreak` answered with a status from 400 to 499 leaves the store as it
was. -/
theorem endCounterBreak_rejected (db : Store) (clock : Clock)
    (businessId counterId : String)
    (h4 : 400 ≤ (endCounterBreak db clock businessId counterId).2.status)
    (h5 : (endCounterBreak db clock businessId counterId).2.status < 500) :
    (endCounterBreak db clock businessId counterId).1 = db := by
  generalize hres : endCounterBreak db clock businessId counterId = res at h4 h5 ⊢
  unfold endCounterBreak at hres
  repeat' split at hres
  all_goals subst hres
  all_goals first | rfl | (dsimp only [failure] at h4 h5; omega)

/-- The patch `{ position: index + 1 }` of `updateQueuePositions` on a stored
document. -/
theorem positionPatch_apply (now index : Nat) (d : Queue) :
    (({ position := some (index + 1) } : QueueUpdate).withDefaults now).apply d
      = { d with position := index + 1 } := rfl

/-- One write of `updateQueuePositions` for the entry `c`, followed by the writes
for the rest of the list, acts on a stored document as the writes for `c :: rest`. -/
theorem positioned_cons {c : Queue} {rest : List Queue} (now index : Nat)
    (hnew : c.id ∉ rest.map (fun q => q.id)) (d : Queue) :
    QueueService.positioned rest (index + 1)
        (if d.id = c.id then
          (({ position := some (index + 1) } : QueueUpdate).withDefaults now).apply d
          else d)
      = QueueService.positioned (c :: rest) index d := by
  rw [positionPatch_apply]
  by_cases hd : d.id = c.id
  · rw [if_pos hd]
    unfold QueueService.positioned
    have h1 : d.id ∉ rest.map (fun q => q.id) := by rw [hd]; exact hnew
    have h2 : d.id ∈ (c :: rest).map (fun q => q.id) := by
      rw [hd]; exact List.mem_cons_self _ _
    have h3 : ((c :: rest).map (fun q => q.id)).indexOf d.id = 0 := by
      rw [List.map_cons, hd]; exact List.indexOf_cons_self _ _
    rw [if_neg (show ¬ ({ d with position := index + 1 } : Queue).id ∈
      rest.map (fun q => q.id) from h1), if_pos h2, h3]
  · rw [if_neg hd]
    unfold QueueService.positioned
    have h3 : ((c :: rest).map (fun q => q.id)).indexOf d.id
        = (rest.map (fun q => q.id)).indexOf d.id + 1 := by
      rw [List.map_cons]
      exact List.indexOf_cons_ne _ (fun h => hd h.symm)
    by_cases hmem : d.id ∈ rest.map (fun q => q.id)
    · have h2 : d.id ∈ (c :: rest).map (fun q => q.id) := by
        rw [List.map_cons]; exact List.mem_cons_of_mem _ hmem
      rw [if_pos hmem, if_pos h2, h3]
      have : index + 1 + (rest.map (fun q => q.id)).indexOf d.id + 1
          = index + ((rest.map (fun q => q.id)).indexOf d.id + 1) + 1 := by omega
      rw [this]
    · have h2 : d.id ∉ (c :: rest).map (fun q => q.id) := by
        rw [List.map_cons, List.mem_cons]
        rintro (h | h)
        · exact hd h
        · exact hmem h
      rw [if_neg hmem, if_neg h2]

/-- The writes of `updateQueuePositions`, for in-memory entries with distinct ids
that are all stored: no write fails, and the stored documents change as
`positioned` says. -/
theorem writePositions_eq (now : Nat) :
    ∀ (queue : List Queue) (db : Store) (index : Nat), (queue.map (fun c => c.id)).Nodup →
      (∀ c ∈ queue, c.id ∈ db.queues.map (fun q => q.id)) →
      QueueService.writePositions db now queue index =
        some { db with queues := db.queues.map (QueueService.positioned queue index) } := by
  intro queue
  induction queue with
  | nil =>
    intro db index _ _
    have : db.queues.map (QueueService.positioned [] index) = db.queues := by
      rw [show QueueService.positioned [] index = id from by
        funext d; simp [QueueService.positioned], List.map_id]
    simp [QueueService.writePositions, this]
  | cons c rest ih =>
    intro db index hnodup hstored
    rw [List.map_cons, List.nodup_cons] at hnodup
    obtain ⟨d0, hd0⟩ := find_isSome_of_id_mem (hstored c (List.mem_cons_self _ _))
    have hstored1 : ∀ x ∈ rest, x.id ∈ (db.queues.map (fun d =>
        if d.id = c.id then
          (({ position := some (index + 1) } : QueueUpdate).withDefaults now).apply d
        else d)).map (fun q => q.id) := by
      intro x hx
      have hx1 := hstored x (List.mem_cons_of_mem _ hx)
      rw [List.map_map]
      have hfun : ((fun (q : Queue) => q.id) ∘ fun d =>
          if d.id = c.id then
            (({ position := some (index + 1) } : QueueUpdate).withDefaults now).apply d
          else d) = fun q => q.id := by
        funext d
        show (if d.id = c.id then _ else d).id = d.id
        split <;> rfl
      rw [hfun]
      exact hx1
    unfold QueueService.writePositions
    rw [queueUpdate_found_eq now _ hd0]
    simp only []
    rw [ih _ (index + 1) hnodup.2 hstored1]
    simp only [Option.some.injEq]
    congr 1
    rw [List.map_map]
    apply List.map_congr_left
    intro d _
    exact positioned_cons now index hnodup.1 d

/-- Listing, for each element of a duplicate-free list, its place in the list
plus `k + 1` gives the numbers from `k + 1` on. -/
theorem map_indexOf_range (l : List String) (hl : l.Nodup) :
    ∀ k, l.map (fun x => k + l.indexOf x + 1) = List.range' (k + 1) l.length := by
  induction l with
  | nil => intro k; rfl
  | cons a t ih =>
    intro k
    rw [List.nodup_cons] at hl
    rw [List.map_cons, List.length_cons, List.range'_succ, List.indexOf_cons_self]
    congr 1
    rw [← ih hl.2 (k + 1)]
    apply List.map_congr_left
    intro x hx
    have hne : a ≠ x := fun h => hl.1 (h ▸ hx)
    rw [List.indexOf_cons_ne _ hne]
    omega

/-- Every entry of the list that `updateQueuePositions` numbers is the read form of
a stored waiting entry of the business. -/
theorem mem_sortedWaiting {db : Store} {businessId : String} {c : Queue}
    (h : c ∈ QueueService.sortedWaiting db businessId) :
    ∃ e0 ∈ db.queues, c = Queue.fromFirestore e0 ∧ e0.businessId = businessId ∧
      e0.status = QueueStatus.waiting := by
  unfold QueueService.sortedWaiting QueueService.sortByJoinTime at h
  rw [(List.perm_insertionSort _ _).mem_iff] at h
  obtain ⟨e0, he0, rfl, hb, hs⟩ := mem_queueFindByBusinessId h
  exact ⟨e0, he0, rfl, hb, hs _ rfl⟩

/-- A stored waiting entry of the business is in the list that
`updateQueuePositions` numbers. -/
theorem sortedWaiting_mem {db : Store} {businessId : String} {d : Queue} (hd : d ∈ db.queues)
    (hb : d.businessId = businessId) (hs : d.status = QueueStatus.waiting) :
    Queue.fromFirestore d ∈ QueueService.sortedWaiting db businessId := by
  unfold QueueService.sortedWaiting QueueService.sortByJoinTime
  rw [(List.perm_insertionSort _ _).mem_iff]
  exact mem_readWaiting hd hb hs

/-- The list that `updateQueuePositions` numbers has distinct ids when the stored
documents do. -/
theorem sortedWaiting_nodup {db : Store} (businessId : String)
    (hids : (db.queues.map (fun q => q.id)).Nodup) :
    ((QueueService.sortedWaiting db businessId).map (fun c => c.id)).Nodup := by
  unfold QueueService.sortedWaiting QueueService.sortByJoinTime
  rw [((List.perm_insertionSort _ _).map _).nodup_iff]
  exact readWaiting_nodup businessId hids

/-- The ids of the list that `updateQueuePositions` numbers are, up to order, the
ids of the stored waiting entries of the business. -/
theorem sortedWaiting_ids_perm (db : Store) (businessId : String) :
    ((QueueService.sortedWaiting db businessId).map (fun c => c.id)).Perm
      ((db.queues.filter (fun q =>
        q.businessId == businessId && q.status == QueueStatus.waiting)).map (fun c => c.id)) := by
  unfold QueueService.sortedWaiting QueueService.sortByJoinTime
  refine ((List.perm_insertionSort _ _).map _).trans ?_
  unfold QueueService.readWaiting Queue.findByBusinessId
  simp only [List.map_map]
  have hfun : ((fun (c : Queue) => c.id) ∘ Queue.fromFirestore) = fun c => c.id := rfl
  rw [hfun]
  refine ((List.perm_insertionSort _ _).map _).trans ?_
  have hm : Queue.matching db businessId { status := some QueueStatus.waiting }
      = db.queues.filter (fun q =>
        q.businessId == businessId && q.status == QueueStatus.waiting) := by
    unfold Queue.matching
    apply List.filter_congr
    intro q _
    simp
  rw [hm]

/-- A stored document has its id in the list that `updateQueuePositions` numbers
exactly when it is a waiting entry of the business, when stored ids are distinct. -/
theorem id_mem_sortedWaiting_iff {db : Store} {businessId : String} {d : Queue}
    (hids : (db.queues.map (fun q => q.id)).Nodup) (hd : d ∈ db.queues) :
    d.id ∈ (QueueService.sortedWaiting db businessId).map (fun c => c.id) ↔
      (d.businessId = businessId ∧ d.status = QueueStatus.waiting) := by
  constructor
  · intro h
    obtain ⟨c, hc, hcid⟩ := List.mem_map.mp h
    obtain ⟨e0, he0, rfl, hb, hs⟩ := mem_sortedWaiting hc
    have : e0 = d := List.inj_on_of_nodup_map hids he0 hd hcid
    rw [← this]
    exact ⟨hb, hs⟩
  · rintro ⟨hb, hs⟩
    exact List.mem_map.mpr ⟨_, sortedWaiting_mem hd hb hs, rfl⟩

/-- The list that `updateQueuePositions` numbers is in ascending `joinedAt`. -/
theorem sortedWaiting_sorted (db : Store) (businessId : String) :
    (QueueService.sortedWaiting db businessId).Pairwise
      (fun x y => x.joinedAt ≤ y.joinedAt) := by
  unfold QueueService.sortedWaiting QueueService.sortByJoinTime
  have h1 : IsTotal Queue (fun a b => a.joinedAt ≤ b.joinedAt) :=
    ⟨fun a b => Nat.le_total a.joinedAt b.joinedAt⟩
  have h2 : IsTrans Queue (fun a b => a.joinedAt ≤ b.joinedAt) :=
    ⟨fun _ _ _ hab hbc => Nat.le_trans hab hbc⟩
  exact List.sorted_insertionSort (fun (a b : Queue) => a.joinedAt ≤ b.joinedAt) _

/-- In a list in ascending `joinedAt` with distinct ids, an entry that joined
strictly earlier than another has its id at a smaller place. -/
theorem indexOf_lt_of_joined_earlier :
    ∀ (l : List Queue), l.Pairwise (fun x y => x.joinedAt ≤ y.joinedAt) →
      (l.map (fun c => c.id)).Nodup → ∀ x ∈ l, ∀ y ∈ l, x.joinedAt < y.joinedAt →
      (l.map (fun c => c.id)).indexOf x.id < (l.map (fun c => c.id)).indexOf y.id := by
  intro l
  induction l with
  | nil => intro _ _ x hx; exact absurd hx (by simp)
  | cons s t ih =>
    intro hsorted hnodup x hx y hy hlt
    rw [List.pairwise_cons] at hsorted
    rw [List.map_cons, List.nodup_cons] at hnodup
    have hyt : y ∈ t := by
      rcases List.mem_cons.mp hy with rfl | hyt
      · rcases List.mem_cons.mp hx with rfl | hxt
        · exact absurd hlt (Nat.lt_irrefl _)
        · exact absurd (hsorted.1 x hxt) (by omega)
      · exact hyt
    have hys : s.id ≠ y.id := fun h => hnodup.1 (h ▸ List.mem_map_of_mem _ hyt)
    rw [List.map_cons, List.indexOf_cons_ne _ hys]
    rcases List.mem_cons.mp hx with rfl | hxt
    · rw [List.indexOf_cons_self]
      exact Nat.succ_pos _
    · have hxs : s.id ≠ x.id := fun h => hnodup.1 (h ▸ List.mem_map_of_mem _ hxt)
      rw [List.indexOf_cons_ne _ hxs]
      exact Nat.succ_lt_succ (ih hsorted.2 hnodup.2 x hxt y hyt hlt)

/-- The loop of `checkForNotifications` keeps the `joinedAt` of a stored document. -/
theorem markNotified_joinedAt (n : Nat) (queue : List Queue) (d : Queue) :
    (QueueService.markNotified n queue d).joinedAt = d.joinedAt := by
  unfold QueueService.markNotified
  split
  · split <;> rfl
  · rfl

/-- The loop of `checkForNotifications` leaves alone a stored document whose id is
not in the list. -/
theorem markNotified_of_not_mem (n : Nat) {queue : List Queue} {d : Queue}
    (h : d.id ∉ queue.map (fun c => c.id)) : QueueService.markNotified n queue d = d := by
  unfold QueueService.markNotified
  rw [find_none_of_id_not_mem h]

/-- The writes of `updateQueuePositions` change only the `position` of a stored
document. -/
theorem positioned_fields (queue : List Queue) (index : Nat) (d : Queue) :
    (QueueService.positioned queue index d).id = d.id ∧
    (QueueService.positioned queue index d).businessId = d.businessId ∧
    (QueueService.positioned queue index d).status = d.status ∧
    (QueueService.positioned queue index d).joinedAt = d.joinedAt := by
  unfold QueueService.positioned
  split <;> exact ⟨rfl, rfl, rfl, rfl⟩

/-- The store after `updateQueuePositions`, for distinct stored ids: the call
returns, and every stored document keeps its id, business, status and `joinedAt`,
gets the position that `positioned` says, and is unchanged when it is not a
waiting entry of the business. -/
theorem updateQueuePositions_store (db : Store) (now : Nat) (businessId : String)
    (hids : (db.queues.map (fun q => q.id)).Nodup) :
    ∃ out g, QueueService.updateQueuePositions db now businessId = some out ∧
      out.1.queues = db.queues.map g ∧
      ∀ d, (g d).id = d.id ∧ (g d).businessId = d.businessId ∧ (g d).status = d.status ∧
        (g d).joinedAt = d.joinedAt ∧
        (g d).position
          = (QueueService.positioned (QueueService.sortedWaiting db businessId) 0 d).position ∧
        (d.id ∉ (QueueService.sortedWaiting db businessId).map (fun c => c.id) → g d = d) := by
  have hnodup := sortedWaiting_nodup businessId hids
  have hstored : ∀ c ∈ QueueService.sortedWaiting db businessId,
      c.id ∈ db.queues.map (fun q => q.id) := by
    intro c hc
    obtain ⟨e0, he0, rfl, -, -⟩ := mem_sortedWaiting hc
    exact List.mem_map.mpr ⟨e0, he0, rfl⟩
  have hwrite := writePositions_eq now _ db 0 hnodup hstored
  have hstored1 : ∀ c ∈ QueueService.sortedWaiting db businessId,
      c.id ∈ (db.queues.map
        (QueueService.positioned (QueueService.sortedWaiting db businessId) 0)).map
          (fun q => q.id) := by
    intro c hc
    rw [List.map_map]
    have hfun : ((fun (q : Queue) => q.id) ∘
        QueueService.positioned (QueueService.sortedWaiting db businessId) 0)
        = fun q => q.id := by
      funext d
      exact (positioned_fields _ _ d).1
    rw [hfun]
    exact hstored c hc
  have hpos : ∀ d, d.id ∉ (QueueService.sortedWaiting db businessId).map (fun c => c.id) →
      QueueService.positioned (QueueService.sortedWaiting db businessId) 0 d = d := by
    intro d hd
    unfold QueueService.positioned
    rw [if_neg hd]
  have hrun : QueueService.updateQueuePositions db now businessId =
      some ((QueueService.checkForNotifications (QueueService.positionedStore db businessId)
          now businessId (QueueService.sortedWaiting db businessId)).1,
        QueueService.sortedWaiting db businessId,
        (QueueService.checkForNotifications (QueueService.positionedStore db businessId)
          now businessId (QueueService.sortedWaiting db businessId)).2) := by
    unfold QueueService.updateQueuePositions
    show (match QueueService.writePositions db now
        (QueueService.sortedWaiting db businessId) 0 with
      | none => none
      | some db1 => _) = _
    rw [hwrite]
    rfl
  rw [hrun]
  unfold QueueService.checkForNotifications
  cases hb : Business.findById (QueueService.positionedStore db businessId) businessId with
  | none =>
    refine ⟨_, QueueService.positioned (QueueService.sortedWaiting db businessId) 0, rfl, rfl, ?_⟩
    intro d
    have hf := positioned_fields (QueueService.sortedWaiting db businessId) 0 d
    exact ⟨hf.1, hf.2.1, hf.2.2.1, hf.2.2.2, rfl, hpos d⟩
  | some business =>
    by_cases h0 : business.settings.notifyBeforePositions = 0
    · refine ⟨_, QueueService.positioned (QueueService.sortedWaiting db businessId) 0, rfl, ?_, ?_⟩
      · simp only [h0, if_true]
        rfl
      · intro d
        have hf := positioned_fields (QueueService.sortedWaiting db businessId) 0 d
        exact ⟨hf.1, hf.2.1, hf.2.2.1, hf.2.2.2, rfl, hpos d⟩
    · refine ⟨_, fun d => QueueService.markNotified business.settings.notifyBeforePositions
          (QueueService.sortedWaiting db businessId)
          (QueueService.positioned (QueueService.sortedWaiting db businessId) 0 d), rfl, ?_, ?_⟩
      · simp only [h0, if_false]
        rw [notifyLoop_eq now businessId _ _ _ hnodup hstored1]
        show (db.queues.map _).map _ = _
        rw [List.map_map]
        rfl
      · intro d
        have hf := positioned_fields (QueueService.sortedWaiting db businessId) 0 d
        have hm := markNotified_fields business.settings.notifyBeforePositions
          (QueueService.sortedWaiting db businessId)
          (QueueService.positioned (QueueService.sortedWaiting db businessId) 0 d)
        have hj := markNotified_joinedAt business.settings.notifyBeforePositions
          (QueueService.sortedWaiting db businessId)
          (QueueService.positioned (QueueService.sortedWaiting db businessId) 0 d)
        refine ⟨hm.1.trans hf.1, hm.2.1.trans hf.2.1, hm.2.2.1.trans hf.2.2.1,
          hj.trans hf.2.2.2, hm.2.2.2, ?_⟩
        intro hd
        show QueueService.markNotified _ _ _ = d
        rw [hpos d hd]
        exact markNotified_of_not_mem _ hd

/-- The position that the writes of `updateQueuePositions` give a document whose id
is in the list. -/
theorem positioned_position {queue : List Queue} {index : Nat} {d : Queue}
    (h : d.id ∈ queue.map (fun c => c.id)) :
    (QueueService.positioned queue index d).position
      = index + (queue.map (fun c => c.id)).indexOf d.id + 1 := by
  unfold QueueService.positioned
  rw [if_pos h]

/-- Rewriting documents that a filter rejects before and after the rewrite does
not change what the filter keeps. -/
theorem filter_map_outside {α : Type} (p : α → Bool) (g : α → α) (l : List α)
    (h : ∀ d ∈ l, g d = d ∨ (p d = false ∧ p (g d) = false)) :
    (l.map g).filter p = l.filter p := by
  induction l with
  | nil => rfl
  | cons a t ih =>
    have ht := ih (fun d hd => h d (List.mem_cons_of_mem _ hd))
    rcases h a (List.mem_cons_self _ _) with ha | ⟨h1, h2⟩
    · rw [List.map_cons, ha, List.filter_cons, List.filter_cons, ht]
    · rw [List.map_cons, List.filter_cons, List.filter_cons, h1, h2, ht]
      rfl

/-- Nothing changes outside a business when nothing changes. -/
theorem unchangedOutside_refl (businessId : String) (db : Store) :
    unchangedOutside businessId db db := ⟨rfl, rfl, rfl⟩

/-- Two steps that each change nothing outside a business change nothing outside
it together. -/
theorem unchangedOutside_trans {businessId : String} {db db1 db2 : Store}
    (h1 : unchangedOutside businessId db db1) (h2 : unchangedOutside businessId db1 db2) :
    unchangedOutside businessId db db2 :=
  ⟨h2.1.trans h1.1, h2.2.1.trans h1.2.1, h2.2.2.trans h1.2.2⟩

/-- A successful `Queue.update` of an entry of the business changes nothing
outside the business, leaves the counters alone and keeps the owners of all
entry ids. -/
theorem queueUpdate_isolated {db db1 : Store} {now : Nat} {businessId queueId : String}
    {u : QueueUpdate} {q : Queue} (h : Queue.update db now queueId u = some (db1, q))
    (ho : ownsQueue db businessId queueId) :
    unchangedOutside businessId db db1 ∧ db1.counters = db.counters ∧
      ∀ other, ownsQueue db businessId other → ownsQueue db1 businessId other := by
  rw [queueUpdate_store h]
  refine ⟨⟨?_, rfl, rfl⟩, rfl, ?_⟩
  · show (db.queues.map _).filter _ = _
    apply filter_map_outside
    intro d hd
    by_cases hid : d.id = queueId
    · right
      rw [if_pos hid]
      have hb : d.businessId = businessId := ho d hd hid
      constructor
      · simp [hb]
      · show (d.businessId != businessId) = false
        simp [hb]
    · left
      rw [if_neg hid]
  · intro other hother d hd hid
    obtain ⟨d0, hd0, rfl⟩ := List.mem_map.mp
      (show d ∈ db.queues.map (fun x =>
        if x.id = queueId then (u.withDefaults now).apply x else x) from hd)
    by_cases h0 : d0.id = queueId
    · rw [if_pos h0] at hid ⊢
      exact hother d0 hd0 hid
    · rw [if_neg h0] at hid ⊢
      exact hother d0 hd0 hid

/-- A successful counter write that keeps id and business, on a counter of the
business, changes nothing outside the business, leaves the entries alone and keeps
the owners of all counter ids. -/
theorem counterModify_isolated {db db1 : Store} {businessId counterId : String}
    {f : Counter → Counter} {c : Counter}
    (h : Counter.modify db counterId f = some (db1, c))
    (hf : ∀ x, (f x).id = x.id ∧ (f x).businessId = x.businessId)
    (ho : ownsCounter db businessId counterId) :
    unchangedOutside businessId db db1 ∧ db1.queues = db.queues ∧
      ∀ other, ownsCounter db businessId other → ownsCounter db1 businessId other := by
  rw [counterModify_store h]
  refine ⟨⟨rfl, ?_, rfl⟩, rfl, ?_⟩
  · show (db.counters.map _).filter _ = _
    apply filter_map_outside
    intro d hd
    by_cases hid : d.id = counterId
    · right
      rw [if_pos hid]
      have hb : d.businessId = businessId := ho d hd hid
      constructor
      · simp [hb]
      · rw [(hf d).2]
        simp [hb]
    · left
      rw [if_neg hid]
  · intro other hother d hd hid
    obtain ⟨d0, hd0, rfl⟩ := List.mem_map.mp
      (show d ∈ db.counters.map (fun x => if x.id = counterId then f x else x) from hd)
    by_cases h0 : d0.id = counterId
    · rw [if_pos h0] at hid ⊢
      rw [(hf d0).1] at hid
      rw [(hf d0).2]
      exact hother d0 hd0 hid
    · rw [if_neg h0] at hid ⊢
      exact hother d0 hd0 hid

/-- A successful `Business.updateStats` of the business changes nothing outside it. -/
theorem businessUpdateStats_isolated {db db1 : Store} {now : Nat} {businessId : String}
    {stats : BusinessStats} (h : Business.updateStats db now businessId stats = some db1) :
    unchangedOutside businessId db db1 := by
  unfold Business.updateStats at h
  split at h
  · exact absurd h (by simp)
  · simp only [Option.some.injEq] at h
    rw [← h]
    refine ⟨rfl, rfl, ?_⟩
    show (db.businesses.map _).filter _ = _
    apply filter_map_outside
    intro b _
    by_cases hid : b.id = businessId
    · right
      simp [hid]
    · left
      simp [hid]

/-- Deleting a counter of the business changes nothing outside it. -/
theorem counterDelete_isolated {db : Store} {businessId counterId : String}
    (ho : ownsCounter db businessId counterId) :
    unchangedOutside businessId db (Counter.delete db counterId) := by
  refine ⟨rfl, ?_, rfl⟩
  show (db.counters.filter _).filter _ = _
  rw [List.filter_filter]
  apply List.filter_congr
  intro d hd
  by_cases hid : d.id = counterId
  · have hb : d.businessId = businessId := ho d hd hid
    simp [hb]
  · simp [hid]

/-- With distinct ids, the entry that `findOwnQueue` returns is the only stored
entry with that id, so the id is owned by the business. -/
theorem findOwnQueue_owns {db : Store} {businessId queueId : String} {q : Queue}
    (hids : (db.queues.map (fun q => q.id)).Nodup)
    (h : findOwnQueue db businessId queueId = some q) : ownsQueue db businessId queueId := by
  obtain ⟨q0, hq0, -, hb⟩ := findOwnQueue_some h
  intro d hd hid
  have hq0id : q0.id = queueId := by simpa using List.find?_some hq0
  have : d = q0 :=
    List.inj_on_of_nodup_map hids hd (List.mem_of_find?_eq_some hq0) (hid.trans hq0id.symm)
  rw [this]
  exact hb

/-- With distinct ids, the counter that `findOwnCounter` returns is the only stored
counter with that id, so the id is owned by the business. -/
theorem findOwnCounter_owns {db : Store} {businessId counterId : String} {c : Counter}
    (hids : (db.counters.map (fun c => c.id)).Nodup)
    (h : findOwnCounter db businessId counterId = some c) :
    ownsCounter db businessId counterId := by
  obtain ⟨c0, hc0, -, hb⟩ := findOwnCounter_some h
  intro d hd hid
  have hc0id : c0.id = counterId := by simpa using List.find?_some hc0
  have : d = c0 :=
    List.inj_on_of_nodup_map hids hd (List.mem_of_find?_eq_some hc0) (hid.trans hc0id.symm)
  rw [this]
  exact hb

/-- With distinct ids, a stored counter of the business owns its id. -/
theorem ownsCounter_of_mem {db : Store} {businessId : String} {c0 : Counter}
    (hids : (db.counters.map (fun c => c.id)).Nodup) (hc0 : c0 ∈ db.counters)
    (hb : c0.businessId = businessId) : ownsCounter db businessId c0.id := by
  intro d hd hid
  have : d = c0 := List.inj_on_of_nodup_map hids hd hc0 hid
  rw [this]
  exact hb

/-- With distinct ids, a stored entry of the business owns its id. -/
theorem ownsQueue_of_mem {db : Store} {businessId : String} {e0 : Queue}
    (hids : (db.queues.map (fun q => q.id)).Nodup) (he0 : e0 ∈ db.queues)
    (hb : e0.businessId = businessId) : ownsQueue db businessId e0.id := by
  intro d hd hid
  have : d = e0 := List.inj_on_of_nodup_map hids hd he0 hid
  rw [this]
  exact hb

/-- The counter that an own entry references is owned by the business, when every
entry's `counterId` refers to a counter of the entry's own business. -/
theorem findOwnQueue_counter_owns {db : Store} {businessId queueId counterId : String}
    {q : Queue} (href : countersOfOwnBusiness db)
    (h : findOwnQueue db businessId queueId = some q) (hc : q.counterId = some counterId) :
    ownsCounter db businessId counterId := by
  obtain ⟨q0, hq0, rfl, hb⟩ := findOwnQueue_some h
  have hstored : q0.counterId = some counterId := by
    unfold Queue.fromFirestore at hc
    simp only at hc
    split at hc
    · exact hc
    · exact absurd hc (by simp)
  intro d hd hid
  rw [← hb]
  exact href q0 (List.mem_of_find?_eq_some hq0) d hd (by rw [hstored, hid])

/-- With distinct ids, `findOwnQueue` finds nothing for the id of an entry of
another business. -/
theorem findOwnQueue_foreign {db : Store} {businessId : String} {e : Queue}
    (hids : (db.queues.map (fun q => q.id)).Nodup) (he : e ∈ db.queues)
    (hb : e.businessId ≠ businessId) : findOwnQueue db businessId e.id = none := by
  cases h : findOwnQueue db businessId e.id with
  | none => rfl
  | some q => exact absurd (findOwnQueue_owns hids h e he rfl) hb

/-- With distinct ids, `findOwnCounter` finds nothing for the id of a counter of
another business. -/
theorem findOwnCounter_foreign {db : Store} {businessId : String} {c : Counter}
    (hids : (db.counters.map (fun c => c.id)).Nodup) (hc : c ∈ db.counters)
    (hb : c.businessId ≠ businessId) : findOwnCounter db businessId c.id = none := by
  cases h : findOwnCounter db businessId c.id with
  | none => rfl
  | some k => exact absurd (findOwnCounter_owns hids h c hc rfl) hb

/-- With distinct entry ids, `startServing` changes nothing outside the caller's
business. -/
theorem startServing_isolated {db : Store} (clock : Clock) (businessId queueId : String)
    (hqids : (db.queues.map (fun q => q.id)).Nodup) :
    unchangedOutside businessId db (startServing db clock businessId queueId).1 := by
  unfold startServing
  split
  · exact unchangedOutside_refl _ _
  · rename_i q hown
    split
    · exact unchangedOutside_refl _ _
    · split
      · exact unchangedOutside_refl _ _
      · rename_i db1 uq hupd
        exact (queueUpdate_isolated hupd (findOwnQueue_owns hqids hown)).1

/-- With distinct entry ids and counters referenced within their business,
`completeService` changes nothing outside the caller's business, whichever of its
writes succeed. -/
theorem completeService_isolated {db : Store} (clock : Clock) (businessId queueId : String)
    (hqids : (db.queues.map (fun q => q.id)).Nodup) (href : countersOfOwnBusiness db) :
    unchangedOutside businessId db (completeService db clock businessId queueId).1 := by
  unfold completeService
  cases hown : findOwnQueue db businessId queueId with
  | none => exact unchangedOutside_refl _ _
  | some q =>
    dsimp only
    cases hupd : Queue.update db clock.now queueId
        { status := some QueueStatus.completed, completedAt := some clock.now } with
    | none => exact unchangedOutside_refl _ _
    | some out =>
      obtain ⟨db1, uq⟩ := out
      dsimp only
      obtain ⟨h1, hc1, -⟩ := queueUpdate_isolated hupd (findOwnQueue_owns hqids hown)
      have hstats : ∀ db2 : Store, unchangedOutside businessId db db2 →
          unchangedOutside businessId db
            (match (match Business.findById db2 businessId with
                | some business =>
                  Business.updateStats db2 clock.now businessId
                    (completedStats business.stats (servingMinutes clock.now q.servingAt))
                | none => some db2) with
              | none => (db2, failure 500 "Error completing service")
              | some db4 =>
                (db4,
                  ({ status := 200
                     success := true
                     message := "Service completed successfully"
                     queue := some uq } : Response))).1 := by
        intro db2 h2
        cases hb : Business.findById db2 businessId with
        | none => exact h2
        | some business =>
          dsimp only
          cases hst : Business.updateStats db2 clock.now businessId
              (completedStats business.stats (servingMinutes clock.now q.servingAt)) with
          | none => exact h2
          | some db4 => exact unchangedOutside_trans h2 (businessUpdateStats_isolated hst)
      cases hcid : q.counterId with
      | none => exact hstats db1 h1
      | some counterId =>
        dsimp only
        cases hrel : Counter.completeQueue db1 clock.now counterId with
        | none => exact h1
        | some out2 =>
          obtain ⟨db2, c2⟩ := out2
          have hown2 : ownsCounter db1 businessId counterId := by
            intro d hd hid
            rw [hc1] at hd
            exact findOwnQueue_counter_owns href hown hcid d hd hid
          exact hstats db2 (unchangedOutside_trans h1
            (counterModify_isolated hrel (fun _ => ⟨rfl, rfl⟩) hown2).1)

/-- With distinct entry ids and counters referenced within their business,
`skipCustomer` changes nothing outside the caller's business. -/
theorem skipCustomer_isolated {db : Store} (clock : Clock) (businessId queueId : String)
    (reason : Option String)
    (hqids : (db.queues.map (fun q => q.id)).Nodup) (href : countersOfOwnBusiness db) :
    unchangedOutside businessId db (skipCustomer db clock businessId queueId reason).1 := by
  unfold skipCustomer
  cases hown : findOwnQueue db businessId queueId with
  | none => exact unchangedOutside_refl _ _
  | some q =>
    dsimp only
    split
    · exact unchangedOutside_refl _ _
    · rename_i db1 uq hupd
      obtain ⟨h1, hc1, -⟩ := queueUpdate_isolated hupd (findOwnQueue_owns hqids hown)
      cases hcid : q.counterId with
      | none => exact h1
      | some counterId =>
        dsimp only
        cases hrel : Counter.update db1 clock.now counterId freeCounter with
        | none => exact h1
        | some out2 =>
          obtain ⟨db2, c2⟩ := out2
          have hown2 : ownsCounter db1 businessId counterId := by
            intro d hd hid
            rw [hc1] at hd
            exact findOwnQueue_counter_owns href hown hcid d hd hid
          exact unchangedOutside_trans h1
            (counterModify_isolated hrel (fun _ => ⟨rfl, rfl⟩) hown2).1

/-- With distinct ids and counters referenced within their business, `transferQueue`
changes nothing outside the caller's business, whichever of its writes succeed. -/
theorem transferQueue_isolated {db : Store} (clock : Clock)
    (businessId queueId toCounterId : String)
    (hqids : (db.queues.map (fun q => q.id)).Nodup)
    (hcids : (db.counters.map (fun c => c.id)).Nodup) (href : countersOfOwnBusiness db) :
    unchangedOutside businessId db
      (transferQueue db clock businessId queueId toCounterId).1 := by
  unfold transferQueue
  cases hown : findOwnQueue db businessId queueId with
  | none => exact unchangedOutside_refl _ _
  | some q =>
    dsimp only
    cases hto : Counter.findById db toCounterId with
    | none => exact unchangedOutside_refl _ _
    | some toCounter =>
      dsimp only
      split
      · exact unchangedOutside_refl _ _
      · rename_i hbiz
        have hownq : ownsQueue db businessId q.id := by
          obtain ⟨q0, hq0, rfl, hb⟩ := findOwnQueue_some hown
          have h := ownsQueue_of_mem hqids (List.mem_of_find?_eq_some hq0) hb
          exact h
        have hownto : ownsCounter db businessId toCounter.id := by
          obtain ⟨k0, hk0, rfl, -⟩ := counterFindById_some hto
          have hb : k0.businessId = businessId := by
            simpa [Counter.fromFirestore] using hbiz
          have h := ownsCounter_of_mem hcids (List.mem_of_find?_eq_some hk0) hb
          exact h
        have hrest : ∀ (fromId : Option String) (db1 : Store),
            unchangedOutside businessId db db1 →
            db1.queues = db.queues → ownsCounter db1 businessId toCounter.id →
            unchangedOutside businessId db
              (match Counter.assignQueue db1 clock.now toCounter.id q.id q.queueNumber with
                | none => (db1, failure 500 "Error transferring queue")
                | some (db2, _) =>
                  match Queue.update db2 clock.now q.id { counterId := some toCounter.id } with
                  | none => (db2, failure 500 "Error transferring queue")
                  | some (db3, updatedQueue) =>
                    (db3,
                      ({ status := 200
                         success := true
                         message := "Queue transferred successfully"
                         queue := some updatedQueue
                         fromCounterId := fromId
                         counter := some toCounter } : Response))).1 := by
          intro fromId db1 h1 hq1 ho1
          split
          · exact h1
          · rename_i db2 c2 hassign
            obtain ⟨h2, hq2, -⟩ := counterModify_isolated hassign (fun _ => ⟨rfl, rfl⟩) ho1
            have hownq2 : ownsQueue db2 businessId q.id := by
              intro d hd hid
              rw [hq2, hq1] at hd
              exact hownq d hd hid
            split
            · exact unchangedOutside_trans h1 h2
            · rename_i db3 uq hupd
              exact unchangedOutside_trans (unchangedOutside_trans h1 h2)
                (queueUpdate_isolated hupd hownq2).1
        cases hcid : q.counterId with
        | none => exact hrest none db (unchangedOutside_refl _ _) rfl hownto
        | some counterId =>
          dsimp only
          cases hrel : Counter.update db clock.now counterId freeCounter with
          | none => exact unchangedOutside_refl _ _
          | some out =>
            obtain ⟨db1, c1⟩ := out
            obtain ⟨h1, hq1, hkeep⟩ := counterModify_isolated hrel (fun _ => ⟨rfl, rfl⟩)
              (findOwnQueue_counter_owns href hown hcid)
            exact hrest (some counterId) db1 h1 hq1 (hkeep _ hownto)

/-- With distinct ids, `callNextCustomer` changes nothing outside the caller's
business. -/
theorem callNextCustomer_isolated {db : Store} (clock : Clock) (businessId : String)
    (body : CallNextBody)
    (hqids : (db.queues.map (fun q => q.id)).Nodup)
    (hcids : (db.counters.map (fun c => c.id)).Nodup) :
    unchangedOutside businessId db (callNextCustomer db clock businessId body).1 := by
  unfold callNextCustomer
  split
  · exact unchangedOutside_refl _ _
  · rename_i counter hcounter
    obtain ⟨c0, hc0, rfl, hcb⟩ := resolveCounter_ok hcounter
    split
    · exact unchangedOutside_refl _ _
    · rename_i nextCustomer rest hlist
      obtain ⟨e0, he0, rfl, heb, -⟩ := mem_queueFindByBusinessId
        (show nextCustomer ∈
            Queue.findByBusinessId db businessId (callNextFilters body.serviceType) by
          rw [hlist]; exact List.mem_cons_self _ _)
      split
      · exact unchangedOutside_refl _ _
      · rename_i db1 uq hupd
        have hownq := ownsQueue_of_mem hqids he0 heb
        have hownc := ownsCounter_of_mem hcids hc0 hcb
        obtain ⟨h1, hc1, -⟩ := queueUpdate_isolated hupd
          (show ownsQueue db businessId (Queue.fromFirestore e0).id from hownq)
        have hown1 : ownsCounter db1 businessId (Counter.fromFirestore c0).id := by
          intro d hd hid
          rw [hc1] at hd
          exact hownc d hd hid
        split
        · exact h1
        · rename_i db2 c2 hassign
          exact unchangedOutside_trans h1
            (counterModify_isolated hassign (fun _ => ⟨rfl, rfl⟩) hown1).1

/-- With distinct counter ids, `deleteCounter` changes nothing outside the caller's
business. -/
theorem deleteCounter_isolated {db : Store} (businessId counterId : String)
    (hcids : (db.counters.map (fun c => c.id)).Nodup) :
    unchangedOutside businessId db (deleteCounter db businessId counterId).1 := by
  unfold deleteCounter
  split
  · exact unchangedOutside_refl _ _
  · rename_i c hown
    split
    · exact unchangedOutside_refl _ _
    · exact counterDelete_isolated (findOwnCounter_owns hcids hown)

/-- With distinct counter ids, `setCounterStatus` changes nothing outside the caller's
business. -/
theorem setCounterStatus_isolated {db : Store} (clock : Clock)
    (businessId counterId status : String)
    (hcids : (db.counters.map (fun c => c.id)).Nodup) :
    unchangedOutside businessId db
      (setCounterStatus db clock businessId counterId status).1 := by
  unfold setCounterStatus
  split
  · exact unchangedOutside_refl _ _
  · rename_i c hown
    split
    · exact unchangedOutside_refl _ _
    · dsimp only
      split
      · exact unchangedOutside_refl _ _
      · rename_i db1 c1 hupd
        exact (counterModify_isolated hupd (fun _ => ⟨rfl, rfl⟩)
          (findOwnCounter_owns hcids hown)).1

/-- With distinct counter ids, `setCounterBreak` changes nothing outside the caller's
business. -/
theorem setCounterBreak_isolated {db : Store} (clock : Clock)
    (businessId counterId : String) (duration : Nat)
    (hcids : (db.counters.map (fun c => c.id)).Nodup) :
    unchangedOutside businessId db
      (setCounterBreak db clock businessId counterId duration).1 := by
  unfold setCounterBreak
  split
  · exact unchangedOutside_refl _ _
  · rename_i c hown
    split
    · exact unchangedOutside_refl _ _
    · dsimp only
      split
      · exact unchangedOutside_refl _ _
      · rename_i db1 c1 hupd
        exact (counterModify_isolated hupd (fun _ => ⟨rfl, rfl⟩)
          (findOwnCounter_owns hcids hown)).1

/-- With distinct counter ids, `endCounterBreak` changes nothing outside the caller's
business. -/
theorem endCounterBreak_isolated {db : Store} (clock : Clock)
    (businessId counterId : String)
    (hcids : (db.counters.map (fun c => c.id)).Nodup) :
    unchangedOutside businessId db (endCounterBreak db clock businessId counterId).1 := by
  unfold endCounterBreak
  split
  · exact unchangedOutside_refl _ _
  · rename_i c hown
    split
    · exact unchangedOutside_refl _ _
    · split
      · exact unchangedOutside_refl _ _
      · rename_i db1 c1 hupd
        exact (counterModify_isolated hupd (fun _ => ⟨rfl, rfl⟩)
          (findOwnCounter_owns hcids hown)).1

/-- With distinct ids, `Counter.findById` on the id of a stored counter returns the
read form of that counter. -/
theorem counterFindById_of_mem {db : Store} {c : Counter}
    (hids : (db.counters.map (fun c => c.id)).Nodup) (hc : c ∈ db.counters) :
    Counter.findById db c.id = some (Counter.fromFirestore c) := by
  obtain ⟨c1, hc1⟩ := find_isSome_of_mem (fun (k : Counter) => k.id) hc
  have hid : c1.id = c.id := by simpa using List.find?_some hc1
  have : c1 = c := List.inj_on_of_nodup_map hids (List.mem_of_find?_eq_some hc1) hc hid
  unfold Counter.findById
  rw [hc1, this]
  rfl

/-- With distinct ids, `callNextCustomer` answers 404 when `counterId` names a
counter of another business. -/
theorem callNextCustomer_foreign_counter {db : Store} (clock : Clock) {businessId : String}
    {c : Counter} (serviceType : Option String)
    (hids : (db.counters.map (fun c => c.id)).Nodup) (hc : c ∈ db.counters)
    (hb : c.businessId ≠ businessId) (hid : truthy c.id = true) :
    (callNextCustomer db clock businessId
      { counterId := some c.id, serviceType := serviceType }).2.status = 404 := by
  have hres : resolveCounter db businessId { counterId := some c.id, serviceType := serviceType }
      = .error (failure 404 "Counter not found") := by
    unfold resolveCounter
    simp only [hid, if_true, counterFindById_of_mem hids hc]
    rw [if_pos (show (Counter.fromFirestore c).businessId ≠ businessId from hb)]
  unfold callNextCustomer
  rw [hres]
  rfl

/-- With distinct ids, `transferQueue` answers 404 when `toCounterId` names a
counter of another business. -/
theorem transferQueue_foreign_counter {db : Store} (clock : Clock) {businessId : String}
    {c : Counter} (queueId : String)
    (hids : (db.counters.map (fun c => c.id)).Nodup) (hc : c ∈ db.counters)
    (hb : c.businessId ≠ businessId) :
    (transferQueue db clock businessId queueId c.id).2.status = 404 := by
  unfold transferQueue
  cases findOwnQueue db businessId queueId with
  | none => rfl
  | some q =>
    simp only [counterFindById_of_mem hids hc]
    rw [if_pos (show (Counter.fromFirestore c).businessId ≠ businessId from hb)]
    rfl

/-! ## Lemmas on JavaScript numbers -/

/-- The function `twoPow` is the power of 2 with an integer exponent. -/
theorem twoPow_eq_zpow (k : Int) : twoPow k = (2 : ℚ) ^ k := by
  unfold twoPow
  split
  · rename_i h
    obtain ⟨n, rfl⟩ := Int.eq_ofNat_of_zero_le h
    simp
  · rename_i h
    obtain ⟨n, rfl⟩ := Int.exists_eq_neg_ofNat (le_of_lt (not_le.mp h))
    simp [zpow_neg]

/-- A power of 2 is positive. -/
theorem twoPow_pos (k : Int) : 0 < twoPow k := by
  rw [twoPow_eq_zpow]
  positivity

/-- The number 0 has no binary digit. -/
theorem binaryDigitsWithin_zero (steps : Nat) : binaryDigitsWithin steps 0 = 0 := by
  cases steps <;> simp [binaryDigitsWithin]

/-- With enough halvings, `binaryDigitsWithin` counts the binary digits of a
positive number. -/
theorem binaryDigitsWithin_spec : ∀ (steps n : Nat), n ≤ steps → 0 < n →
    2 ^ (binaryDigitsWithin steps n - 1) ≤ n ∧ n < 2 ^ binaryDigitsWithin steps n := by
  intro steps
  induction steps with
  | zero => intro n h1 h2; omega
  | succ s ih =>
    intro n hle hpos
    have hne : n ≠ 0 := by omega
    simp only [binaryDigitsWithin, if_neg hne, Nat.add_sub_cancel]
    by_cases h2 : n / 2 = 0
    · rw [h2, binaryDigitsWithin_zero]
      constructor <;> simp <;> omega
    · obtain ⟨hlo, hhi⟩ := ih (n / 2) (by omega) (by omega)
      have hb : 1 ≤ binaryDigitsWithin s (n / 2) := by
        by_contra hc
        have : binaryDigitsWithin s (n / 2) = 0 := by omega
        rw [this] at hhi
        simp at hhi
        omega
      have hpow : 2 ^ binaryDigitsWithin s (n / 2)
          = 2 * 2 ^ (binaryDigitsWithin s (n / 2) - 1) := by
        rw [← pow_succ']
        congr 1
        omega
      constructor
      · rw [hpow]; omega
      · rw [pow_succ]; omega

/-- A positive `n` lies between `2 ^ (b - 1)` and `2 ^ b` for its number `b` of binary
digits. -/
theorem binaryDigits_spec (n : Nat) (h : 0 < n) :
    2 ^ (binaryDigits n - 1) ≤ n ∧ n < 2 ^ binaryDigits n :=
  binaryDigitsWithin_spec n n (le_refl n) h

/-- A power of 2 with an integer exponent as a quotient of two powers with natural
exponents, one of which is 1. -/
theorem zpow_two_split (k : Int) :
    (2 : ℚ) ^ k = ((2 ^ k.toNat : Nat) : ℚ) / ((2 ^ (-k).toNat : Nat) : ℚ) := by
  rcases le_total 0 k with h | h
  · obtain ⟨n, rfl⟩ := Int.eq_ofNat_of_zero_le h
    simp
  · obtain ⟨n, rfl⟩ := Int.exists_eq_neg_ofNat h
    simp [zpow_neg]

/-- The binary exponent `e` of a positive fraction brackets it:
`2 ^ e ≤ n / d < 2 ^ (e + 1)`. -/
theorem binaryExponent_spec (n d : Nat) (hn : 0 < n) (hd : 0 < d) :
    (2 : ℚ) ^ binaryExponent n d ≤ (n : ℚ) / (d : ℚ) ∧
      (n : ℚ) / (d : ℚ) < (2 : ℚ) ^ (binaryExponent n d + 1) := by
  obtain ⟨hnlo, hnhi⟩ := binaryDigits_spec n hn
  obtain ⟨hdlo, hdhi⟩ := binaryDigits_spec d hd
  have hbn : 1 ≤ binaryDigits n := by
    by_contra hc
    have : binaryDigits n = 0 := by omega
    rw [this] at hnhi
    simp at hnhi
    omega
  have hbd : 1 ≤ binaryDigits d := by
    by_contra hc
    have : binaryDigits d = 0 := by omega
    rw [this] at hdhi
    simp at hdhi
    omega
  have hdq : (0 : ℚ) < (d : ℚ) := by exact_mod_cast hd
  have hnloq : (2 : ℚ) ^ (binaryDigits n - 1) ≤ (n : ℚ) := by exact_mod_cast hnlo
  have hnhiq : (n : ℚ) < (2 : ℚ) ^ binaryDigits n := by exact_mod_cast hnhi
  have hdloq : (2 : ℚ) ^ (binaryDigits d - 1) ≤ (d : ℚ) := by exact_mod_cast hdlo
  have hdhiq : (d : ℚ) < (2 : ℚ) ^ binaryDigits d := by exact_mod_cast hdhi
  have htest : ∀ k : Int, (d * 2 ^ k.toNat ≤ n * 2 ^ (-k).toNat) ↔
      (2 : ℚ) ^ k ≤ (n : ℚ) / (d : ℚ) := by
    intro k
    rw [zpow_two_split k, div_le_div_iff₀ (by positivity) hdq]
    constructor
    · intro h
      have h2 : (((d * 2 ^ k.toNat : Nat)) : ℚ) ≤ ((n * 2 ^ (-k).toNat : Nat) : ℚ) := by
        exact_mod_cast h
      push_cast at h2 ⊢
      linarith
    · intro h
      have h2 : (((d * 2 ^ k.toNat : Nat)) : ℚ) ≤ ((n * 2 ^ (-k).toNat : Nat) : ℚ) := by
        push_cast at h ⊢
        linarith
      exact_mod_cast h2
  unfold binaryExponent
  simp only
  split
  · rename_i h
    refine ⟨(htest _).mp h, ?_⟩
    have he : ((binaryDigits n : Int) - (binaryDigits d : Int) + 1)
        = ((binaryDigits n : Nat) : Int) - ((binaryDigits d - 1 : Nat) : Int) := by
      rw [Nat.cast_sub hbd]
      push_cast
      ring
    rw [he, zpow_sub₀ (by norm_num), zpow_natCast, zpow_natCast, div_lt_div_iff₀ hdq (by positivity)]
    calc (n : ℚ) * 2 ^ (binaryDigits d - 1) ≤ (n : ℚ) * (d : ℚ) := by
          apply mul_le_mul_of_nonneg_left hdloq (by positivity)
      _ < 2 ^ binaryDigits n * (d : ℚ) := by
          apply mul_lt_mul_of_pos_right hnhiq hdq
  · rename_i h
    have hlt : (n : ℚ) / (d : ℚ) < (2 : ℚ) ^ ((binaryDigits n : Int) - (binaryDigits d : Int)) :=
      not_le.mp (fun hc => h ((htest _).mpr hc))
    refine ⟨?_, by rw [sub_add_cancel]; exact hlt⟩
    have he : ((binaryDigits n : Int) - (binaryDigits d : Int) - 1)
        = ((binaryDigits n - 1 : Nat) : Int) - ((binaryDigits d : Nat) : Int) := by
      rw [Nat.cast_sub hbn]
      push_cast
      ring
    rw [he, zpow_sub₀ (by norm_num), zpow_natCast, zpow_natCast, div_le_div_iff₀ (by positivity) hdq]
    calc (2 : ℚ) ^ (binaryDigits n - 1) * (d : ℚ) ≤ (n : ℚ) * (d : ℚ) := by
          apply mul_le_mul_of_nonneg_right hnloq (le_of_lt hdq)
      _ ≤ (n : ℚ) * 2 ^ binaryDigits d := by
          apply mul_le_mul_of_nonneg_left (le_of_lt hdhiq) (by positivity)

/-- Rounding leaves an integer as it is. -/
theorem roundHalfEven_intCast (m : Int) : roundHalfEven (m : ℚ) = m := by
  unfold roundHalfEven
  simp

/-- Rounding to the nearest integer moves a number by at most one half. -/
theorem roundHalfEven_error (x : ℚ) : |((roundHalfEven x : Int) : ℚ) - x| ≤ 1 / 2 := by
  have h1 := Int.floor_le x
  have h2 := Int.lt_floor_add_one x
  unfold roundHalfEven
  simp only
  rw [abs_le]
  split
  · constructor <;> linarith
  · split
    · push_cast
      constructor <;> linarith
    · split
      · constructor <;> linarith
      · push_cast
        constructor <;> linarith

/-- The absolute value of a rational, from its numerator and denominator. -/
theorem rat_abs_eq (x : ℚ) : |x| = (x.num.natAbs : ℚ) / (x.den : ℚ) := by
  have h := Rat.num_div_den x
  have hd : (0 : ℚ) < (x.den : ℚ) := by exact_mod_cast x.den_pos
  conv_lhs => rw [← h]
  rw [abs_div, abs_of_pos hd, Nat.cast_natAbs, Int.cast_abs]

/-- The binary exponent used by `roundDouble` brackets the magnitude. -/
theorem exponent_bracket (x : ℚ) (hx : x ≠ 0) :
    (2 : ℚ) ^ binaryExponent x.num.natAbs x.den ≤ |x| ∧
      |x| < (2 : ℚ) ^ (binaryExponent x.num.natAbs x.den + 1) := by
  rw [rat_abs_eq x]
  apply binaryExponent_spec
  · exact Int.natAbs_pos.mpr (Rat.num_ne_zero.mpr hx)
  · exact x.den_pos

/-- Rounding to a double moves a number by at most the relative `2 ^ (-53)`, and by
at most `2 ^ (-1075)` in the subnormal range. -/
theorem roundDouble_error (x : ℚ) :
    |roundDouble x - x| ≤ |x| / 2 ^ 53 + 1 / 2 ^ 1075 := by
  unfold roundDouble
  split
  · rename_i h
    rw [h]
    simp
  · rename_i hx
    simp only
    obtain ⟨hlo, -⟩ := exponent_bracket x hx
    generalize binaryExponent x.num.natAbs x.den = e at hlo ⊢
    have ht := twoPow_pos (max (e - 52) (-1074))
    have herr := roundHalfEven_error (x / twoPow (max (e - 52) (-1074)))
    have hstep : |((roundHalfEven (x / twoPow (max (e - 52) (-1074))) : Int) : ℚ)
          * twoPow (max (e - 52) (-1074)) - x|
        ≤ twoPow (max (e - 52) (-1074)) / 2 := by
      have heq : ((roundHalfEven (x / twoPow (max (e - 52) (-1074))) : Int) : ℚ)
            * twoPow (max (e - 52) (-1074)) - x
          = (((roundHalfEven (x / twoPow (max (e - 52) (-1074))) : Int) : ℚ)
              - x / twoPow (max (e - 52) (-1074))) * twoPow (max (e - 52) (-1074)) := by
        field_simp
      rw [heq, abs_mul, abs_of_pos ht]
      calc _ ≤ 1 / 2 * twoPow (max (e - 52) (-1074)) :=
            mul_le_mul_of_nonneg_right herr (le_of_lt ht)
        _ = _ := by ring
    refine le_trans hstep ?_
    have hx0 : 0 ≤ |x| / 2 ^ 53 := by positivity
    rcases le_total (e - 52) (-1074) with h | h
    · rw [max_eq_right h, twoPow_eq_zpow]
      have : (2 : ℚ) ^ (-1074 : Int) / 2 = 1 / 2 ^ 1075 := by
        rw [zpow_neg]
        norm_num
      linarith
    · rw [max_eq_left h, twoPow_eq_zpow, zpow_sub₀ (by norm_num)]
      have h52 : (2 : ℚ) ^ (52 : Int) = 2 ^ 52 := by norm_num
      rw [h52]
      have : (2 : ℚ) ^ e / 2 ^ 52 / 2 ≤ |x| / 2 ^ 53 := by
        rw [div_div, div_le_div_iff₀ (by positivity) (by positivity)]
        have : (2 : ℚ) ^ 52 * 2 = 2 ^ 53 := by norm_num
        rw [this]
        exact mul_le_mul_of_nonneg_right hlo (by positivity)
      have h0 : (0 : ℚ) ≤ 1 / 2 ^ 1075 := by positivity
      linarith

/-- A number `m * 2 ^ k` with `|m| < 2 ^ 53` and `k ≥ -1074` is a double: rounding
leaves it as it is. -/
theorem roundDouble_representable (m k : Int) (hm : |m| < 2 ^ 53) (hk : -1074 ≤ k) :
    roundDouble ((m : ℚ) * (2 : ℚ) ^ k) = (m : ℚ) * (2 : ℚ) ^ k := by
  by_cases hm0 : m = 0
  · rw [hm0]
    simp [roundDouble]
  have hpos : (0 : ℚ) < (2 : ℚ) ^ k := by positivity
  have hx : (m : ℚ) * (2 : ℚ) ^ k ≠ 0 :=
    mul_ne_zero (by exact_mod_cast hm0) (ne_of_gt hpos)
  obtain ⟨hlo, -⟩ := exponent_bracket _ hx
  unfold roundDouble
  rw [if_neg hx]
  simp only
  generalize binaryExponent ((m : ℚ) * (2 : ℚ) ^ k).num.natAbs ((m : ℚ) * (2 : ℚ) ^ k).den
    = e at hlo ⊢
  have hmq : |(m : ℚ)| < 2 ^ 53 := by exact_mod_cast hm
  have hlt : (2 : ℚ) ^ e < (2 : ℚ) ^ (53 + k) := by
    calc (2 : ℚ) ^ e ≤ |(m : ℚ) * (2 : ℚ) ^ k| := hlo
      _ = |(m : ℚ)| * (2 : ℚ) ^ k := by rw [abs_mul, abs_of_pos hpos]
      _ < 2 ^ 53 * (2 : ℚ) ^ k := mul_lt_mul_of_pos_right hmq hpos
      _ = (2 : ℚ) ^ (53 + k) := by
          rw [zpow_add₀ (by norm_num)]
          norm_num
  have he : e < 53 + k := (zpow_lt_zpow_iff_right₀ (by norm_num : (1 : ℚ) < 2)).mp hlt
  have hq : max (e - 52) (-1074) ≤ k := max_le (by omega) hk
  generalize max (e - 52) (-1074) = q at hq ⊢
  obtain ⟨j, hj⟩ := Int.eq_ofNat_of_zero_le (show 0 ≤ k - q by omega)
  have hk2 : k = q + (j : Int) := by omega
  have hscaled : (m : ℚ) * (2 : ℚ) ^ k / twoPow q = ((m * 2 ^ j : Int) : ℚ) := by
    rw [twoPow_eq_zpow, hk2, zpow_add₀ (by norm_num), zpow_natCast]
    have : (2 : ℚ) ^ q ≠ 0 := by positivity
    push_cast
    field_simp
    ring
  rw [hscaled, roundHalfEven_intCast, twoPow_eq_zpow, hk2, zpow_add₀ (by norm_num), zpow_natCast]
  push_cast
  ring

/-- A natural number below `2 ^ 53` is a double. -/
theorem roundDouble_natCast (n : Nat) (h : n < 2 ^ 53) : roundDouble (n : ℚ) = (n : ℚ) := by
  have h1 := roundDouble_representable (n : Int) 0 (by
    rw [abs_of_nonneg (by positivity)]
    exact_mod_cast h) (by norm_num)
  simpa using h1

/-- Two rounded operations on a product of moderate size move it by less than 1. -/
theorem roundDouble_product_near (u S : ℚ) (hx : |u * S| ≤ 2 ^ 51) (hS : |S| ≤ 2 ^ 53) :
    |roundDouble (roundDouble u * S) - u * S| < 1 := by
  have h1 := roundDouble_error u
  have h2 := roundDouble_error (roundDouble u * S)
  have hS0 := abs_nonneg S
  have hd1 : |roundDouble u * S - u * S| ≤ 1 / 4 + 2 ^ 53 / 2 ^ 1075 := by
    have : roundDouble u * S - u * S = (roundDouble u - u) * S := by ring
    rw [this, abs_mul]
    calc |roundDouble u - u| * |S| ≤ (|u| / 2 ^ 53 + 1 / 2 ^ 1075) * |S| :=
          mul_le_mul_of_nonneg_right h1 hS0
      _ = |u * S| / 2 ^ 53 + |S| / 2 ^ 1075 := by rw [abs_mul]; ring
      _ ≤ 2 ^ 51 / 2 ^ 53 + 2 ^ 53 / 2 ^ 1075 := by
          apply add_le_add
          · exact div_le_div_of_nonneg_right hx (by positivity)
          · exact div_le_div_of_nonneg_right hS (by positivity)
      _ = 1 / 4 + 2 ^ 53 / 2 ^ 1075 := by norm_num
  have hv : |roundDouble u * S| ≤ 2 ^ 51 + 1 / 4 + 2 ^ 53 / 2 ^ 1075 := by
    have := abs_sub_abs_le_abs_sub (roundDouble u * S) (u * S)
    linarith
  have hd2 : |roundDouble (roundDouble u * S) - roundDouble u * S|
      ≤ (2 ^ 51 + 1 / 4 + 2 ^ 53 / 2 ^ 1075) / 2 ^ 53 + 1 / 2 ^ 1075 := by
    refine le_trans h2 ?_
    have := div_le_div_of_nonneg_right hv (show (0 : ℚ) ≤ 2 ^ 53 by positivity)
    linarith
  have htri : |roundDouble (roundDouble u * S) - u * S|
      ≤ |roundDouble (roundDouble u * S) - roundDouble u * S|
        + |roundDouble u * S - u * S| :=
    abs_sub_le _ _ _
  have hnum : (2 ^ 51 + 1 / 4 + 2 ^ 53 / 2 ^ 1075 : ℚ) / 2 ^ 53 + 1 / 2 ^ 1075
      + (1 / 4 + 2 ^ 53 / 2 ^ 1075) < 1 := by norm_num
  linarith

/-- Ceilings of two numbers less than 1 apart differ by at most 1. -/
theorem ceil_near {x y : ℚ} (h : |y - x| < 1) : ⌈x⌉ - 1 ≤ ⌈y⌉ ∧ ⌈y⌉ ≤ ⌈x⌉ + 1 := by
  rw [abs_lt] at h
  have hx := Int.le_ceil x
  have hy := Int.le_ceil y
  constructor
  · have : ⌈x⌉ ≤ ⌈y⌉ + 1 := by
      rw [Int.ceil_le]
      push_cast
      linarith
    omega
  · rw [Int.ceil_le]
    push_cast
    linarith

/-- The three rounded operations of the re-weighted average, on non-negative
numbers, stay within a relative `2 ^ (-51)` (and `2 ^ (-1073)`) of the exact
quotient. -/
theorem rolling_average_near (a d : ℚ) (n : Nat) (ha : 0 ≤ a) (hd : 0 ≤ d) :
    |roundDouble (roundDouble (roundDouble (a * (n : ℚ)) + d) / ((n : ℚ) + 1))
        - (a * (n : ℚ) + d) / ((n : ℚ) + 1)|
      ≤ (a * (n : ℚ) + d) / ((n : ℚ) + 1) / 2 ^ 51 + 1 / 2 ^ 1073 := by
  have hn0 : (0 : ℚ) ≤ (n : ℚ) := by positivity
  have hN : (1 : ℚ) ≤ (n : ℚ) + 1 := by linarith
  have hNpos : (0 : ℚ) < (n : ℚ) + 1 := by linarith
  have hz1 : 0 ≤ a * (n : ℚ) := mul_nonneg ha hn0
  have e1 := roundDouble_error (a * (n : ℚ))
  rw [abs_of_nonneg hz1] at e1
  have e2 := roundDouble_error (roundDouble (a * (n : ℚ)) + d)
  have e3 := roundDouble_error (roundDouble (roundDouble (a * (n : ℚ)) + d) / ((n : ℚ) + 1))
  generalize roundDouble (roundDouble (roundDouble (a * (n : ℚ)) + d) / ((n : ℚ) + 1)) = w3
    at e3 ⊢
  generalize roundDouble (roundDouble (a * (n : ℚ)) + d) = w2 at e2 e3 ⊢
  generalize roundDouble (a * (n : ℚ)) = w1 at e1 e2
  generalize a * (n : ℚ) = z1 at hz1 e1 ⊢
  generalize (n : ℚ) + 1 = N at hN hNpos e3 ⊢
  have hM : 0 ≤ z1 + d := by linarith
  have hm : 0 ≤ (z1 + d) / N := div_nonneg hM (le_of_lt hNpos)
  have hz2 : |w1 + d - (z1 + d)| ≤ z1 / 2 ^ 53 + 1 / 2 ^ 1075 := by
    have : w1 + d - (z1 + d) = w1 - z1 := by ring
    rw [this]
    exact e1
  have hz2abs : |w1 + d| ≤ (z1 + d) + (z1 / 2 ^ 53 + 1 / 2 ^ 1075) := by
    have h := abs_sub_abs_le_abs_sub (w1 + d) (z1 + d)
    rw [abs_of_nonneg hM] at h
    linarith
  have hw2 : |w2 - (z1 + d)| ≤ (z1 + d) * (2 / 2 ^ 53 + 1 / 2 ^ 106)
      + (2 + 1 / 2 ^ 53) / 2 ^ 1075 := by
    have htri : |w2 - (z1 + d)| ≤ |w2 - (w1 + d)| + |w1 + d - (z1 + d)| :=
      abs_sub_le _ _ _
    have hdiv := div_le_div_of_nonneg_right hz2abs (show (0 : ℚ) ≤ 2 ^ 53 by positivity)
    have hz1M : z1 / 2 ^ 53 ≤ (z1 + d) / 2 ^ 53 :=
      div_le_div_of_nonneg_right (by linarith) (by positivity)
    have hz1M2 : z1 / 2 ^ 53 / 2 ^ 53 ≤ (z1 + d) / 2 ^ 53 / 2 ^ 53 :=
      div_le_div_of_nonneg_right hz1M (by positivity)
    have hexp : (z1 + d) * (2 / 2 ^ 53 + 1 / 2 ^ 106) + (2 + 1 / 2 ^ 53) / 2 ^ 1075
        = ((z1 + d) + ((z1 + d) / 2 ^ 53 + 1 / 2 ^ 1075)) / 2 ^ 53 + 1 / 2 ^ 1075
          + ((z1 + d) / 2 ^ 53 + 1 / 2 ^ 1075) := by
      ring
    have hexp2 : ((z1 + d) + (z1 / 2 ^ 53 + 1 / 2 ^ 1075)) / 2 ^ 53
        ≤ ((z1 + d) + ((z1 + d) / 2 ^ 53 + 1 / 2 ^ 1075)) / 2 ^ 53 := by
      apply div_le_div_of_nonneg_right _ (by positivity)
      linarith
    rw [hexp]
    linarith
  have hz3 : |w2 / N - (z1 + d) / N| ≤ (z1 + d) / N * (2 / 2 ^ 53 + 1 / 2 ^ 106)
      + (2 + 1 / 2 ^ 53) / 2 ^ 1075 := by
    have : w2 / N - (z1 + d) / N = (w2 - (z1 + d)) / N := by ring
    rw [this, abs_div, abs_of_pos hNpos]
    have h1 := div_le_div_of_nonneg_right hw2 (le_of_lt hNpos)
    have h2 : ((z1 + d) * (2 / 2 ^ 53 + 1 / 2 ^ 106) + (2 + 1 / 2 ^ 53) / 2 ^ 1075) / N
        = (z1 + d) / N * (2 / 2 ^ 53 + 1 / 2 ^ 106) + (2 + 1 / 2 ^ 53) / 2 ^ 1075 / N := by
      ring
    have h3 : (2 + 1 / 2 ^ 53 : ℚ) / 2 ^ 1075 / N ≤ (2 + 1 / 2 ^ 53) / 2 ^ 1075 :=
      div_le_self (by positivity) hN
    linarith
  have hz3abs : |w2 / N| ≤ (z1 + d) / N + ((z1 + d) / N * (2 / 2 ^ 53 + 1 / 2 ^ 106)
      + (2 + 1 / 2 ^ 53) / 2 ^ 1075) := by
    have h := abs_sub_abs_le_abs_sub (w2 / N) ((z1 + d) / N)
    rw [abs_of_nonneg hm] at h
    linarith
  have htri : |w3 - (z1 + d) / N| ≤ |w3 - w2 / N| + |w2 / N - (z1 + d) / N| :=
    abs_sub_le _ _ _
  have hdiv := div_le_div_of_nonneg_right hz3abs (show (0 : ℚ) ≤ 2 ^ 53 by positivity)
  generalize (z1 + d) / N = m at hm hz3 hz3abs htri hdiv ⊢
  have hfinal : (m + (m * (2 / 2 ^ 53 + 1 / 2 ^ 106) + (2 + 1 / 2 ^ 53) / 2 ^ 1075)) / 2 ^ 53
        + 1 / 2 ^ 1075 + (m * (2 / 2 ^ 53 + 1 / 2 ^ 106) + (2 + 1 / 2 ^ 53) / 2 ^ 1075)
      ≤ m / 2 ^ 51 + 1 / 2 ^ 1073 := by
    have hcoef : (m + (m * (2 / 2 ^ 53 + 1 / 2 ^ 106) + (2 + 1 / 2 ^ 53) / 2 ^ 1075)) / 2 ^ 53
          + 1 / 2 ^ 1075 + (m * (2 / 2 ^ 53 + 1 / 2 ^ 106) + (2 + 1 / 2 ^ 53) / 2 ^ 1075)
        = m * (3 / 2 ^ 53 + 3 / 2 ^ 106 + 1 / 2 ^ 159)
          + (3 + 3 / 2 ^ 53 + 1 / 2 ^ 106) / 2 ^ 1075 := by
      ring
    rw [hcoef]
    have h1 : m * (3 / 2 ^ 53 + 3 / 2 ^ 106 + 1 / 2 ^ 159) ≤ m / 2 ^ 51 := by
      have hsplit : m / 2 ^ 51 = m * (1 / 2 ^ 51) := by ring
      rw [hsplit]
      apply mul_le_mul_of_nonneg_left _ hm
      norm_num
    have h2 : (3 + 3 / 2 ^ 53 + 1 / 2 ^ 106 : ℚ) / 2 ^ 1075 ≤ 1 / 2 ^ 1073 := by norm_num
    linarith
  linarith

/-- A natural number up to `2 ^ 53` is a double. -/
theorem roundDouble_count (n : Nat) (h : n ≤ 2 ^ 53) : roundDouble (n : ℚ) = (n : ℚ) := by
  rcases Nat.lt_or_ge n (2 ^ 53) with h1 | h1
  · exact roundDouble_natCast n h1
  · have hn : n = 2 ^ 53 := le_antisymm h h1
    have h2 := roundDouble_representable 1 53 (by norm_num) (by norm_num)
    rw [hn]
    norm_num at h2 ⊢
    exact h2

/-! ## Lemmas on overlapping requests -/

/-- The writes of `callNextCustomer` succeed when the store holds a document with
the entry's id and one with the counter's id: the entry documents of that id become
`called` at the counter, the counter documents of that id become `busy` with the
entry, and the answer is 200 with the entry read back and the counter as it was
read. -/
theorem callNextWrite_found {s : Store} (clock : Clock) (counter : Counter)
    (nextCustomer : Queue) {e1 : Queue} {c1 : Counter}
    (he : s.queues.find? (fun q => q.id == nextCustomer.id) = some e1)
    (hc : s.counters.find? (fun c => c.id == counter.id) = some c1) :
    callNextWrite s clock counter nextCustomer =
      ({ s with
          queues := s.queues.map (fun x =>
            if x.id = nextCustomer.id then
              { x with
                status := QueueStatus.called
                counterId := some counter.id
                calledAt := some clock.now }
            else x)
          counters := s.counters.map (fun k =>
            if k.id = counter.id then
              { k with
                currentQueueId := some nextCustomer.id
                currentQueueNumber := nextCustomer.queueNumber
                status := CounterStatus.busy
                updatedAt := clock.now }
            else k) },
        { status := 200
          success := true
          message := "Customer called successfully"
          queue := some (Queue.fromFirestore
            { e1 with
              status := QueueStatus.called
              counterId := some counter.id
              calledAt := some clock.now })
          counter := some counter }) := by
  unfold callNextWrite
  rw [queueUpdate_found_eq clock.now _ he]
  dsimp only
  unfold Counter.assignQueue
  rw [counterModify_found_eq]
  rotate_left
  · exact fun _ => rfl
  · exact hc
  rfl

/-- Without a `counterId` in the body, the counter that `resolveCounter` yields is
available: its status is `active`. -/
theorem resolveCounter_available {db : Store} {businessId : String} {body : CallNextBody}
    {c : Counter} (hauto : truthyOpt body.counterId = false)
    (h : resolveCounter db businessId body = .ok c) : c.status = CounterStatus.active := by
  have hfind : (Counter.findByBusinessId db businessId).find? (availableFor body.serviceType)
      = some c → c.status = CounterStatus.active := by
    intro hf
    have := List.find?_some hf
    simp only [availableFor, Bool.and_eq_true, beq_iff_eq] at this
    exact this.1.2
  unfold resolveCounter at h
  split at h
  · rename_i counterId hcid
    rw [hcid] at hauto
    have ht : truthy counterId = false := hauto
    simp only [ht, Bool.false_eq_true, if_false] at h
    split at h
    · exact absurd h (by simp)
    · rename_i counter hc
      simp only [Except.ok.injEq] at h
      subst h
      exact hfind hc
  · split at h
    · exact absurd h (by simp)
    · rename_i counter hc
      simp only [Except.ok.injEq] at h
      subst h
      exact hfind hc

/-- A `callNextCustomer` that answers 200 has read a stored counter, which is
`active` when the body names none, and a stored waiting entry. -/
theorem callNextRead_of_ok {db : Store} {clock : Clock} {businessId : String}
    {body : CallNextBody} (hok : (callNextCustomer db clock businessId body).2.status = 200) :
    ∃ c0 e0, c0 ∈ db.counters ∧ e0 ∈ db.queues ∧ e0.status = QueueStatus.waiting ∧
      (truthyOpt body.counterId = false → c0.status = CounterStatus.active) ∧
      callNextRead db businessId body
        = .ok (Counter.fromFirestore c0, Queue.fromFirestore e0) := by
  rw [callNextCustomer_read_write] at hok
  unfold callNextRead at hok ⊢
  cases hres : resolveCounter db businessId body with
  | error r =>
    rw [hres] at hok
    rcases resolveCounter_error hres with h1 | h1
    · rw [h1] at hok; simp [failure] at hok
    · rw [h1] at hok; simp [failure] at hok
  | ok counter =>
    rw [hres] at hok
    obtain ⟨c0, hc0, rfl, -⟩ := resolveCounter_ok hres
    cases hlist : Queue.findByBusinessId db businessId (callNextFilters body.serviceType) with
    | nil =>
      rw [hlist] at hok
      simp [failure] at hok
    | cons e rest =>
      obtain ⟨e0, he0, rfl, -, hst⟩ := mem_queueFindByBusinessId
        (show e ∈ Queue.findByBusinessId db businessId (callNextFilters body.serviceType) by
          rw [hlist]; exact List.mem_cons_self _ _)
      refine ⟨c0, e0, hc0, he0, hst _ rfl, fun hauto => ?_, rfl⟩
      have h := resolveCounter_available hauto hres
      exact h

/-- The answer of the writes of `callNextCustomer`, when the store holds a document
with the entry's id and one with the counter's id: 200, with the counter as it was
read and the entry of that id, `called` at the counter. It does not depend on what
else the store holds. -/
theorem callNextWrite_answer {s : Store} (clock : Clock) (counter : Counter)
    (nextCustomer : Queue) {e1 : Queue} {c1 : Counter}
    (he : s.queues.find? (fun q => q.id == nextCustomer.id) = some e1)
    (hc : s.counters.find? (fun c => c.id == counter.id) = some c1) :
    (callNextWrite s clock counter nextCustomer).2.status = 200 ∧
    (callNextWrite s clock counter nextCustomer).2.counter = some counter ∧
    (callNextWrite s clock counter nextCustomer).2.queue.map
        (fun q => (q.id, q.status, q.counterId))
      = some (nextCustomer.id, QueueStatus.called,
          if truthy counter.id then some counter.id else none) := by
  have hid : e1.id = nextCustomer.id := by simpa using List.find?_some he
  rw [callNextWrite_found clock counter nextCustomer he hc]
  refine ⟨rfl, rfl, ?_⟩
  simp only [Option.map_some', Queue.fromFirestore, truthyOpt, hid]

/-- The writes of `callNextCustomer` delete nothing: an id that the store holds is
still held afterwards, among the entries and among the counters. -/
theorem callNextWrite_keeps_ids {s : Store} (clock : Clock) (counter : Counter)
    (nextCustomer : Queue) {e1 : Queue} {c1 : Counter}
    (he : s.queues.find? (fun q => q.id == nextCustomer.id) = some e1)
    (hc : s.counters.find? (fun c => c.id == counter.id) = some c1) :
    (∀ i x, s.queues.find? (fun q => q.id == i) = some x →
      ∃ y, (callNextWrite s clock counter nextCustomer).1.queues.find? (fun q => q.id == i)
        = some y) ∧
    (∀ i x, s.counters.find? (fun c => c.id == i) = some x →
      ∃ y, (callNextWrite s clock counter nextCustomer).1.counters.find? (fun c => c.id == i)
        = some y) := by
  rw [callNextWrite_found clock counter nextCustomer he hc]
  constructor
  · intro i x hx
    show ∃ y, (s.queues.map _).find? _ = some y
    rw [find_map_key (fun (q : Queue) => q.id) i]
    rotate_left
    · intro x
      split <;> rfl
    rw [hx]
    exact ⟨_, rfl⟩
  · intro i x hx
    show ∃ y, (s.counters.map _).find? _ = some y
    rw [find_map_key (fun (c : Counter) => c.id) i]
    rotate_left
    · intro x
      split <;> rfl
    rw [hx]
    exact ⟨_, rfl⟩

/-! ## The claims -/

/-- C1, evaluated on two waiting entries: `Q001` joined at 1000 and `Q002` at 2000.
`callNextCustomer` answers 200 and calls `Q002`, the entry that joined last, while
`Q001` stays `waiting`: the query behind it orders by `joinedAt` descending. -/
theorem callNextCustomer_calls_newest_waiting :
    (callNextCustomer twoWaiting (mondayAt 3000) "b1" {}).2.status = 200 ∧
    (callNextCustomer twoWaiting (mondayAt 3000) "b1" {}).1.queues.map
        (fun q => (q.queueNumber, q.joinedAt, q.status))
      = [("Q001", 1000, QueueStatus.waiting), ("Q002", 2000, QueueStatus.called)] := by
  decide

/-- C2, evaluated on a store that satisfies the busy-counter invariant (counter `c1`
busy with the called entry `Q001`): `setCounterStatus` to `active` answers 200 and
leaves `c1` not busy with `currentQueueId` still set, and `transferQueue` of the
waiting entry `Q002` to the free counter `c2` answers 200 and leaves `c2` busy
with a waiting entry; the invariant fails in both resulting stores. -/
theorem busyCounterInvariant_broken :
    busyCounterInvariant calledAtCounter ∧
    (setCounterStatus calledAtCounter (mondayAt 3000) "b1" "c1" "active").2.status = 200 ∧
    (setCounterStatus calledAtCounter (mondayAt 3000) "b1" "c1" "active").1.counters.map
        (fun c => (c.id, c.status, c.currentQueueId))
      = [("c1", CounterStatus.active, some "q1"), ("c2", CounterStatus.active, none)] ∧
    ¬ busyCounterInvariant
        (setCounterStatus calledAtCounter (mondayAt 3000) "b1" "c1" "active").1 ∧
    (transferQueue calledAtCounter (mondayAt 3000) "b1" "q2" "c2").2.status = 200 ∧
    ¬ busyCounterInvariant (transferQueue calledAtCounter (mondayAt 3000) "b1" "q2" "c2").1 := by
  decide

/-- C3, evaluated on a business whose largest queue number is `Q998`: three
successive joins are numbered `Q999`, `Q1000` and `Q1000` again, because the last
number is the largest `queueNumber` string and `"Q1000" < "Q999"`. -/
theorem queueNumber_reused_after_Q999 :
    (threeJoins nearRollover).queues.map (fun q => (q.id, q.queueNumber))
      = [("q998", "Q998"), ("a", "Q999"), ("b", "Q1000"), ("c", "Q1000")] := by
  decide

/-- C4, evaluated on the scenario of the claim: `Q001` and `Q002` join an empty
business (positions 1 and 2), then `Q001` is skipped. The skip answers 200 and the
stored position of `Q002` is still 2, so the positions of the one waiting entry
are `[2]`, not `[1]`. -/
theorem position_not_recomputed_after_skip :
    afterTwoJoins.queues.map (fun q => (q.queueNumber, q.status, q.position))
      = [("Q001", QueueStatus.waiting, 1), ("Q002", QueueStatus.waiting, 2)] ∧
    (skipCustomer afterTwoJoins (mondayAt 3000) "b1" "q1" none).2.status = 200 ∧
    (skipCustomer afterTwoJoins (mondayAt 3000) "b1" "q1" none).1.queues.map
        (fun q => (q.queueNumber, q.status, q.position))
      = [("Q001", QueueStatus.skipped, 1), ("Q002", QueueStatus.waiting, 2)] ∧
    waitingPositions (skipCustomer afterTwoJoins (mondayAt 3000) "b1" "q1" none).1 "b1" = [2] := by
  decide

/-- C5, evaluated on a completed entry `Q001` whose old counter `c1` is now busy
with `Q002`: `completeService` answers 200, frees `c1` and counts one more served customer in
the business statistics, `skipCustomer` answers
200 and turns `Q001` into `skipped`, `transferQueue` answers 200 and hands `c1` to
`Q001`; only `startServing` is rejected with 400 and no change. -/
theorem terminal_entry_transitions_again :
    (Queue.findById reusedCounter "q1").map (fun q => q.status) = some QueueStatus.completed ∧
    (completeService reusedCounter (mondayAt 9000) "b1" "q1").2.status = 200 ∧
    (completeService reusedCounter (mondayAt 9000) "b1" "q1").1.counters.map
        (fun c => (c.id, c.status, c.currentQueueId, c.stats.totalServed))
      = [("c1", CounterStatus.active, none, 1)] ∧
    reusedCounter.businesses.map (fun b => b.stats.totalCustomersServed) = [some 0] ∧
    (completeService reusedCounter (mondayAt 9000) "b1" "q1").1.businesses.map
        (fun b => b.stats.totalCustomersServed) = [some 1] ∧
    (skipCustomer reusedCounter (mondayAt 9000) "b1" "q1" none).2.status = 200 ∧
    (skipCustomer reusedCounter (mondayAt 9000) "b1" "q1" none).1.queues.map
        (fun q => (q.id, q.status))
      = [("q1", QueueStatus.skipped), ("q2", QueueStatus.called)] ∧
    (transferQueue reusedCounter (mondayAt 9000) "b1" "q1" "c1").2.status = 200 ∧
    (transferQueue reusedCounter (mondayAt 9000) "b1" "q1" "c1").1.counters.map
        (fun c => (c.id, c.status, c.currentQueueId))
      = [("c1", CounterStatus.busy, some "q1")] ∧
    startServing reusedCounter (mondayAt 9000) "b1" "q1"
      = (reusedCounter, failure 400 "Customer must be called first") := by
  decide!

/-- C6: whenever `callNextCustomer` answers 200, there are a stored counter `c` of the
business (the resolved target) and a stored waiting entry `e` of the business (the
head of the query) such that afterwards the entries are the old ones with exactly
the documents of id `e.id` set to status `called`, `counterId = c.id` and
`calledAt = now`, the counters are the old ones with exactly the documents of id
`c.id` set to status `busy`, `currentQueueId = e.id` and
`currentQueueNumber = e.queueNumber`, and the businesses are unchanged. -/
theorem callNextCustomer_postcondition (db db1 : Store) (clock : Clock) (businessId : String)
    (body : CallNextBody) (r : Response)
    (h : callNextCustomer db clock businessId body = (db1, r)) (hok : r.status = 200) :
    ∃ c e, c ∈ db.counters ∧ c.businessId = businessId ∧
      e ∈ db.queues ∧ e.businessId = businessId ∧ e.status = QueueStatus.waiting ∧
      resolveCounter db businessId body = .ok (Counter.fromFirestore c) ∧
      (Queue.findByBusinessId db businessId (callNextFilters body.serviceType)).head?
        = some (Queue.fromFirestore e) ∧
      db1.queues = db.queues.map (fun q =>
        if q.id = e.id then
          { q with
            status := QueueStatus.called
            counterId := some c.id
            calledAt := some clock.now }
        else q) ∧
      db1.counters = db.counters.map (fun k =>
        if k.id = c.id then
          { k with
            status := CounterStatus.busy
            currentQueueId := some e.id
            currentQueueNumber := e.queueNumber
            updatedAt := clock.now }
        else k) ∧
      db1.businesses = db.businesses := by
  unfold callNextCustomer at h
  split at h
  · rename_i e he
    simp only [Prod.mk.injEq] at h
    rcases resolveCounter_error he with h1 | h1
    · rw [← h.2, h1] at hok; exact absurd hok (by decide)
    · rw [← h.2, h1] at hok; exact absurd hok (by decide)
  · rename_i counter hcounter
    obtain ⟨c, hcmem, rfl, hcb⟩ := resolveCounter_ok hcounter
    split at h
    · simp only [Prod.mk.injEq] at h
      rw [← h.2] at hok; exact absurd hok (by decide)
    · rename_i nextCustomer rest hlist
      have hmem : nextCustomer ∈
          Queue.findByBusinessId db businessId (callNextFilters body.serviceType) := by
        rw [hlist]; exact List.mem_cons_self _ _
      obtain ⟨e, hemem, rfl, heb, hest⟩ := mem_queueFindByBusinessId hmem
      split at h
      · simp only [Prod.mk.injEq] at h
        rw [← h.2] at hok; exact absurd hok (by decide)
      · rename_i dbq updatedQueue hupd
        split at h
        · simp only [Prod.mk.injEq] at h
          rw [← h.2] at hok; exact absurd hok (by decide)
        · rename_i dbc _ hassign
          simp only [Prod.mk.injEq] at h
          have hq := queueUpdate_store hupd
          have hc := counterModify_store hassign
          refine ⟨c, e, hcmem, hcb, hemem, heb, hest _ rfl, hcounter, by rw [hlist]; rfl, ?_, ?_, ?_⟩
          · rw [← h.1, hc, hq]
            rfl
          · rw [← h.1, hc, hq]
            rfl
          · rw [← h.1, hc, hq]

/-- Witness for C6: the call on the store with two waiting entries succeeds. -/
theorem callNextCustomer_postcondition_witness :
    (callNextCustomer twoWaiting (mondayAt 3000) "b1" {}).2.status = 200 ∧
    ∃ c e, c ∈ twoWaiting.counters ∧ c.businessId = "b1" ∧
      e ∈ twoWaiting.queues ∧ e.businessId = "b1" ∧ e.status = QueueStatus.waiting ∧
      resolveCounter twoWaiting "b1" {} = .ok (Counter.fromFirestore c) ∧
      (Queue.findByBusinessId twoWaiting "b1" (callNextFilters none)).head?
        = some (Queue.fromFirestore e) ∧
      (callNextCustomer twoWaiting (mondayAt 3000) "b1" {}).1.queues
        = twoWaiting.queues.map (fun q =>
          if q.id = e.id then
            { q with
              status := QueueStatus.called
              counterId := some c.id
              calledAt := some (mondayAt 3000).now }
          else q) ∧
      (callNextCustomer twoWaiting (mondayAt 3000) "b1" {}).1.counters
        = twoWaiting.counters.map (fun k =>
          if k.id = c.id then
            { k with
              status := CounterStatus.busy
              currentQueueId := some e.id
              currentQueueNumber := e.queueNumber
              updatedAt := (mondayAt 3000).now }
          else k) ∧
      (callNextCustomer twoWaiting (mondayAt 3000) "b1" {}).1.businesses
        = twoWaiting.businesses :=
  ⟨by decide,
    callNextCustomer_postcondition twoWaiting _ (mondayAt 3000) "b1" {} _ rfl (by decide)⟩

/-- C7, evaluated on counter `c1` busy with the called entry `Q001` while `Q002`
waits: `callNextCustomer` with `counterId = c1` answers 200, calls `Q002` to `c1`
and overwrites the counter's current entry. -/
theorem callNextCustomer_accepts_busy_counter :
    (Counter.findById calledAtCounter "c1").map (fun c => (c.status, c.currentQueueId))
      = some (CounterStatus.busy, some "q1") ∧
    (callNextCustomer calledAtCounter (mondayAt 3000) "b1" { counterId := some "c1" }).2.status
      = 200 ∧
    (callNextCustomer calledAtCounter (mondayAt 3000) "b1" { counterId := some "c1" }).1.queues.map
        (fun q => (q.id, q.status, q.counterId))
      = [("q1", QueueStatus.called, some "c1"), ("q2", QueueStatus.called, some "c1")] ∧
    (callNextCustomer calledAtCounter (mondayAt 3000) "b1" { counterId := some "c1" }).1.counters.map
        (fun c => (c.id, c.status, c.currentQueueId))
      = [("c1", CounterStatus.busy, some "q2"), ("c2", CounterStatus.active, none)] := by
  decide

/-- C8, evaluated on a business whose only counter is active with service type
`payment`: `callNextCustomer` with `serviceType = "all"` and no `counterId` answers
400 "No available counters" and changes nothing, although the same request without
a service type succeeds on that counter. -/
theorem callNextCustomer_all_skips_typed_counter :
    callNextCustomer paymentOnly (mondayAt 3000) "b1" { serviceType := some "all" }
      = (paymentOnly, failure 400 "No available counters for this service") ∧
    (callNextCustomer paymentOnly (mondayAt 3000) "b1" {}).2.status = 200 := by
  decide

/-- C9: for an active business that allows remote joining and is open at the time of
the request, if the number of waiting entries is at least `maxQueueLength` then
`joinQueue` answers 400 "Queue is full" and the store is unchanged. -/
theorem joinQueue_rejects_full_queue (db : Store) (clock : Clock) (newId : String)
    (userId : Option String) (body : JoinBody) (business : Business) (hours : Hours)
    (hfound : Business.findById db body.businessId = some business)
    (hactive : business.isActive = true)
    (hremote : business.settings.allowRemoteJoin = true)
    (hday : business.operatingHours.get clock.day = some hours)
    (hopen : hours.isOpen = true)
    (hafter : hours.openHour * 60 + hours.openMinute ≤ clock.hours * 60 + clock.minutes)
    (hbefore : clock.hours * 60 + clock.minutes ≤ hours.closeHour * 60 + hours.closeMinute)
    (hfull : business.settings.maxQueueLength ≤ Queue.getWaitingCount db body.businessId) :
    joinQueue db clock newId userId body
      = (db, failure 400 "Queue is full. Please try again later.") := by
  unfold joinQueue
  simp only [hfound, hactive, hremote, hday, hopen]
  have h1 : ¬ (clock.hours * 60 + clock.minutes < hours.openHour * 60 + hours.openMinute ∨
      clock.hours * 60 + clock.minutes > hours.closeHour * 60 + hours.closeMinute) := by omega
  simp [h1, hfull]

/-- Witness for C9: with `maxQueueLength = 2` the first two joins get `Q001` and
`Q002` at positions 1 and 2, and the third join is rejected. -/
theorem joinQueue_rejects_full_queue_witness :
    (joinQueue (emptyShop 2) (mondayAt 1000) "q1" none sampleJoin).2.joined.map
        (fun j => (j.queueNumber, j.position)) = some ("Q001", 1) ∧
    (joinQueue (joinQueue (emptyShop 2) (mondayAt 1000) "q1" none sampleJoin).1
        (mondayAt 2000) "q2" none sampleJoin).2.joined.map
        (fun j => (j.queueNumber, j.position)) = some ("Q002", 2) ∧
    joinQueue afterTwoJoins (mondayAt 3000) "q3" none sampleJoin
      = (afterTwoJoins, failure 400 "Queue is full. Please try again later.") :=
  ⟨by decide, by decide,
    joinQueue_rejects_full_queue afterTwoJoins (mondayAt 3000) "q3" none sampleJoin
      { sampleBusiness 2 with
        stats :=
          { totalCustomersServed := some 0
            avgWaitTime := some 0
            avgServingTime := none
            customerSatisfaction := none
            peakHours := none }
        updatedAt := 2000 }
      openAllDay (by decide) (by decide) (by decide) (by decide) (by decide) (by decide)
      (by decide) (by decide)⟩

/-- C10: for an active business that allows remote joining, is open at the time of
the request and has `W` waiting entries with `W` below `maxQueueLength`,
`joinQueue` answers 201, appends exactly one entry to the stored entries, with
status `waiting` and position `W + 1`, reports that position in the response, and
leaves the counters as they were. -/
theorem joinQueue_success_postcondition (db : Store) (clock : Clock) (newId : String)
    (userId : Option String) (body : JoinBody) (business : Business) (hours : Hours)
    (hfound : Business.findById db body.businessId = some business)
    (hactive : business.isActive = true)
    (hremote : business.settings.allowRemoteJoin = true)
    (hday : business.operatingHours.get clock.day = some hours)
    (hopen : hours.isOpen = true)
    (hafter : hours.openHour * 60 + hours.openMinute ≤ clock.hours * 60 + clock.minutes)
    (hbefore : clock.hours * 60 + clock.minutes ≤ hours.closeHour * 60 + hours.closeMinute)
    (hroom : Queue.getWaitingCount db body.businessId < business.settings.maxQueueLength) :
    ∃ entry joined,
      (joinQueue db clock newId userId body).2.status = 201 ∧
      (joinQueue db clock newId userId body).2.joined = some joined ∧
      joined.position = Queue.getWaitingCount db body.businessId + 1 ∧
      joined.id = entry.id ∧
      (joinQueue db clock newId userId body).1.queues = db.queues ++ [entry] ∧
      entry.id = newId ∧
      entry.businessId = body.businessId ∧
      entry.status = QueueStatus.waiting ∧
      entry.position = Queue.getWaitingCount db body.businessId + 1 ∧
      (joinQueue db clock newId userId body).1.counters = db.counters := by
  have h1 : ¬ (clock.hours * 60 + clock.minutes < hours.openHour * 60 + hours.openMinute ∨
      clock.hours * 60 + clock.minutes > hours.closeHour * 60 + hours.closeMinute) := by omega
  have h2 : ¬ (Queue.getWaitingCount db body.businessId ≥ business.settings.maxQueueLength) := by
    omega
  have hfound1 : ∀ (qs : List Queue),
      Business.findById { db with queues := qs } body.businessId = some business := fun _ => hfound
  unfold joinQueue
  simp only [hfound, hactive, hremote, hday, hopen, h1, h2, Queue.create, Business.updateStats,
    hfound1]
  simp
  refine ⟨_, ?_, rfl, ?_, ?_, ?_, ?_⟩ <;> rfl

/-- Witness for C10: the first join to the empty shop. -/
theorem joinQueue_success_postcondition_witness :
    ∃ entry joined,
      (joinQueue (emptyShop 2) (mondayAt 1000) "q1" none sampleJoin).2.status = 201 ∧
      (joinQueue (emptyShop 2) (mondayAt 1000) "q1" none sampleJoin).2.joined = some joined ∧
      joined.position = Queue.getWaitingCount (emptyShop 2) sampleJoin.businessId + 1 ∧
      joined.id = entry.id ∧
      (joinQueue (emptyShop 2) (mondayAt 1000) "q1" none sampleJoin).1.queues
        = (emptyShop 2).queues ++ [entry] ∧
      entry.id = "q1" ∧
      entry.businessId = sampleJoin.businessId ∧
      entry.status = QueueStatus.waiting ∧
      entry.position = Queue.getWaitingCount (emptyShop 2) sampleJoin.businessId + 1 ∧
      (joinQueue (emptyShop 2) (mondayAt 1000) "q1" none sampleJoin).1.counters
        = (emptyShop 2).counters :=
  joinQueue_success_postcondition (emptyShop 2) (mondayAt 1000) "q1" none sampleJoin
    (sampleBusiness 2) openAllDay (by decide) (by decide) (by decide) (by decide) (by decide)
    (by decide) (by decide) (by decide)

/-- C11, counterexample: for the active sample business with remote joining switched
off, `joinQueue` changes nothing but answers 403 "Remote queue joining is not
allowed by this business", not 400. -/
theorem joinQueue_remote_disabled_answers_403 :
    (Business.findById remoteOff "b1").map (fun b => (b.isActive, b.settings.allowRemoteJoin))
      = some (true, false) ∧
    joinQueue remoteOff (mondayAt 1000) "q1" none sampleJoin
      = (remoteOff, failure 403 "Remote queue joining is not allowed by this business") ∧
    (joinQueue remoteOff (mondayAt 1000) "q1" none sampleJoin).2.status ≠ 400 := by
  decide

/-- C11 as amended: for an existing active business, `joinQueue` answers 403 when
remote joining is disabled, and answers 400 "Business is currently closed" when
remote joining is allowed and today's operating-hours record is missing, or has
`isOpen = false`, or the current minute of the day lies before `open` or after
`close`; in each of these cases the store is unchanged, so no entry is created. -/
theorem joinQueue_closed_business (db : Store) (clock : Clock) (newId : String)
    (userId : Option String) (body : JoinBody) (business : Business)
    (hfound : Business.findById db body.businessId = some business)
    (hactive : business.isActive = true) :
    (business.settings.allowRemoteJoin = false →
      joinQueue db clock newId userId body
        = (db, failure 403 "Remote queue joining is not allowed by this business")) ∧
    (business.settings.allowRemoteJoin = true →
      business.operatingHours.get clock.day = none →
      joinQueue db clock newId userId body = (db, failure 400 "Business is currently closed")) ∧
    (∀ hours, business.settings.allowRemoteJoin = true →
      business.operatingHours.get clock.day = some hours →
      (hours.isOpen = false ∨
        clock.hours * 60 + clock.minutes < hours.openHour * 60 + hours.openMinute ∨
        hours.closeHour * 60 + hours.closeMinute < clock.hours * 60 + clock.minutes) →
      joinQueue db clock newId userId body = (db, failure 400 "Business is currently closed")) := by
  refine ⟨?_, ?_, ?_⟩
  · intro hremote
    unfold joinQueue
    simp [hfound, hactive, hremote]
  · intro hremote hnone
    unfold joinQueue
    simp [hfound, hactive, hremote, hnone]
  · intro hours hremote hday hclosed
    unfold joinQueue
    simp only [hfound, hactive, hremote, hday]
    rcases hclosed with h | h | h
    · simp [h]
    · cases hours.isOpen <;> simp [h]
    · cases hours.isOpen <;> simp [h]

/-- Witness for C11: remote joining off (403), a Sunday without hours record (400)
and a minute after closing time (400). -/
theorem joinQueue_closed_business_witness :
    joinQueue remoteOff (mondayAt 1000) "q1" none sampleJoin
      = (remoteOff, failure 403 "Remote queue joining is not allowed by this business") ∧
    joinQueue (emptyShop 2) { now := 1000, day := Day.sunday, hours := 10, minutes := 0 } "q1" none
        sampleJoin
      = (emptyShop 2, failure 400 "Business is currently closed") ∧
    joinQueue (emptyShop 2) { now := 1000, day := Day.monday, hours := 24, minutes := 0 } "q1" none
        sampleJoin
      = (emptyShop 2, failure 400 "Business is currently closed") :=
  ⟨(joinQueue_closed_business remoteOff (mondayAt 1000) "q1" none sampleJoin
      { sampleBusiness 50 with
        settings := { (sampleBusiness 50).settings with allowRemoteJoin := false } }
      (by decide) (by decide)).1 (by decide),
    (joinQueue_closed_business (emptyShop 2)
      { now := 1000, day := Day.sunday, hours := 10, minutes := 0 } "q1" none sampleJoin
      (sampleBusiness 2) (by decide) (by decide)).2.1 (by decide) (by decide),
    (joinQueue_closed_business (emptyShop 2)
      { now := 1000, day := Day.monday, hours := 24, minutes := 0 } "q1" none sampleJoin
      (sampleBusiness 2) (by decide) (by decide)).2.2 openAllDay (by decide) (by decide)
      (by decide)⟩

/-- Counterexample to C12: with average serving time 27 and three counted counters,
`calculateEstimatedWaitTime` returns 64 for position 7, while `ceil(7 / 3 * 27)` is
63: the double nearest to `7 / 3` lies above `7 / 3`, so the product is a double
above 63. -/
theorem calculateEstimatedWaitTime_above_exact_ceiling :
    (Business.findById threeFreeCounters "b1").map (fun b => b.stats.avgServingTime)
      = some (some 27) ∧
    (threeFreeCounters.counters.filter (fun c =>
      c.businessId == "b1" && (c.isActive &&
        (c.status == CounterStatus.active || c.status == CounterStatus.busy)))).length = 3 ∧
    QueueService.calculateEstimatedWaitTime threeFreeCounters "b1" 7 = 64 ∧
    ⌈(7 : ℚ) / 3 * 27⌉ = 63 ∧
    roundDouble ((7 : ℚ) / 3) = 5254199565265579 / 2251799813685248 ∧
    roundDouble (5254199565265579 / 2251799813685248 * 27)
      = 8866461766385665 / 140737488355328 := by
  decide!

/-- C12, amended: for an existing business, with `A` the number of its stored counters
that are `isActive` with status `active` or `busy` and `S` its `stats.avgServingTime`
(5 when unset or 0), `calculateEstimatedWaitTime` returns 0 when `A = 0`, and when
`A ≥ 1` it returns the ceiling of the double that `p / A * S` evaluates to, the
quotient and then the product each rounded to the nearest double. That is
`ceil(p / A * S)` when neither operation rounds, and it is within 1 of
`ceil(p / A * S)` when `|p / A * S| ≤ 2 ^ 51` and `|S| ≤ 2 ^ 53`. -/
theorem calculateEstimatedWaitTime_rounded (db : Store) (businessId : String) (p : Nat)
    (business : Business) (hfound : Business.findById db businessId = some business) :
    let A := (db.counters.filter (fun c =>
      c.businessId == businessId && (c.isActive &&
        (c.status == CounterStatus.active || c.status == CounterStatus.busy)))).length
    let S : ℚ := match business.stats.avgServingTime with
      | none => 5
      | some a => if a = 0 then 5 else a
    (A = 0 → QueueService.calculateEstimatedWaitTime db businessId p = 0) ∧
    (1 ≤ A → QueueService.calculateEstimatedWaitTime db businessId p
      = ⌈roundDouble (roundDouble ((p : ℚ) / (A : ℚ)) * S)⌉) ∧
    (1 ≤ A → roundDouble ((p : ℚ) / (A : ℚ)) = (p : ℚ) / (A : ℚ) →
      roundDouble ((p : ℚ) / (A : ℚ) * S) = (p : ℚ) / (A : ℚ) * S →
      QueueService.calculateEstimatedWaitTime db businessId p = ⌈(p : ℚ) / (A : ℚ) * S⌉) ∧
    (1 ≤ A → |(p : ℚ) / (A : ℚ) * S| ≤ 2 ^ 51 → |S| ≤ 2 ^ 53 →
      ⌈(p : ℚ) / (A : ℚ) * S⌉ - 1 ≤ QueueService.calculateEstimatedWaitTime db businessId p ∧
      QueueService.calculateEstimatedWaitTime db businessId p
        ≤ ⌈(p : ℚ) / (A : ℚ) * S⌉ + 1) := by
  intro A S
  have hA := activeCounters_length db businessId
  have hzero : A = 0 → QueueService.calculateEstimatedWaitTime db businessId p = 0 := by
    intro h0
    unfold QueueService.calculateEstimatedWaitTime
    simp only [hfound, hA]
    rw [if_pos h0]
  have hpos : 1 ≤ A → QueueService.calculateEstimatedWaitTime db businessId p
      = ⌈roundDouble (roundDouble ((p : ℚ) / (A : ℚ)) * S)⌉ := by
    intro h1
    unfold QueueService.calculateEstimatedWaitTime
    simp only [hfound, hA]
    rw [if_neg (by omega)]
    rfl
  refine ⟨hzero, hpos, fun h1 hq hm => ?_, fun h1 hx hS => ?_⟩
  · rw [hpos h1, hq, hm]
  · rw [hpos h1]
    exact ceil_near (roundDouble_product_near _ _ hx hS)

/-- Witness for C12: average serving time 5, two counted counters (one free, one
busy; the one on break does not count), position 3: neither `3 / 2` nor
`3 / 2 * 5` is rounded, and the estimate is 8. -/
theorem calculateEstimatedWaitTime_rounded_witness :
    QueueService.calculateEstimatedWaitTime twoActiveCounters "b1" 3 = 8 := by
  have h := (calculateEstimatedWaitTime_rounded twoActiveCounters "b1" 3
    { sampleBusiness 50 with
      stats := { (sampleBusiness 50).stats with avgServingTime := some 5 } }
    (by decide)).2.2.1 (by decide) (by decide!) (by decide!)
  rw [h]
  decide!

/-- C13: `startServing` answers 200 exactly when the entry exists, belongs to the
caller's business and has status `called`; then the store is the old one with the
documents of that id set to status `serving` and `servingAt = now`, nothing else
changed; for an own entry in any other status the answer is 400 and the store is
unchanged. -/
theorem startServing_spec (db : Store) (clock : Clock) (businessId queueId : String) :
    ((startServing db clock businessId queueId).2.status = 200 ↔
      ∃ q, Queue.findById db queueId = some q ∧ q.businessId = businessId ∧
        q.status = QueueStatus.called) ∧
    (∀ q, Queue.findById db queueId = some q → q.businessId = businessId →
      q.status = QueueStatus.called →
      (startServing db clock businessId queueId).1 =
        { db with queues := db.queues.map (fun x =>
            if x.id = queueId then
              { x with status := QueueStatus.serving, servingAt := some clock.now }
            else x) }) ∧
    (∀ q, Queue.findById db queueId = some q → q.businessId = businessId →
      q.status ≠ QueueStatus.called →
      startServing db clock businessId queueId
        = (db, failure 400 "Customer must be called first")) := by
  have key : ∀ q, Queue.findById db queueId = some q → q.businessId = businessId →
      findOwnQueue db businessId queueId = some q := by
    intro q hq hb
    unfold findOwnQueue
    simp [hq, hb]
  have hsucc : ∀ q, Queue.findById db queueId = some q → q.businessId = businessId →
      q.status = QueueStatus.called →
      (startServing db clock businessId queueId).2.status = 200 ∧
      (startServing db clock businessId queueId).1 =
        { db with queues := db.queues.map (fun x =>
            if x.id = queueId then
              { x with status := QueueStatus.serving, servingAt := some clock.now }
            else x) } := by
    intro q hq hb hs
    obtain ⟨q0, hq0, -, -⟩ := findOwnQueue_some (key q hq hb)
    unfold startServing
    simp only [key q hq hb, hs, ne_eq, not_true_eq_false, if_false]
    rw [queueUpdate_of_found clock.now _ hq0]
    refine ⟨rfl, ?_⟩
    simp only [beq_iff_eq]
    rfl
  refine ⟨⟨?_, ?_⟩, fun q hq hb hs => (hsucc q hq hb hs).2, ?_⟩
  · intro h200
    unfold startServing at h200
    split at h200
    · exact absurd h200 (by simp [failure])
    · rename_i q hown
      split at h200
      · exact absurd h200 (by simp [failure])
      · rename_i hs
        obtain ⟨q0, hq0, rfl, hb⟩ := findOwnQueue_some hown
        refine ⟨Queue.fromFirestore q0, ?_, hb, by simpa using hs⟩
        simp [Queue.findById, hq0]
  · rintro ⟨q, hq, hb, hs⟩
    exact (hsucc q hq hb hs).1
  · intro q hq hb hs
    unfold startServing
    simp [key q hq hb, hs]

/-- Witness for C13: the called entry `Q001` is served, the waiting entry `Q002` is
rejected with 400. -/
theorem startServing_spec_witness :
    (startServing calledAtCounter (mondayAt 3000) "b1" "q1").2.status = 200 ∧
    (startServing calledAtCounter (mondayAt 3000) "b1" "q1").1.queues.map
        (fun q => (q.id, q.status, q.servingAt))
      = [("q1", QueueStatus.serving, some 3000), ("q2", QueueStatus.waiting, none)] ∧
    startServing calledAtCounter (mondayAt 3000) "b1" "q2"
      = (calledAtCounter, failure 400 "Customer must be called first") :=
  ⟨(startServing_spec calledAtCounter (mondayAt 3000) "b1" "q1").1.mpr
      ⟨_, rfl, by decide, by decide⟩,
    by
      rw [(startServing_spec calledAtCounter (mondayAt 3000) "b1" "q1").2.1 _ rfl
        (by decide) (by decide)]
      decide,
    (startServing_spec calledAtCounter (mondayAt 3000) "b1" "q2").2.2 _ rfl
      (by decide) (by decide)⟩

/-- C14: for an entry of the caller's business that is assigned to an existing counter
(whatever its status, in particular `called` or `serving`), `completeService`
answers 200, sets the entry to `completed` with `completedAt = now`, and rewrites
exactly the counter of that id: status `active`, `currentQueueId = null`,
`currentQueueNumber` empty, `servedToday` and `totalServed` each one more; every
other counter is unchanged. -/
theorem completeService_releases_counter (db : Store) (clock : Clock)
    (businessId queueId counterId : String) (q : Queue) (c : Counter)
    (hq : findOwnQueue db businessId queueId = some q)
    (hassigned : q.counterId = some counterId)
    (hc : db.counters.find? (fun k => k.id == counterId) = some c) :
    (completeService db clock businessId queueId).2.status = 200 ∧
    (completeService db clock businessId queueId).1.queues = db.queues.map (fun x =>
      if x.id = queueId then
        { x with status := QueueStatus.completed, completedAt := some clock.now }
      else x) ∧
    (completeService db clock businessId queueId).1.counters = db.counters.map (fun k =>
      if k.id = counterId then
        { k with
          status := CounterStatus.active
          currentQueueId := none
          currentQueueNumber := ""
          stats := { k.stats with
            servedToday := k.stats.servedToday + 1
            totalServed := k.stats.totalServed + 1 }
          updatedAt := clock.now }
      else k) := by
  obtain ⟨q0, hq0, rfl, -⟩ := findOwnQueue_some hq
  unfold completeService
  simp only [hq, hassigned]
  rw [queueUpdate_found_eq clock.now _ hq0]
  simp only [Counter.completeQueue]
  rw [counterModify_found_eq]
  rotate_left
  · exact fun _ => rfl
  · exact hc
  simp only [Option.map_some']
  cases hb : Business.findById db businessId with
  | none =>
    have hb1 : ∀ qs cs, Business.findById { db with queues := qs, counters := cs } businessId
        = none := fun _ _ => hb
    simp only [hb1]
    exact ⟨trivial, rfl, trivial⟩
  | some business =>
    have hb1 : ∀ qs cs, Business.findById { db with queues := qs, counters := cs } businessId
        = some business := fun _ _ => hb
    simp only [hb1, Business.updateStats]
    exact ⟨trivial, rfl, trivial⟩

/-- Witness for C14: completing the entry served at counter `c1`. -/
theorem completeService_releases_counter_witness :
    (completeService servingAtCounter (mondayAt 9000) "b1" "q1").2.status = 200 ∧
    (completeService servingAtCounter (mondayAt 9000) "b1" "q1").1.queues.map
        (fun q => (q.id, q.status, q.completedAt))
      = [("q1", QueueStatus.completed, some 9000)] ∧
    (completeService servingAtCounter (mondayAt 9000) "b1" "q1").1.counters.map
        (fun c => (c.id, c.status, c.currentQueueId, c.currentQueueNumber,
          c.stats.servedToday, c.stats.totalServed))
      = [("c1", CounterStatus.active, none, "", 1, 1),
          ("c2", CounterStatus.active, none, "", 0, 0)] := by
  have h := completeService_releases_counter servingAtCounter (mondayAt 9000) "b1" "q1" "c1"
    _ _ rfl (by decide) rfl
  refine ⟨h.1, ?_, ?_⟩
  · rw [h.2.1]; decide
  · rw [h.2.2]; decide

/-- C15, evaluated on an entry in status `serving` at the busy counter `c1`:
`skipCustomer` answers 200, turns the entry into `skipped` and frees the counter. -/
theorem skipCustomer_skips_serving_entry :
    (Queue.findById servingAtCounter "q1").map (fun q => (q.status, q.counterId))
      = some (QueueStatus.serving, some "c1") ∧
    (skipCustomer servingAtCounter (mondayAt 9000) "b1" "q1" none).2.status = 200 ∧
    (skipCustomer servingAtCounter (mondayAt 9000) "b1" "q1" none).1.queues.map
        (fun q => (q.id, q.status)) = [("q1", QueueStatus.skipped)] ∧
    (skipCustomer servingAtCounter (mondayAt 9000) "b1" "q1" none).1.counters.map
        (fun c => (c.id, c.status, c.currentQueueId))
      = [("c1", CounterStatus.active, none), ("c2", CounterStatus.active, none)] := by
  decide

/-- C16: for an entry of the caller's business (whatever its status, in particular
`waiting` or `called`), `skipCustomer` sets the documents of that id to status
`skipped` (and writes `notes`), leaving the other entries alone; without a counter
it answers 200 and changes no counter; with an existing counter it answers 200 and
sets exactly that counter to status `active` with `currentQueueId = null`; the
businesses (so their statistics) and the `stats` of every counter are unchanged. -/
theorem skipCustomer_effect (db : Store) (clock : Clock) (businessId queueId : String)
    (reason : Option String) (q : Queue)
    (hq : findOwnQueue db businessId queueId = some q) :
    (∃ notes, (skipCustomer db clock businessId queueId reason).1.queues
      = db.queues.map (fun x =>
        if x.id = queueId then { x with status := QueueStatus.skipped, notes := notes }
        else x)) ∧
    (q.counterId = none →
      (skipCustomer db clock businessId queueId reason).2.status = 200 ∧
      (skipCustomer db clock businessId queueId reason).1.counters = db.counters) ∧
    (∀ counterId c, q.counterId = some counterId →
      db.counters.find? (fun k => k.id == counterId) = some c →
      (skipCustomer db clock businessId queueId reason).2.status = 200 ∧
      (skipCustomer db clock businessId queueId reason).1.counters = db.counters.map (fun k =>
        if k.id = counterId then
          { k with
            status := CounterStatus.active
            currentQueueId := none
            currentQueueNumber := ""
            updatedAt := clock.now }
        else k)) ∧
    (skipCustomer db clock businessId queueId reason).1.businesses = db.businesses ∧
    (skipCustomer db clock businessId queueId reason).1.counters.map (fun k => k.stats)
      = db.counters.map (fun k => k.stats) := by
  obtain ⟨q0, hq0, rfl, -⟩ := findOwnQueue_some hq
  have hstats : ∀ counterId : String, (db.counters.map (fun k =>
      if k.id = counterId then freeCounter.apply clock.now k else k)).map (fun k => k.stats)
      = db.counters.map (fun k => k.stats) := by
    intro counterId
    rw [List.map_map]
    apply List.map_congr_left
    intro k _
    show (if k.id = counterId then freeCounter.apply clock.now k else k).stats = k.stats
    split <;> rfl
  unfold skipCustomer
  simp only [hq]
  rw [queueUpdate_found_eq clock.now _ hq0]
  cases hcid : (Queue.fromFirestore q0).counterId with
  | none =>
    exact ⟨⟨_, rfl⟩, fun _ => ⟨rfl, rfl⟩, fun _ _ h => absurd h (by simp), rfl, rfl⟩
  | some counterId =>
    simp only [Counter.update]
    cases hfind : db.counters.find? (fun k => k.id == counterId) with
    | none =>
      rw [counterModify_of_missing]
      rotate_left
      · exact hfind
      refine ⟨⟨_, rfl⟩, fun h => absurd h (by simp), ?_, rfl, rfl⟩
      intro counterId1 c1 h1 h2
      simp only [Option.some.injEq] at h1
      subst h1
      rw [hfind] at h2
      exact absurd h2 (by simp)
    | some c =>
      rw [counterModify_found_eq]
      rotate_left
      · exact fun _ => rfl
      · exact hfind
      refine ⟨⟨_, rfl⟩, fun h => absurd h (by simp), ?_, rfl, hstats counterId⟩
      intro counterId1 c1 h1 _
      simp only [Option.some.injEq] at h1
      subst h1
      exact ⟨rfl, rfl⟩

/-- Witness for C16: skipping the called entry `Q001` frees counter `c1`. -/
theorem skipCustomer_effect_witness :
    (skipCustomer calledAtCounter (mondayAt 9000) "b1" "q1" none).2.status = 200 ∧
    (skipCustomer calledAtCounter (mondayAt 9000) "b1" "q1" none).1.counters.map
        (fun c => (c.id, c.status, c.currentQueueId))
      = [("c1", CounterStatus.active, none), ("c2", CounterStatus.active, none)] ∧
    (skipCustomer calledAtCounter (mondayAt 9000) "b1" "q1" none).1.businesses
      = calledAtCounter.businesses ∧
    (skipCustomer calledAtCounter (mondayAt 9000) "b1" "q1" none).1.counters.map
        (fun k => k.stats) = calledAtCounter.counters.map (fun k => k.stats) := by
  have h := skipCustomer_effect calledAtCounter (mondayAt 9000) "b1" "q1" none _ rfl
  have h1 := h.2.2.1 "c1" _ (by decide) rfl
  refine ⟨h1.1, ?_, h.2.2.2.1, h.2.2.2.2⟩
  rw [h1.2]; decide

/-- C17: for an entry of the caller's business assigned to an existing counter
`fromCounterId` and a different counter `toCounterId` of the business,
`transferQueue` answers 200, sets the entry's `counterId` to the target and leaves
its other fields (its status too) alone, sets the old counter to `active` with
`currentQueueId = null` and the target to `busy` with `currentQueueId` the entry's
id; every other entry and counter and the businesses are unchanged. -/
theorem transferQueue_postcondition (db : Store) (clock : Clock)
    (businessId queueId toCounterId fromCounterId : String) (q : Queue) (c1 c2 : Counter)
    (hq : findOwnQueue db businessId queueId = some q)
    (hassigned : q.counterId = some fromCounterId)
    (hc1 : db.counters.find? (fun k => k.id == fromCounterId) = some c1)
    (hc2 : Counter.findById db toCounterId = some c2)
    (hbusiness : c2.businessId = businessId)
    (hne : toCounterId ≠ fromCounterId) :
    (transferQueue db clock businessId queueId toCounterId).2.status = 200 ∧
    (transferQueue db clock businessId queueId toCounterId).1.queues = db.queues.map (fun x =>
      if x.id = queueId then { x with counterId := some toCounterId } else x) ∧
    (transferQueue db clock businessId queueId toCounterId).1.counters
      = db.counters.map (fun k =>
        if k.id = toCounterId then
          { k with
            status := CounterStatus.busy
            currentQueueId := some queueId
            currentQueueNumber := q.queueNumber
            updatedAt := clock.now }
        else if k.id = fromCounterId then
          { k with
            status := CounterStatus.active
            currentQueueId := none
            currentQueueNumber := ""
            updatedAt := clock.now }
        else k) ∧
    (transferQueue db clock businessId queueId toCounterId).1.businesses = db.businesses := by
  obtain ⟨q0, hq0, rfl, -⟩ := findOwnQueue_some hq
  obtain ⟨k2, hk2, rfl, hid2⟩ := counterFindById_some hc2
  have hqid : q0.id = queueId := by simpa using List.find?_some hq0
  subst hid2
  subst hqid
  have hfree : (db.counters.map (fun x =>
      if x.id = fromCounterId then freeCounter.apply clock.now x else x)).find?
        (fun k => k.id == k2.id) = some k2 := by
    rw [find_map_key (fun (k : Counter) => k.id) k2.id _ (fun x => by split <;> rfl), hk2,
      Option.map_some', if_neg hne]
  unfold transferQueue
  simp only [hq, hc2, hbusiness, ne_eq, not_true_eq_false, if_false, hassigned, Counter.update]
  rw [counterModify_found_eq]
  rotate_left
  · exact fun _ => rfl
  · exact hc1
  simp only [Option.map_some', Counter.assignQueue]
  rw [counterModify_found_eq]
  rotate_left
  · exact fun _ => rfl
  · exact hfree
  dsimp only
  rw [queueUpdate_found_eq]
  rotate_left
  · exact hq0
  refine ⟨rfl, rfl, ?_, rfl⟩
  show (db.counters.map _).map _ = db.counters.map _
  rw [List.map_map]
  apply List.map_congr_left
  intro k _
  have hne1 : ¬ fromCounterId = k2.id := fun h => hne h.symm
  by_cases h1 : k.id = fromCounterId
  · simp [h1, hne1, CounterUpdate.apply, freeCounter, Counter.fromFirestore]
  · by_cases h2 : k.id = k2.id
    · simp [h1, h2, hne, Counter.fromFirestore, Queue.fromFirestore]
    · simp [h1, h2, Counter.fromFirestore]

/-- Witness for C17: the entry called at `c1` is transferred to the free counter `c2`. -/
theorem transferQueue_postcondition_witness :
    (transferQueue calledAtCounter (mondayAt 9000) "b1" "q1" "c2").2.status = 200 ∧
    (transferQueue calledAtCounter (mondayAt 9000) "b1" "q1" "c2").1.queues.map
        (fun q => (q.id, q.status, q.counterId))
      = [("q1", QueueStatus.called, some "c2"), ("q2", QueueStatus.waiting, none)] ∧
    (transferQueue calledAtCounter (mondayAt 9000) "b1" "q1" "c2").1.counters.map
        (fun c => (c.id, c.status, c.currentQueueId))
      = [("c1", CounterStatus.active, none), ("c2", CounterStatus.busy, some "q1")] := by
  have h := transferQueue_postcondition calledAtCounter (mondayAt 9000) "b1" "q1" "c2" "c1"
    _ _ _ rfl (by decide) rfl rfl (by decide) (by decide)
  refine ⟨h.1, ?_, ?_⟩
  · rw [h.2.1]; decide
  · rw [h.2.2.1]; decide

/-- C18, evaluated on `Q005` at position 5 with `notifyBeforePositions = 3`, with one
run of `updateQueuePositions` after each departure ahead of it: the runs move it
to positions 4, 3, 2 and 1, and the `near_turn` requests for it are none in the
runs to positions 4 and 3, one with `positionsAhead = 2` in the run to position 2
and one with `positionsAhead = 1` in the run to position 1. The check reads the
objects fetched before the positions were rewritten, so it lags one run. -/
theorem nearTurn_requests_lag_one_run :
    positionOfQ5 fiveWaiting = some 5 ∧
    positionOfQ5 nearTurnRun1.1 = some 4 ∧ requestsForQ005 nearTurnRun1 = [] ∧
    positionOfQ5 nearTurnRun2.1 = some 3 ∧ requestsForQ005 nearTurnRun2 = [] ∧
    positionOfQ5 nearTurnRun3.1 = some 2 ∧ requestsForQ005 nearTurnRun3 = [2] ∧
    positionOfQ5 nearTurnRun4.1 = some 1 ∧ requestsForQ005 nearTurnRun4 = [1] := by
  decide

/-- C19: for a store with distinct document ids, `checkForNotifications` run on the
waiting entries just read requests a `near_turn` notification only for a stored
entry whose position is not among its stored `notifiedPositions`, and then that
entry's stored `notifiedPositions` is the old list followed by the position; if
every stored `notifiedPositions` was duplicate-free before, it is so after; and a
second run on the re-read queue makes no request and changes nothing. -/
theorem checkForNotifications_once_per_position (db : Store) (now : Nat) (businessId : String)
    (hids : (db.queues.map (fun q => q.id)).Nodup) :
    let run := QueueService.checkForNotifications db now businessId
      (QueueService.readWaiting db businessId)
    (∀ r ∈ run.2, ∃ e ∈ db.queues,
      r = QueueService.nearTurnFor db businessId (Queue.fromFirestore e) ∧
      (Queue.fromFirestore e).position ∉ e.notifiedPositions ∧
      ∃ e1 ∈ run.1.queues, e1.id = e.id ∧
        e1.notifiedPositions = e.notifiedPositions ++ [(Queue.fromFirestore e).position]) ∧
    ((∀ e ∈ db.queues, e.notifiedPositions.Nodup) →
      ∀ e ∈ run.1.queues, e.notifiedPositions.Nodup) ∧
    QueueService.checkForNotifications run.1 now businessId
      (QueueService.readWaiting run.1 businessId) = (run.1, []) := by
  intro run
  rcases checkForNotifications_eq db now businessId hids with h | ⟨n, ⟨business, hb, hn⟩, hn0, h⟩
  · have hrun : run = (db, []) := h
    rw [hrun]
    refine ⟨fun r hr => absurd hr (by simp), fun h1 => h1, h⟩
  · have hrun : run = (QueueService.markedStore n db businessId,
        ((QueueService.readWaiting db businessId).filter
          (QueueService.dueForNotification n)).map (QueueService.nearTurnFor db businessId)) := h
    rw [hrun]
    refine ⟨?_, ?_, ?_⟩
    · intro r hr
      simp only [List.mem_map, List.mem_filter] at hr
      obtain ⟨c, ⟨hc, hdue⟩, rfl⟩ := hr
      obtain ⟨e, he, rfl, heb, hes⟩ := mem_queueFindByBusinessId hc
      have hnot : (Queue.fromFirestore e).position ∉ e.notifiedPositions :=
        (dueForNotification_true hdue).2
      refine ⟨e, he, rfl, hnot, QueueService.markNotified n _ e, List.mem_map_of_mem _ he,
        (markNotified_fields n _ e).1, ?_⟩
      rw [markNotified_of_find (readWaiting_find hids he heb (hes _ rfl)), if_pos hdue]
      rfl
    · intro hnodup e1 he1
      obtain ⟨d, hd, rfl⟩ := List.mem_map.mp
        (show e1 ∈ db.queues.map
          (QueueService.markNotified n (QueueService.readWaiting db businessId)) from he1)
      unfold QueueService.markNotified
      split
      · rename_i c hfind
        split
        · rename_i hdue
          obtain ⟨d0, hd0, rfl, -, -⟩ := mem_queueFindByBusinessId (List.mem_of_find?_eq_some hfind)
          have hnot : (Queue.fromFirestore d0).position ∉ d0.notifiedPositions :=
            (dueForNotification_true hdue).2
          show (d0.notifiedPositions ++ [(Queue.fromFirestore d0).position]).Nodup
          rw [List.nodup_append]
          refine ⟨hnodup d0 hd0, List.nodup_singleton _, ?_⟩
          intro a ha hb
          rw [List.mem_singleton] at hb
          exact hnot (hb ▸ ha)
        · exact hnodup d hd
      · exact hnodup d hd
    · have hb1 : Business.findById (QueueService.markedStore n db businessId) businessId
          = some business := hb
      show QueueService.checkForNotifications (QueueService.markedStore n db businessId) now
        businessId (QueueService.readWaiting (QueueService.markedStore n db businessId) businessId)
        = (QueueService.markedStore n db businessId, [])
      unfold QueueService.checkForNotifications
      simp only [hb1, hn, hn0, if_false]
      apply notifyLoop_none_due
      intro c hc
      obtain ⟨d1, hd1, rfl, hb2, hs2⟩ := mem_queueFindByBusinessId hc
      obtain ⟨d, hd, rfl⟩ := List.mem_map.mp
        (show d1 ∈ db.queues.map
          (QueueService.markNotified n (QueueService.readWaiting db businessId)) from hd1)
      have hf := markNotified_fields n (QueueService.readWaiting db businessId) d
      exact markNotified_not_due n hids hd (hf.2.1 ▸ hb2) (hf.2.2.1 ▸ hs2 _ rfl)

/-- Witness for C19: with threshold 3 and positions 1 to 5, the first run requests
notifications for `Q003`, `Q002` and `Q001` and the second run requests none. -/
theorem checkForNotifications_once_per_position_witness :
    (QueueService.checkForNotifications fiveWaiting 6000 "b1"
        (QueueService.readWaiting fiveWaiting "b1")).2.map
        (fun r => (r.queueNumber, r.positionsAhead))
      = [("Q003", 2), ("Q002", 1), ("Q001", 0)] ∧
    QueueService.checkForNotifications
        (QueueService.checkForNotifications fiveWaiting 6000 "b1"
          (QueueService.readWaiting fiveWaiting "b1")).1 6000 "b1"
        (QueueService.readWaiting
          (QueueService.checkForNotifications fiveWaiting 6000 "b1"
            (QueueService.readWaiting fiveWaiting "b1")).1 "b1")
      = ((QueueService.checkForNotifications fiveWaiting 6000 "b1"
          (QueueService.readWaiting fiveWaiting "b1")).1, []) :=
  ⟨by decide,
    (checkForNotifications_once_per_position fiveWaiting 6000 "b1" (by decide)).2.2⟩

/-- C20: for every argument (also a missing one, an unknown type, missing contact
fields or `data`) and however the mail, SMS, push and log steps end (also when they
throw a value without properties), `sendNotification` returns a result object and
never throws; hence an `await sendNotification(..)` in a controller never diverts
it to its 500 answer. -/
theorem sendNotification_never_throws (arg : Option NotificationData) (t : Transports) :
    (∃ result, sendNotification arg t = .ok result) ∧
    ∀ (errorMessage : String) (rest : Response),
      awaitNotification (sendNotification arg t) errorMessage rest = rest := by
  have hok : ∃ result, sendNotification arg t = .ok result := by
    unfold sendNotification
    cases hbody : sendNotificationBody arg t with
    | ok result => exact ⟨result, rfl⟩
    | error thrown =>
      obtain ⟨message, rfl⟩ := sendNotificationBody_throws_error hbody
      exact ⟨_, rfl⟩
  refine ⟨hok, fun errorMessage rest => ?_⟩
  obtain ⟨result, hresult⟩ := hok
  rw [hresult]
  rfl

/-- Witness for C20: an unknown type and a mail transport that throws `null` both
end in a returned object. -/
theorem sendNotification_never_throws_witness :
    sendNotification
        (some { type := "service_completed", customerId := "u1", customerPhone := "",
                customerEmail := "a@b.c", businessId := "", hasData := true })
        { twilioConfigured := false, sendMail := Outcome.done, sendSms := Outcome.done,
          pushLog := Outcome.done, logWrite := Outcome.done }
      = .ok { success := false, results := [],
              error := some "Unknown notification type: service_completed" } ∧
    ∃ result, sendNotification
        (some { type := "call_next", customerId := "u1", customerPhone := "",
                customerEmail := "a@b.c", businessId := "", hasData := true })
        { twilioConfigured := false, sendMail := Outcome.throws Thrown.nullish,
          sendSms := Outcome.done, pushLog := Outcome.done,
          logWrite := Outcome.throws Thrown.nullish }
      = .ok result :=
  ⟨by rfl, (sendNotification_never_throws _ _).1⟩

/-- C21: every request to one of the ten controllers that is answered with a status
from 400 to 499 leaves the store as it was: the entries, the counters and the
businesses are the same lists of documents before and after. -/
theorem rejected_request_changes_nothing (db : Store) (clock : Clock) :
    (∀ newId userId body,
      400 ≤ (joinQueue db clock newId userId body).2.status →
      (joinQueue db clock newId userId body).2.status < 500 →
      (joinQueue db clock newId userId body).1 = db) ∧
    (∀ businessId body,
      400 ≤ (callNextCustomer db clock businessId body).2.status →
      (callNextCustomer db clock businessId body).2.status < 500 →
      (callNextCustomer db clock businessId body).1 = db) ∧
    (∀ businessId queueId,
      400 ≤ (startServing db clock businessId queueId).2.status →
      (startServing db clock businessId queueId).2.status < 500 →
      (startServing db clock businessId queueId).1 = db) ∧
    (∀ businessId queueId,
      400 ≤ (completeService db clock businessId queueId).2.status →
      (completeService db clock businessId queueId).2.status < 500 →
      (completeService db clock businessId queueId).1 = db) ∧
    (∀ businessId queueId reason,
      400 ≤ (skipCustomer db clock businessId queueId reason).2.status →
      (skipCustomer db clock businessId queueId reason).2.status < 500 →
      (skipCustomer db clock businessId queueId reason).1 = db) ∧
    (∀ businessId queueId toCounterId,
      400 ≤ (transferQueue db clock businessId queueId toCounterId).2.status →
      (transferQueue db clock businessId queueId toCounterId).2.status < 500 →
      (transferQueue db clock businessId queueId toCounterId).1 = db) ∧
    (∀ businessId counterId,
      400 ≤ (deleteCounter db businessId counterId).2.status →
      (deleteCounter db businessId counterId).2.status < 500 →
      (deleteCounter db businessId counterId).1 = db) ∧
    (∀ businessId counterId status,
      400 ≤ (setCounterStatus db clock businessId counterId status).2.status →
      (setCounterStatus db clock businessId counterId status).2.status < 500 →
      (setCounterStatus db clock businessId counterId status).1 = db) ∧
    (∀ businessId counterId duration,
      400 ≤ (setCounterBreak db clock businessId counterId duration).2.status →
      (setCounterBreak db clock businessId counterId duration).2.status < 500 →
      (setCounterBreak db clock businessId counterId duration).1 = db) ∧
    (∀ businessId counterId,
      400 ≤ (endCounterBreak db clock businessId counterId).2.status →
      (endCounterBreak db clock businessId counterId).2.status < 500 →
      (endCounterBreak db clock businessId counterId).1 = db) :=
  ⟨fun newId userId body => joinQueue_rejected db clock newId userId body,
    fun businessId body => callNextCustomer_rejected db clock businessId body,
    fun businessId queueId => startServing_rejected db clock businessId queueId,
    fun businessId queueId => completeService_rejected db clock businessId queueId,
    fun businessId queueId reason => skipCustomer_rejected db clock businessId queueId reason,
    fun businessId queueId toCounterId =>
      transferQueue_rejected db clock businessId queueId toCounterId,
    fun businessId counterId => deleteCounter_rejected db businessId counterId,
    fun businessId counterId status =>
      setCounterStatus_rejected db clock businessId counterId status,
    fun businessId counterId duration =>
      setCounterBreak_rejected db clock businessId counterId duration,
    fun businessId counterId => endCounterBreak_rejected db clock businessId counterId⟩

/-- Witness for C21: a join to the full queue (400), a call-next while the only
counter is busy (400), a start of service for an entry of another business (404)
and a deletion of a busy counter (400) each leave the store as it was. -/
theorem rejected_request_changes_nothing_witness :
    (joinQueue afterTwoJoins (mondayAt 3000) "q3" none sampleJoin).2.status = 400 ∧
    (joinQueue afterTwoJoins (mondayAt 3000) "q3" none sampleJoin).1 = afterTwoJoins ∧
    (callNextCustomer reusedCounter (mondayAt 3000) "b1" {}).2.status = 400 ∧
    (callNextCustomer reusedCounter (mondayAt 3000) "b1" {}).1 = reusedCounter ∧
    (startServing twoShops (mondayAt 3000) "b1" "x1").2.status = 404 ∧
    (startServing twoShops (mondayAt 3000) "b1" "x1").1 = twoShops ∧
    (deleteCounter calledAtCounter "b1" "c1").2.status = 400 ∧
    (deleteCounter calledAtCounter "b1" "c1").1 = calledAtCounter :=
  ⟨by decide,
    (rejected_request_changes_nothing afterTwoJoins (mondayAt 3000)).1 "q3" none sampleJoin
      (by decide) (by decide),
    by decide,
    (rejected_request_changes_nothing reusedCounter (mondayAt 3000)).2.1 "b1" {}
      (by decide) (by decide),
    by decide,
    (rejected_request_changes_nothing twoShops (mondayAt 3000)).2.2.1 "b1" "x1"
      (by decide) (by decide),
    by decide,
    (rejected_request_changes_nothing calledAtCounter (mondayAt 3000)).2.2.2.2.2.2.1 "b1" "c1"
      (by decide) (by decide)⟩

/-- C22: for a counter of the caller's business with status `busy`, `deleteCounter`
and `setCounterBreak` answer 400 and change nothing, but `setCounterStatus` with
any valid status answers 200 and writes that status (and `nextAvailableAt`) to the
counter, leaving its `currentQueueId` as it was: it has no busy check. -/
theorem setCounterStatus_frees_busy_counter (db : Store) (clock : Clock)
    (businessId counterId : String) (c : Counter)
    (hc : findOwnCounter db businessId counterId = some c)
    (hbusy : c.status = CounterStatus.busy) :
    deleteCounter db businessId counterId
      = (db, failure 400 "Cannot delete counter while serving customer") ∧
    (∀ duration, setCounterBreak db clock businessId counterId duration
      = (db, failure 400 "Cannot set break while serving customer")) ∧
    (∀ status st, parseCounterStatus status = some st →
      (setCounterStatus db clock businessId counterId status).2.status = 200 ∧
      (setCounterStatus db clock businessId counterId status).1.counters
        = db.counters.map (fun k =>
          if k.id = counterId then
            { k with
              status := st
              nextAvailableAt :=
                if st = CounterStatus.onBreak then
                  some (clock.now + orFifteen c.settings.breakDuration * 60000)
                else none
              updatedAt := clock.now }
          else k)) := by
  obtain ⟨c0, hc0, rfl, -⟩ := findOwnCounter_some hc
  refine ⟨?_, ?_, ?_⟩
  · unfold deleteCounter
    simp only [hc, hbusy, if_true]
  · intro duration
    unfold setCounterBreak
    simp only [hc, hbusy, if_true]
  · intro status st hst
    unfold setCounterStatus
    simp only [hc, hst, Counter.update]
    rw [counterModify_found_eq]
    rotate_left
    · exact fun _ => rfl
    · exact hc0
    refine ⟨rfl, ?_⟩
    show db.counters.map _ = db.counters.map _
    apply List.map_congr_left
    intro k _
    by_cases hk : k.id = counterId
    · by_cases hb : st = CounterStatus.onBreak
      · simp [hk, hb, CounterUpdate.apply]
      · simp [hk, hb, CounterUpdate.apply]
    · simp [hk]

/-- Witness for C22, on counter `c1` busy with the called entry `Q001`: deletion
and break are rejected, and `setCounterStatus` to `inactive` answers 200 and leaves
`c1` inactive with `currentQueueId` still `q1`. -/
theorem setCounterStatus_frees_busy_counter_witness :
    (Counter.findById calledAtCounter "c1").map (fun c => (c.status, c.currentQueueId))
      = some (CounterStatus.busy, some "q1") ∧
    deleteCounter calledAtCounter "b1" "c1"
      = (calledAtCounter, failure 400 "Cannot delete counter while serving customer") ∧
    setCounterBreak calledAtCounter (mondayAt 3000) "b1" "c1" 10
      = (calledAtCounter, failure 400 "Cannot set break while serving customer") ∧
    (setCounterStatus calledAtCounter (mondayAt 3000) "b1" "c1" "inactive").2.status = 200 ∧
    (setCounterStatus calledAtCounter (mondayAt 3000) "b1" "c1" "inactive").1.counters.map
        (fun c => (c.id, c.status, c.currentQueueId))
      = [("c1", CounterStatus.inactive, some "q1"), ("c2", CounterStatus.active, none)] := by
  have h := setCounterStatus_frees_busy_counter calledAtCounter (mondayAt 3000) "b1" "c1" _ rfl
    (by decide)
  have h1 := h.2.2 "inactive" CounterStatus.inactive (by decide)
  refine ⟨by decide, h.1, h.2.1 10, h1.1, ?_⟩
  rw [h1.2]; decide

/-- C23, counterexample: with one free `general` counter and the one waiting entry
`Q001`, the first call-next answers 200, calls `Q001` and makes the counter busy;
the second identical call-next changes nothing and answers 400 "No available
counters for this service", not the 404 "No customers waiting in queue". -/
theorem second_callNext_reports_no_counter :
    (callNextCustomer singleCounter (mondayAt 3000) "b1" {}).2.status = 200 ∧
    (callNextCustomer singleCounter (mondayAt 3000) "b1" {}).1.queues.map
        (fun q => (q.queueNumber, q.status)) = [("Q001", QueueStatus.called)] ∧
    (callNextCustomer singleCounter (mondayAt 3000) "b1" {}).1.counters.map
        (fun c => (c.id, c.status)) = [("c1", CounterStatus.busy)] ∧
    callNextCustomer (callNextCustomer singleCounter (mondayAt 3000) "b1" {}).1
        (mondayAt 4000) "b1" {}
      = ((callNextCustomer singleCounter (mondayAt 3000) "b1" {}).1,
          failure 400 "No available counters for this service") ∧
    (callNextCustomer (callNextCustomer singleCounter (mondayAt 3000) "b1" {}).1
        (mondayAt 4000) "b1" {}).2 ≠ failure 404 "No customers waiting in queue" := by
  decide

/-- C23 as amended: for a business whose only stored counter `c` is `isActive` with
status `active` (whatever its service type) and whose only waiting entry is `e`, a
call-next without `counterId` and without filter answers 200, sets the documents
of id `e.id` to `called` at `c` and the documents of id `c.id` to `busy` with that
entry, and a second identical call-next changes nothing and answers 400 "No
available counters for this service". -/
theorem callNextCustomer_single_counter (db : Store) (clock clock2 : Clock)
    (businessId : String) (c : Counter) (e : Queue)
    (hcounters : db.counters.filter (fun k => k.businessId == businessId) = [c])
    (hactive : c.isActive = true) (hstatus : c.status = CounterStatus.active)
    (hwaiting : db.queues.filter
      (fun q => q.businessId == businessId && q.status == QueueStatus.waiting) = [e]) :
    (callNextCustomer db clock businessId {}).2.status = 200 ∧
    (callNextCustomer db clock businessId {}).1.queues = db.queues.map (fun q =>
      if q.id = e.id then
        { q with
          status := QueueStatus.called
          counterId := some c.id
          calledAt := some clock.now }
      else q) ∧
    (callNextCustomer db clock businessId {}).1.counters = db.counters.map (fun k =>
      if k.id = c.id then
        { k with
          status := CounterStatus.busy
          currentQueueId := some e.id
          currentQueueNumber := e.queueNumber
          updatedAt := clock.now }
      else k) ∧
    callNextCustomer (callNextCustomer db clock businessId {}).1 clock2 businessId {}
      = ((callNextCustomer db clock businessId {}).1,
          failure 400 "No available counters for this service") := by
  have hcmem : c ∈ db.counters :=
    List.mem_of_mem_filter (by rw [hcounters]; exact List.mem_singleton_self c)
  have hemem : e ∈ db.queues :=
    List.mem_of_mem_filter (by rw [hwaiting]; exact List.mem_singleton_self e)
  obtain ⟨e1, he1⟩ := find_isSome_of_mem (fun (q : Queue) => q.id) hemem
  obtain ⟨c1, hc1⟩ := find_isSome_of_mem (fun (k : Counter) => k.id) hcmem
  have havail : availableFor none (Counter.fromFirestore c) = true := by
    simp [availableFor, Counter.fromFirestore, hactive, hstatus, truthyOpt]
  have hres : resolveCounter db businessId {} = .ok (Counter.fromFirestore c) := by
    unfold resolveCounter
    simp only [counterFindByBusinessId_single hcounters, List.find?, havail]
  have hfirst : callNextCustomer db clock businessId {} =
      ({ db with
          queues := db.queues.map (fun q =>
            if q.id = e.id then
              { q with
                status := QueueStatus.called
                counterId := some c.id
                calledAt := some clock.now }
            else q)
          counters := db.counters.map (fun k =>
            if k.id = c.id then
              { k with
                status := CounterStatus.busy
                currentQueueId := some e.id
                currentQueueNumber := e.queueNumber
                updatedAt := clock.now }
            else k) },
        { status := 200
          success := true
          message := "Customer called successfully"
          queue := some (Queue.fromFirestore
            { e1 with
              status := QueueStatus.called
              counterId := some c.id
              calledAt := some clock.now })
          counter := some (Counter.fromFirestore c) }) := by
    unfold callNextCustomer
    simp only [hres, callNextQuery_single hwaiting]
    rw [show (Queue.fromFirestore e).id = e.id from rfl,
      show (Counter.fromFirestore c).id = c.id from rfl, queueUpdate_found_eq _ _ he1]
    simp only [Counter.assignQueue]
    rw [counterModify_found_eq]
    rotate_left
    · exact fun _ => rfl
    · exact hc1
    rfl
  rw [hfirst]
  refine ⟨rfl, rfl, rfl, ?_⟩
  have hbusy : Counter.findByBusinessId
      { db with
          queues := db.queues.map (fun q =>
            if q.id = e.id then
              { q with
                status := QueueStatus.called
                counterId := some c.id
                calledAt := some clock.now }
            else q)
          counters := db.counters.map (fun k =>
            if k.id = c.id then
              { k with
                status := CounterStatus.busy
                currentQueueId := some e.id
                currentQueueNumber := e.queueNumber
                updatedAt := clock.now }
            else k) } businessId
      = [Counter.fromFirestore
          { c with
            status := CounterStatus.busy
            currentQueueId := some e.id
            currentQueueNumber := e.queueNumber
            updatedAt := clock.now }] := by
    apply counterFindByBusinessId_single
    show (db.counters.map _).filter _ = _
    rw [List.filter_map]
    have hfun : ((fun (k : Counter) => k.businessId == businessId) ∘ fun (k : Counter) =>
        if k.id = c.id then
          { k with
            status := CounterStatus.busy
            currentQueueId := some e.id
            currentQueueNumber := e.queueNumber
            updatedAt := clock.now }
        else k) = fun k => k.businessId == businessId := by
      funext k
      show ((if k.id = c.id then _ else k).businessId == businessId) = _
      split <;> rfl
    rw [hfun, hcounters]
    simp
  unfold callNextCustomer resolveCounter
  simp only [hbusy, List.find?]
  have hnot : availableFor none (Counter.fromFirestore
      { c with
        status := CounterStatus.busy
        currentQueueId := some e.id
        currentQueueNumber := e.queueNumber
        updatedAt := clock.now }) = false := by
    simp [availableFor, Counter.fromFirestore]
  simp only [hnot]

/-- Witness for C23: the scenario with counter `c1` and entry `Q001`. -/
theorem callNextCustomer_single_counter_witness :
    (callNextCustomer singleCounter (mondayAt 3000) "b1" {}).2.status = 200 ∧
    (callNextCustomer singleCounter (mondayAt 3000) "b1" {}).1.queues.map
        (fun q => (q.queueNumber, q.status, q.counterId))
      = [("Q001", QueueStatus.called, some "c1")] ∧
    (callNextCustomer singleCounter (mondayAt 3000) "b1" {}).1.counters.map
        (fun c => (c.id, c.status, c.currentQueueId)) = [("c1", CounterStatus.busy, some "q1")] ∧
    callNextCustomer (callNextCustomer singleCounter (mondayAt 3000) "b1" {}).1
        (mondayAt 4000) "b1" {}
      = ((callNextCustomer singleCounter (mondayAt 3000) "b1" {}).1,
          failure 400 "No available counters for this service") := by
  have h := callNextCustomer_single_counter singleCounter (mondayAt 3000) (mondayAt 4000) "b1"
    (sampleCounter "c1" 1 "general" CounterStatus.active none "")
    (sampleEntry "q1" "Q001" 1000 QueueStatus.waiting 1 none) (by decide) (by decide)
    (by decide) (by decide)
  refine ⟨h.1, ?_, ?_, h.2.2.2⟩
  · rw [h.2.1]; decide
  · rw [h.2.2.1]; decide

/-- Counterexample to C24: on a business with two free counters and two waiting
entries, two requests that both read before either writes both answer 200 with the
same entry `q2` at the same counter `c1`: one entry is called instead of two, `q1`
still waits and `c2` is still free, whereas the same two requests one after the
other call both entries to distinct counters. The first part says that
`callNextCustomer` is its reads followed by its unconditional writes. -/
theorem callNextCustomer_double_assignment :
    (∀ db clock businessId body,
      callNextCustomer db clock businessId body =
        match callNextRead db businessId body with
        | .error r => (db, r)
        | .ok (counter, nextCustomer) => callNextWrite db clock counter nextCustomer) ∧
    Queue.getWaitingCount twoFreeCounters "b1" = 2 ∧
    ((Counter.findByBusinessId twoFreeCounters "b1").filter (availableFor none)).length = 2 ∧
    (callNextConcurrently twoFreeCounters (mondayAt 3000) (mondayAt 3001) "b1" {} {}).2.1.status
      = 200 ∧
    (callNextConcurrently twoFreeCounters (mondayAt 3000) (mondayAt 3001) "b1" {} {}).2.2.status
      = 200 ∧
    (callNextConcurrently twoFreeCounters (mondayAt 3000) (mondayAt 3001) "b1" {} {}).2.1.queue.map
        (fun q => (q.id, q.counterId)) = some ("q2", some "c1") ∧
    (callNextConcurrently twoFreeCounters (mondayAt 3000) (mondayAt 3001) "b1" {} {}).2.2.queue.map
        (fun q => (q.id, q.counterId)) = some ("q2", some "c1") ∧
    (callNextConcurrently twoFreeCounters (mondayAt 3000) (mondayAt 3001) "b1" {} {}).1.queues.map
        (fun q => (q.id, q.status, q.counterId))
      = [("q1", QueueStatus.waiting, none), ("q2", QueueStatus.called, some "c1")] ∧
    (callNextConcurrently twoFreeCounters (mondayAt 3000) (mondayAt 3001) "b1" {} {}).1.counters.map
        (fun c => (c.id, c.status, c.currentQueueId))
      = [("c1", CounterStatus.busy, some "q2"), ("c2", CounterStatus.active, none)] ∧
    (callNextCustomer (callNextCustomer twoFreeCounters (mondayAt 3000) "b1" {}).1
        (mondayAt 3001) "b1" {}).1.queues.map (fun q => (q.id, q.status, q.counterId))
      = [("q1", QueueStatus.called, some "c2"), ("q2", QueueStatus.called, some "c1")] :=
  ⟨callNextCustomer_read_write, by decide, by decide, by decide, by decide, by decide,
    by decide, by decide, by decide, by decide⟩

/-- C24, amended: `callNextCustomer` is not atomic. When a request answers 200:
a second request that runs after it and also answers 200 has called another entry,
and, when its body names no counter, to another counter; but a second request
whose reads overlap with the first (both read before either writes) and that would
answer 200 on its own answers 200 as well, with the entry and the counter it would
get on its own, and for two requests with the same body the stored entries and
counters end up as after the first request alone: one entry is called, at one
counter, and both requests report it. -/
theorem callNextCustomer_not_atomic (db : Store) (clock1 clock2 : Clock) (businessId : String)
    (body1 body2 : CallNextBody)
    (hok1 : (callNextCustomer db clock1 businessId body1).2.status = 200) :
    ((callNextCustomer (callNextCustomer db clock1 businessId body1).1 clock2 businessId
        body2).2.status = 200 →
      ∃ q1 k1 q2 k2,
        (callNextCustomer db clock1 businessId body1).2.queue = some q1 ∧
        (callNextCustomer db clock1 businessId body1).2.counter = some k1 ∧
        (callNextCustomer (callNextCustomer db clock1 businessId body1).1 clock2 businessId
          body2).2.queue = some q2 ∧
        (callNextCustomer (callNextCustomer db clock1 businessId body1).1 clock2 businessId
          body2).2.counter = some k2 ∧
        q1.id ≠ q2.id ∧ (truthyOpt body2.counterId = false → k1.id ≠ k2.id)) ∧
    ((callNextCustomer db clock2 businessId body2).2.status = 200 →
      (callNextConcurrently db clock1 clock2 businessId body1 body2).2.1
        = (callNextCustomer db clock1 businessId body1).2 ∧
      (callNextConcurrently db clock1 clock2 businessId body1 body2).2.2.status = 200 ∧
      (callNextConcurrently db clock1 clock2 businessId body1 body2).2.2.counter
        = (callNextCustomer db clock2 businessId body2).2.counter ∧
      (callNextConcurrently db clock1 clock2 businessId body1 body2).2.2.queue.map
          (fun q => (q.id, q.status, q.counterId))
        = (callNextCustomer db clock2 businessId body2).2.queue.map
          (fun q => (q.id, q.status, q.counterId))) ∧
    (body2 = body1 →
      (callNextConcurrently db clock1 clock2 businessId body1 body2).2.2.status = 200 ∧
      (callNextConcurrently db clock1 clock2 businessId body1 body2).2.2.counter
        = (callNextCustomer db clock1 businessId body1).2.counter ∧
      (callNextConcurrently db clock1 clock2 businessId body1 body2).2.2.queue.map
          (fun q => (q.id, q.status, q.counterId))
        = (callNextCustomer db clock1 businessId body1).2.queue.map
          (fun q => (q.id, q.status, q.counterId)) ∧
      (callNextConcurrently db clock1 clock2 businessId body1 body2).1.queues.map
          (fun q => (q.id, q.status, q.counterId))
        = (callNextCustomer db clock1 businessId body1).1.queues.map
          (fun q => (q.id, q.status, q.counterId)) ∧
      (callNextConcurrently db clock1 clock2 businessId body1 body2).1.counters.map
          (fun c => (c.id, c.status, c.currentQueueId))
        = (callNextCustomer db clock1 businessId body1).1.counters.map
          (fun c => (c.id, c.status, c.currentQueueId))) := by
  obtain ⟨c0, e0, hc0, he0, -, -, hread1⟩ := callNextRead_of_ok hok1
  obtain ⟨e1, he1⟩ := find_isSome_of_mem (fun (q : Queue) => q.id) he0
  obtain ⟨c1, hc1⟩ := find_isSome_of_mem (fun (k : Counter) => k.id) hc0
  have he1' : db.queues.find? (fun q => q.id == (Queue.fromFirestore e0).id) = some e1 := he1
  have hc1' : db.counters.find? (fun c => c.id == (Counter.fromFirestore c0).id) = some c1 :=
    hc1
  have hfirst : callNextCustomer db clock1 businessId body1
      = callNextWrite db clock1 (Counter.fromFirestore c0) (Queue.fromFirestore e0) := by
    rw [callNextCustomer_read_write, hread1]
  have hform1 := callNextWrite_found clock1 (Counter.fromFirestore c0) (Queue.fromFirestore e0)
    he1' hc1'
  have hans1 := callNextWrite_answer clock1 (Counter.fromFirestore c0) (Queue.fromFirestore e0)
    he1' hc1'
  have hkeep1 := callNextWrite_keeps_ids clock1 (Counter.fromFirestore c0)
    (Queue.fromFirestore e0) he1' hc1'
  -- a request whose reads saw `db` and whose writes follow those of the first request
  have hoverlap : ∀ (clock : Clock) (body : CallNextBody),
      (callNextCustomer db clock businessId body).2.status = 200 →
      (callNextConcurrently db clock1 clock businessId body1 body).2.1
        = (callNextCustomer db clock1 businessId body1).2 ∧
      (callNextConcurrently db clock1 clock businessId body1 body).2.2.status = 200 ∧
      (callNextConcurrently db clock1 clock businessId body1 body).2.2.counter
        = (callNextCustomer db clock businessId body).2.counter ∧
      (callNextConcurrently db clock1 clock businessId body1 body).2.2.queue.map
          (fun q => (q.id, q.status, q.counterId))
        = (callNextCustomer db clock businessId body).2.queue.map
          (fun q => (q.id, q.status, q.counterId)) := by
    intro clock body hok
    obtain ⟨k0, x0, hk0, hx0, -, -, hread⟩ := callNextRead_of_ok hok
    obtain ⟨x1, hx1⟩ := find_isSome_of_mem (fun (q : Queue) => q.id) hx0
    obtain ⟨k1, hk1⟩ := find_isSome_of_mem (fun (k : Counter) => k.id) hk0
    have hx1' : db.queues.find? (fun q => q.id == (Queue.fromFirestore x0).id) = some x1 := hx1
    have hk1' : db.counters.find? (fun c => c.id == (Counter.fromFirestore k0).id) = some k1 :=
      hk1
    obtain ⟨x2, hx2⟩ := hkeep1.1 _ _ hx1'
    obtain ⟨k2, hk2⟩ := hkeep1.2 _ _ hk1'
    have halone : callNextCustomer db clock businessId body
        = callNextWrite db clock (Counter.fromFirestore k0) (Queue.fromFirestore x0) := by
      rw [callNextCustomer_read_write, hread]
    have hansA := callNextWrite_answer clock (Counter.fromFirestore k0) (Queue.fromFirestore x0)
      hx1' hk1'
    have hansB := callNextWrite_answer clock (Counter.fromFirestore k0) (Queue.fromFirestore x0)
      hx2 hk2
    have hconc : callNextConcurrently db clock1 clock businessId body1 body
        = ((callNextWrite
              (callNextWrite db clock1 (Counter.fromFirestore c0) (Queue.fromFirestore e0)).1
              clock (Counter.fromFirestore k0) (Queue.fromFirestore x0)).1,
            (callNextWrite db clock1 (Counter.fromFirestore c0) (Queue.fromFirestore e0)).2,
            (callNextWrite
              (callNextWrite db clock1 (Counter.fromFirestore c0) (Queue.fromFirestore e0)).1
              clock (Counter.fromFirestore k0) (Queue.fromFirestore x0)).2) := by
      unfold callNextConcurrently
      simp only [hread1, hread]
    rw [hconc, hfirst, halone]
    exact ⟨rfl, hansB.1, hansB.2.1.trans hansA.2.1.symm, hansB.2.2.trans hansA.2.2.symm⟩
  refine ⟨fun hok2 => ?_, fun hok2 => hoverlap clock2 body2 hok2, fun hbody => ?_⟩
  · -- one after the other
    rw [hfirst] at hok2 ⊢
    obtain ⟨k0, x0, hk0, hx0, hwait, hactive, hread⟩ := callNextRead_of_ok hok2
    obtain ⟨x1, hx1⟩ := find_isSome_of_mem (fun (q : Queue) => q.id) hx0
    obtain ⟨k1, hk1⟩ := find_isSome_of_mem (fun (k : Counter) => k.id) hk0
    have hsecond : callNextCustomer
        (callNextWrite db clock1 (Counter.fromFirestore c0) (Queue.fromFirestore e0)).1 clock2
          businessId body2
        = callNextWrite
          (callNextWrite db clock1 (Counter.fromFirestore c0) (Queue.fromFirestore e0)).1 clock2
          (Counter.fromFirestore k0) (Queue.fromFirestore x0) := by
      rw [callNextCustomer_read_write, hread]
    have hform2 := callNextWrite_found clock2 (Counter.fromFirestore k0) (Queue.fromFirestore x0)
      (show (callNextWrite db clock1 (Counter.fromFirestore c0)
          (Queue.fromFirestore e0)).1.queues.find?
            (fun q => q.id == (Queue.fromFirestore x0).id) = some x1 from hx1)
      (show (callNextWrite db clock1 (Counter.fromFirestore c0)
          (Queue.fromFirestore e0)).1.counters.find?
            (fun c => c.id == (Counter.fromFirestore k0).id) = some k1 from hk1)
    have he1id : e1.id = e0.id := by simpa using List.find?_some he1
    have hx1id : x1.id = x0.id := by simpa using List.find?_some hx1
    have hqne : e0.id ≠ x0.id := by
      intro heq
      rw [hform1] at hx0
      obtain ⟨y, -, hy⟩ := List.mem_map.mp
        (show x0 ∈ db.queues.map (fun x =>
          if x.id = (Queue.fromFirestore e0).id then
            { x with
              status := QueueStatus.called
              counterId := some (Counter.fromFirestore c0).id
              calledAt := some clock1.now }
          else x) from hx0)
      by_cases hyid : y.id = (Queue.fromFirestore e0).id
      · rw [if_pos hyid] at hy
        rw [← hy] at hwait
        exact absurd hwait (by simp)
      · rw [if_neg hyid] at hy
        rw [hy] at hyid
        exact hyid heq.symm
    have hkne : truthyOpt body2.counterId = false → c0.id ≠ k0.id := by
      intro hauto heq
      have hact := hactive hauto
      rw [hform1] at hk0
      obtain ⟨y, -, hy⟩ := List.mem_map.mp
        (show k0 ∈ db.counters.map (fun k =>
          if k.id = (Counter.fromFirestore c0).id then
            { k with
              currentQueueId := some (Queue.fromFirestore e0).id
              currentQueueNumber := (Queue.fromFirestore e0).queueNumber
              status := CounterStatus.busy
              updatedAt := clock1.now }
          else k) from hk0)
      by_cases hyid : y.id = (Counter.fromFirestore c0).id
      · rw [if_pos hyid] at hy
        rw [← hy] at hact
        exact absurd hact (by simp)
      · rw [if_neg hyid] at hy
        rw [hy] at hyid
        exact hyid heq.symm
    rw [hsecond, hform2, hform1]
    exact ⟨_, _, _, _, rfl, rfl, rfl, rfl,
      (by
        show e1.id ≠ x1.id
        rw [he1id, hx1id]
        exact hqne),
      hkne⟩
  · -- the same request twice, overlapping
    subst hbody
    have hok2 : (callNextCustomer db clock2 businessId body2).2.status = 200 := by
      rw [callNextCustomer_read_write, hread1]
      exact (callNextWrite_answer clock2 (Counter.fromFirestore c0) (Queue.fromFirestore e0)
        he1' hc1').1
    obtain ⟨-, h2, h3, h4⟩ := hoverlap clock2 body2 hok2
    have halone2 : callNextCustomer db clock2 businessId body2
        = callNextWrite db clock2 (Counter.fromFirestore c0) (Queue.fromFirestore e0) := by
      rw [callNextCustomer_read_write, hread1]
    have hans2 := callNextWrite_answer clock2 (Counter.fromFirestore c0) (Queue.fromFirestore e0)
      he1' hc1'
    refine ⟨h2, ?_, ?_, ?_, ?_⟩
    · rw [h3, halone2, hfirst, hans2.2.1, hans1.2.1]
    · rw [h4, halone2, hfirst, hans2.2.2, hans1.2.2]
    · obtain ⟨x2, hx2⟩ := hkeep1.1 _ _ he1'
      obtain ⟨k2, hk2⟩ := hkeep1.2 _ _ hc1'
      have hconc : callNextConcurrently db clock1 clock2 businessId body2 body2
          = ((callNextWrite
                (callNextWrite db clock1 (Counter.fromFirestore c0) (Queue.fromFirestore e0)).1
                clock2 (Counter.fromFirestore c0) (Queue.fromFirestore e0)).1,
              (callNextWrite db clock1 (Counter.fromFirestore c0) (Queue.fromFirestore e0)).2,
              (callNextWrite
                (callNextWrite db clock1 (Counter.fromFirestore c0) (Queue.fromFirestore e0)).1
                clock2 (Counter.fromFirestore c0) (Queue.fromFirestore e0)).2) := by
        unfold callNextConcurrently
        simp only [hread1]
      rw [hconc, hfirst, callNextWrite_found clock2 (Counter.fromFirestore c0)
        (Queue.fromFirestore e0) hx2 hk2, hform1]
      simp only [List.map_map]
      apply List.map_congr_left
      intro x _
      simp only [Function.comp]
      by_cases hx : x.id = (Queue.fromFirestore e0).id
      · simp only [hx, if_true]
      · simp only [hx, if_false]
    · obtain ⟨x2, hx2⟩ := hkeep1.1 _ _ he1'
      obtain ⟨k2, hk2⟩ := hkeep1.2 _ _ hc1'
      have hconc : callNextConcurrently db clock1 clock2 businessId body2 body2
          = ((callNextWrite
                (callNextWrite db clock1 (Counter.fromFirestore c0) (Queue.fromFirestore e0)).1
                clock2 (Counter.fromFirestore c0) (Queue.fromFirestore e0)).1,
              (callNextWrite db clock1 (Counter.fromFirestore c0) (Queue.fromFirestore e0)).2,
              (callNextWrite
                (callNextWrite db clock1 (Counter.fromFirestore c0) (Queue.fromFirestore e0)).1
                clock2 (Counter.fromFirestore c0) (Queue.fromFirestore e0)).2) := by
        unfold callNextConcurrently
        simp only [hread1]
      rw [hconc, hfirst, callNextWrite_found clock2 (Counter.fromFirestore c0)
        (Queue.fromFirestore e0) hx2 hk2, hform1]
      simp only [List.map_map]
      apply List.map_congr_left
      intro x _
      simp only [Function.comp]
      by_cases hx : x.id = (Counter.fromFirestore c0).id
      · simp only [hx, if_true]
      · simp only [hx, if_false]

/-- Witness for C24: two free counters and two waiting entries, two requests with
an empty body. One after the other they call the entries `q2` and `q1` to the
counters `c1` and `c2`; with overlapping reads both answer 200 with `q2` at `c1`,
and the store ends up as after one request. -/
theorem callNextCustomer_not_atomic_witness :
    (∃ q1 k1 q2 k2,
      (callNextCustomer twoFreeCounters (mondayAt 3000) "b1" {}).2.queue = some q1 ∧
      (callNextCustomer twoFreeCounters (mondayAt 3000) "b1" {}).2.counter = some k1 ∧
      (callNextCustomer (callNextCustomer twoFreeCounters (mondayAt 3000) "b1" {}).1
        (mondayAt 3001) "b1" {}).2.queue = some q2 ∧
      (callNextCustomer (callNextCustomer twoFreeCounters (mondayAt 3000) "b1" {}).1
        (mondayAt 3001) "b1" {}).2.counter = some k2 ∧
      q1.id ≠ q2.id ∧ (truthyOpt ({} : CallNextBody).counterId = false → k1.id ≠ k2.id)) ∧
    (callNextConcurrently twoFreeCounters (mondayAt 3000) (mondayAt 3001) "b1" {} {}).2.2.status
      = 200 ∧
    (callNextConcurrently twoFreeCounters (mondayAt 3000) (mondayAt 3001) "b1" {} {}).1.queues.map
        (fun q => (q.id, q.status, q.counterId))
      = (callNextCustomer twoFreeCounters (mondayAt 3000) "b1" {}).1.queues.map
        (fun q => (q.id, q.status, q.counterId)) :=
  ⟨(callNextCustomer_not_atomic twoFreeCounters (mondayAt 3000) (mondayAt 3001) "b1" {} {}
      (by decide)).1 (by decide),
    ((callNextCustomer_not_atomic twoFreeCounters (mondayAt 3000) (mondayAt 3001) "b1" {} {}
      (by decide)).2.2 rfl).1,
    ((callNextCustomer_not_atomic twoFreeCounters (mondayAt 3000) (mondayAt 3001) "b1" {} {}
      (by decide)).2.2 rfl).2.2.2.1⟩

/-- C25: for a store with distinct entry ids, `updateQueuePositions` returns, and
afterwards the stored positions of the waiting entries of the business are a
rearrangement of `1..N` (`N` the number of waiting entries, unchanged by the
call), so no two are equal; a waiting entry that joined strictly earlier than
another has the smaller position; the entry ids are the same, and every entry of
another business and every entry that is not waiting is stored unchanged. -/
theorem updateQueuePositions_assigns_one_to_n (db : Store) (now : Nat) (businessId : String)
    (hids : (db.queues.map (fun q => q.id)).Nodup) :
    ∃ out, QueueService.updateQueuePositions db now businessId = some out ∧
      (waitingPositions out.1 businessId).Perm
        (List.range' 1 (Queue.getWaitingCount db businessId)) ∧
      (waitingPositions out.1 businessId).Nodup ∧
      Queue.getWaitingCount out.1 businessId = Queue.getWaitingCount db businessId ∧
      (∀ a ∈ out.1.queues, ∀ b ∈ out.1.queues,
        a.businessId = businessId → a.status = QueueStatus.waiting →
        b.businessId = businessId → b.status = QueueStatus.waiting →
        a.joinedAt < b.joinedAt → a.position < b.position) ∧
      out.1.queues.map (fun q => q.id) = db.queues.map (fun q => q.id) ∧
      (∀ e ∈ db.queues, ¬ (e.businessId = businessId ∧ e.status = QueueStatus.waiting) →
        e ∈ out.1.queues) := by
  obtain ⟨out, g, hrun, hq, hg⟩ := updateQueuePositions_store db now businessId hids
  have hfilter : out.1.queues.filter (fun q =>
      q.businessId == businessId && q.status == QueueStatus.waiting)
      = (db.queues.filter (fun q =>
        q.businessId == businessId && q.status == QueueStatus.waiting)).map g := by
    rw [hq, List.filter_map]
    have hfun : ((fun (q : Queue) =>
        q.businessId == businessId && q.status == QueueStatus.waiting) ∘ g)
        = fun q => q.businessId == businessId && q.status == QueueStatus.waiting := by
      funext d
      show ((g d).businessId == businessId && (g d).status == QueueStatus.waiting) = _
      rw [(hg d).2.1, (hg d).2.2.1]
    rw [hfun]
  have hlen : ((QueueService.sortedWaiting db businessId).map (fun c => c.id)).length
      = Queue.getWaitingCount db businessId := by
    rw [(sortedWaiting_ids_perm db businessId).length_eq, List.length_map]
    rfl
  have hwaiting : ∀ d ∈ db.queues, d.businessId = businessId → d.status = QueueStatus.waiting →
      (g d).position
        = 0 + ((QueueService.sortedWaiting db businessId).map (fun c => c.id)).indexOf d.id
          + 1 := by
    intro d hd hb hs
    rw [(hg d).2.2.2.2.1]
    exact positioned_position ((id_mem_sortedWaiting_iff hids hd).mpr ⟨hb, hs⟩)
  have hperm : (waitingPositions out.1 businessId).Perm
      (List.range' 1 (Queue.getWaitingCount db businessId)) := by
    unfold waitingPositions
    rw [hfilter, List.map_map]
    have hmap : (db.queues.filter (fun q =>
        q.businessId == businessId && q.status == QueueStatus.waiting)).map
          ((fun (q : Queue) => q.position) ∘ g)
        = ((db.queues.filter (fun q =>
          q.businessId == businessId && q.status == QueueStatus.waiting)).map
            (fun c => c.id)).map (fun i =>
              0 + ((QueueService.sortedWaiting db businessId).map (fun c => c.id)).indexOf i
                + 1) := by
      rw [List.map_map]
      apply List.map_congr_left
      intro d hd
      rw [List.mem_filter] at hd
      simp only [Bool.and_eq_true, beq_iff_eq] at hd
      exact hwaiting d hd.1 hd.2.1 hd.2.2
    rw [hmap, ← hlen, ← map_indexOf_range _ (sortedWaiting_nodup businessId hids) 0]
    exact (sortedWaiting_ids_perm db businessId).symm.map _
  refine ⟨out, hrun, hperm, ?_, ?_, ?_, ?_, ?_⟩
  · rw [hperm.nodup_iff]
    exact List.nodup_range' _ _
  · unfold Queue.getWaitingCount
    rw [hfilter, List.length_map]
  · intro a ha b hb hab has hbb hbs hlt
    rw [hq] at ha hb
    obtain ⟨a0, ha0, rfl⟩ := List.mem_map.mp ha
    obtain ⟨b0, hb0, rfl⟩ := List.mem_map.mp hb
    rw [(hg a0).2.1] at hab
    rw [(hg a0).2.2.1] at has
    rw [(hg b0).2.1] at hbb
    rw [(hg b0).2.2.1] at hbs
    rw [(hg a0).2.2.2.1, (hg b0).2.2.2.1] at hlt
    rw [hwaiting a0 ha0 hab has, hwaiting b0 hb0 hbb hbs]
    have := indexOf_lt_of_joined_earlier _ (sortedWaiting_sorted db businessId)
      (sortedWaiting_nodup businessId hids) _ (sortedWaiting_mem ha0 hab has) _
      (sortedWaiting_mem hb0 hbb hbs) hlt
    have h1 : (Queue.fromFirestore a0).id = a0.id := rfl
    have h2 : (Queue.fromFirestore b0).id = b0.id := rfl
    rw [h1, h2] at this
    omega
  · rw [hq, List.map_map]
    apply List.map_congr_left
    intro d _
    exact (hg d).1
  · intro e he hnot
    rw [hq]
    refine List.mem_map.mpr ⟨e, he, (hg e).2.2.2.2.2 ?_⟩
    intro hmem
    exact hnot ((id_mem_sortedWaiting_iff hids he).mp hmem)

/-- Witness for C25: the waiting entries of `b1` carry the stale positions 3, 2, 5, 4;
after the call they carry 2, 1, 4, 3, in the order of their join times, while the
skipped entry and the entry of business `b2` keep their positions 1 and 7. -/
theorem updateQueuePositions_assigns_one_to_n_witness :
    waitingPositions stalePositions "b1" = [3, 2, 5, 4] ∧
    ∃ out, QueueService.updateQueuePositions stalePositions 6000 "b1" = some out ∧
      out.1.queues.map (fun q => (q.id, q.status, q.joinedAt, q.position))
        = [("q1", QueueStatus.skipped, 1000, 1), ("q3", QueueStatus.waiting, 3000, 2),
            ("q2", QueueStatus.waiting, 2000, 1), ("x1", QueueStatus.waiting, 1500, 7),
            ("q5", QueueStatus.waiting, 5000, 4), ("q4", QueueStatus.waiting, 4000, 3)] ∧
      (waitingPositions out.1 "b1").Perm (List.range' 1 4) := by
  obtain ⟨out, hrun, hperm, -⟩ :=
    updateQueuePositions_assigns_one_to_n stalePositions 6000 "b1" (by decide)
  refine ⟨by decide, out, hrun, ?_, hperm⟩
  have hval : QueueService.updateQueuePositions stalePositions 6000 "b1" = some out := hrun
  have hout : (QueueService.updateQueuePositions stalePositions 6000 "b1").map
      (fun o => o.1.queues.map (fun q => (q.id, q.status, q.joinedAt, q.position)))
      = some [("q1", QueueStatus.skipped, 1000, 1), ("q3", QueueStatus.waiting, 3000, 2),
            ("q2", QueueStatus.waiting, 2000, 1), ("x1", QueueStatus.waiting, 1500, 7),
            ("q5", QueueStatus.waiting, 5000, 4), ("q4", QueueStatus.waiting, 4000, 3)] := by
    decide
  rw [hval] at hout
  simpa using hout

/-- Counterexample to C26: 10 customers served with average 8 minutes, and an entry
served for 5 minutes (from 60000 to 360000). `completeService` answers 200 and
stores 11 customers and the double `8700135643783913 / 2 ^ 50`
(7.7272727272727275), which is not `(8 * 10 + 5) / (10 + 1) = 85 / 11`: no double
is. -/
theorem completeService_average_is_rounded :
    (completeService seasonedShop (mondayAt 360000) "b1" "q1").2.status = 200 ∧
    (Business.findById (completeService seasonedShop (mondayAt 360000) "b1" "q1").1 "b1").map
        (fun b => (b.stats.totalCustomersServed, b.stats.avgServingTime))
      = some (some 11, some (8700135643783913 / 1125899906842624)) ∧
    ((8 : ℚ) * 10 + (360000 - 60000) / 60000) / (10 + 1) = 85 / 11 ∧
    (8700135643783913 / 1125899906842624 : ℚ) ≠ 85 / 11 := by
  decide!

/-- C26, amended: for an entry of the caller's business and a business whose
statistics hold `totalCustomersServed = n < 2 ^ 53` and `avgServingTime = a`, a
`completeService` that answers 200 stores `totalCustomersServed = n + 1` and as
`avgServingTime` the double that `(a * n + d) / (n + 1)` evaluates to, the product,
the sum and the quotient each rounded to the nearest double, with `d` the double
that the minutes from the entry's `servingAt` to now evaluate to, or 0 without
`servingAt`. That value is `(a * n + d) / (n + 1)` when no operation rounds; for
`a ≥ 0` and `d ≥ 0` it is within the relative `2 ^ (-51)` (plus `2 ^ (-1073)`) of
it; and if `a` is the mean of `n` samples, `(a * n + d) / (n + 1)` is the mean of the
samples with `d` added. -/
theorem completeService_rolling_average_rounded (db : Store) (clock : Clock)
    (businessId queueId : String) (q : Queue) (business : Business) (n : Nat) (a : ℚ)
    (hq : findOwnQueue db businessId queueId = some q)
    (hb : Business.findById db businessId = some business)
    (hn : business.stats.totalCustomersServed = some (n : ℚ))
    (ha : business.stats.avgServingTime = some a)
    (hsmall : n < 2 ^ 53)
    (hok : (completeService db clock businessId queueId).2.status = 200) :
    let d : ℚ := match q.servingAt with
      | some t => roundDouble (roundDouble ((clock.now : ℚ) - (t : ℚ)) / 60000)
      | none => 0
    let stored : ℚ :=
      roundDouble (roundDouble (roundDouble (a * (n : ℚ)) + d) / ((n : ℚ) + 1))
    (∃ b1, Business.findById (completeService db clock businessId queueId).1 businessId = some b1 ∧
      b1.stats.totalCustomersServed = some ((n : ℚ) + 1) ∧
      b1.stats.avgServingTime = some stored) ∧
    (roundDouble (a * (n : ℚ)) = a * (n : ℚ) →
      roundDouble (a * (n : ℚ) + d) = a * (n : ℚ) + d →
      roundDouble ((a * (n : ℚ) + d) / ((n : ℚ) + 1)) = (a * (n : ℚ) + d) / ((n : ℚ) + 1) →
      stored = (a * (n : ℚ) + d) / ((n : ℚ) + 1)) ∧
    (0 ≤ a → 0 ≤ d →
      |stored - (a * (n : ℚ) + d) / ((n : ℚ) + 1)|
        ≤ (a * (n : ℚ) + d) / ((n : ℚ) + 1) / 2 ^ 51 + 1 / 2 ^ 1073) ∧
    ∀ samples : List ℚ, samples.length = n → (n ≠ 0 → a = samples.sum / (n : ℚ)) →
      (a * (n : ℚ) + d) / ((n : ℚ) + 1)
        = (samples ++ [d]).sum / (((samples ++ [d]).length : Nat) : ℚ) := by
  intro d stored
  refine ⟨?_, fun h1 h2 h3 => ?_, fun ha0 hd0 => rolling_average_near a d n ha0 hd0,
    fun samples hlen hmean => mean_step samples n a d hlen hmean⟩
  rotate_left
  · show roundDouble (roundDouble (roundDouble (a * (n : ℚ)) + d) / ((n : ℚ) + 1)) = _
    rw [h1, h2, h3]
  have hN : roundDouble ((n : ℚ) + 1) = (n : ℚ) + 1 := by
    have h := roundDouble_count (n + 1) (by omega)
    push_cast at h
    exact h
  have hN0 : (n : ℚ) + 1 ≠ 0 := by positivity
  obtain ⟨q0, hq0, rfl, -⟩ := findOwnQueue_some hq
  have hfinal : ∀ db2 : Store, db2.businesses = db.businesses →
      ∃ b1, Business.findById
        { db2 with businesses := db2.businesses.map (fun b =>
            if b.id == businessId then
              { b with
                stats := completedStats business.stats
                  (servingMinutes clock.now (Queue.fromFirestore q0).servingAt)
                updatedAt := clock.now }
            else b) } businessId = some b1 ∧
        b1.stats.totalCustomersServed = some ((n : ℚ) + 1) ∧
        b1.stats.avgServingTime = some stored := by
    intro db2 hbus
    refine ⟨{ business with
        stats := completedStats business.stats
          (servingMinutes clock.now (Queue.fromFirestore q0).servingAt)
        updatedAt := clock.now }, ?_, ?_, ?_⟩
    · unfold Business.findById
      show (db2.businesses.map _).find? _ = _
      rw [hbus, find_map_rewrite (fun (b : Business) => b.id) businessId]
      rotate_left
      · exact fun _ => rfl
      unfold Business.findById at hb
      rw [hb]
      rfl
    · simp only [completedStats, hn, Option.map_some', hN]
    · simp only [completedStats, hn, ha, hN, if_neg hN0]
      rfl
  generalize hres : completeService db clock businessId queueId = res at hok
  unfold completeService at hres
  simp only [hq] at hres
  rw [queueUpdate_found_eq clock.now _ hq0] at hres
  dsimp only at hres
  cases hcid : (Queue.fromFirestore q0).counterId with
  | none =>
    simp only [hcid] at hres
    have hb1 : ∀ qs, Business.findById { db with queues := qs } businessId = some business :=
      fun _ => hb
    simp only [hb1, Business.updateStats] at hres
    subst hres
    exact hfinal _ rfl
  | some counterId =>
    simp only [hcid] at hres
    cases hrel : Counter.completeQueue
        { db with queues := db.queues.map (fun x =>
            if x.id = queueId then
              (({ status := some QueueStatus.completed, completedAt := some clock.now } :
                QueueUpdate).withDefaults clock.now).apply x
            else x) } clock.now counterId with
    | none =>
      simp only [hrel, Option.map_none'] at hres
      subst hres
      exact absurd hok (by simp [failure])
    | some out =>
      obtain ⟨db2, c2⟩ := out
      simp only [hrel, Option.map_some'] at hres
      have hbus : db2.businesses = db.businesses := (counterModify_frame hrel).2
      have hb2 : Business.findById db2 businessId = some business := by
        unfold Business.findById
        rw [hbus]
        exact hb
      simp only [hb2, Business.updateStats] at hres
      subst hres
      exact hfinal db2 hbus

/-- Witness for C26: 10 customers served with average 8 minutes, and an entry served
for 8 minutes (from 60000 to 540000): no operation rounds, and the statistics become
11 customers and 8 minutes. -/
theorem completeService_rolling_average_rounded_witness :
    (completeService seasonedShop (mondayAt 540000) "b1" "q1").2.status = 200 ∧
    (Business.findById (completeService seasonedShop (mondayAt 540000) "b1" "q1").1 "b1").map
        (fun b => (b.stats.totalCustomersServed, b.stats.avgServingTime))
      = some (some 11, some 8) := by
  have hok : (completeService seasonedShop (mondayAt 540000) "b1" "q1").2.status = 200 := by
    decide!
  obtain ⟨b1, h1, h2, h3⟩ := (completeService_rolling_average_rounded seasonedShop
    (mondayAt 540000) "b1" "q1" _
    { sampleBusiness 50 with
      stats := { (sampleBusiness 50).stats with
        totalCustomersServed := some 10, avgServingTime := some 8 } }
    10 8 rfl (by decide) (by decide!) (by decide) (by decide) hok).1
  refine ⟨hok, ?_⟩
  rw [h1]
  simp only [Option.map_some', h2, h3]
  decide!

/-- C27: for a counter of the caller's business that is not busy, `setCounterBreak`
answers 200 and stores status `break` and `nextAvailableAt = now + d` minutes (`d`
the duration asked for, else the counter's `breakDuration`, else 15), but the
counter object it returns, which is the one `Counter.findById` reads back, has
status `break` and no `nextAvailableAt`: the constructor never copies that field. -/
theorem setCounterBreak_returns_no_nextAvailableAt (db : Store) (clock : Clock)
    (businessId counterId : String) (duration : Nat) (c : Counter)
    (hc : findOwnCounter db businessId counterId = some c)
    (hfree : c.status ≠ CounterStatus.busy) :
    (setCounterBreak db clock businessId counterId duration).2.status = 200 ∧
    (setCounterBreak db clock businessId counterId duration).1.counters
      = db.counters.map (fun k =>
        if k.id = counterId then
          { k with
            status := CounterStatus.onBreak
            nextAvailableAt := some (clock.now +
              (if duration = 0 then orFifteen c.settings.breakDuration else duration) * 60000)
            updatedAt := clock.now }
        else k) ∧
    ∃ returned,
      (setCounterBreak db clock businessId counterId duration).2.counter = some returned ∧
      Counter.findById (setCounterBreak db clock businessId counterId duration).1 counterId
        = some returned ∧
      returned.status = CounterStatus.onBreak ∧
      returned.nextAvailableAt = none := by
  obtain ⟨c0, hc0, rfl, -⟩ := findOwnCounter_some hc
  have hfound := counterModify_found_eq (fun (k : Counter) =>
      { k with
        status := CounterStatus.onBreak
        nextAvailableAt := some (clock.now +
          (if duration = 0 then orFifteen (Counter.fromFirestore c0).settings.breakDuration
            else duration) * 60000)
        updatedAt := clock.now }) (fun _ => rfl) hc0
  have hrun : setCounterBreak db clock businessId counterId duration =
      ({ db with counters := db.counters.map (fun k =>
          if k.id = counterId then
            { k with
              status := CounterStatus.onBreak
              nextAvailableAt := some (clock.now +
                (if duration = 0 then orFifteen (Counter.fromFirestore c0).settings.breakDuration
                  else duration) * 60000)
              updatedAt := clock.now }
          else k) },
        { status := 200
          success := true
          message := "Counter break set successfully"
          counter := some (Counter.fromFirestore
            { c0 with
              status := CounterStatus.onBreak
              nextAvailableAt := some (clock.now +
                (if duration = 0 then
                  orFifteen (Counter.fromFirestore c0).settings.breakDuration
                  else duration) * 60000)
              updatedAt := clock.now }) }) := by
    unfold setCounterBreak
    simp only [hc, hfree, if_false, Counter.setBreak]
    rw [hfound]
  rw [hrun]
  refine ⟨rfl, rfl, _, rfl, ?_, rfl, rfl⟩
  have h2 := hfound
  unfold Counter.modify at h2
  have hfirst : Counter.findById db counterId = some (Counter.fromFirestore c0) := by
    simp [Counter.findById, hc0]
  simp only [hfirst] at h2
  split at h2
  · exact absurd h2 (by simp)
  · rename_i k hk
    simp only [Option.some.injEq, Prod.mk.injEq] at h2
    rw [← h2.2]
    simp only [beq_iff_eq] at hk
    exact hk

/-- Witness for C27: a break of 10 minutes at timestamp 1000 stores
`nextAvailableAt = 601000`, and the counter returned and read back has none. -/
theorem setCounterBreak_returns_no_nextAvailableAt_witness :
    (setCounterBreak (emptyShop 2) (mondayAt 1000) "b1" "c1" 10).2.status = 200 ∧
    (setCounterBreak (emptyShop 2) (mondayAt 1000) "b1" "c1" 10).1.counters.map
        (fun c => (c.id, c.status, c.nextAvailableAt))
      = [("c1", CounterStatus.onBreak, some 601000)] ∧
    (setCounterBreak (emptyShop 2) (mondayAt 1000) "b1" "c1" 10).2.counter.map
        (fun c => (c.id, c.status, c.nextAvailableAt))
      = some ("c1", CounterStatus.onBreak, none) ∧
    (Counter.findById (setCounterBreak (emptyShop 2) (mondayAt 1000) "b1" "c1" 10).1 "c1").map
        (fun c => c.nextAvailableAt) = some none := by
  have h := setCounterBreak_returns_no_nextAvailableAt (emptyShop 2) (mondayAt 1000) "b1" "c1" 10
    _ rfl (by decide)
  refine ⟨h.1, ?_, by decide, by decide⟩
  rw [h.2.1]; decide

/-- C28: every `joinQueue` that answers 201 replaces the `stats` map of the business
joined by `totalCustomersServed = 0`, `avgWaitTime = 0` and nothing else, so the
stored `avgServingTime` is lost; the other businesses are unchanged. -/
theorem joinQueue_resets_business_stats (db : Store) (clock : Clock) (newId : String)
    (userId : Option String) (body : JoinBody)
    (hok : (joinQueue db clock newId userId body).2.status = 201) :
    (joinQueue db clock newId userId body).1.businesses = db.businesses.map (fun b =>
      if b.id = body.businessId then
        { b with
          stats :=
            { totalCustomersServed := some 0
              avgWaitTime := some 0
              avgServingTime := none
              customerSatisfaction := none
              peakHours := none }
          updatedAt := clock.now }
      else b) := by
  generalize hres : joinQueue db clock newId userId body = res at hok
  unfold joinQueue at hres
  split at hres
  · subst hres; exact absurd hok (by simp [failure])
  · split at hres
    · subst hres; exact absurd hok (by simp [failure])
    · split at hres
      · subst hres; exact absurd hok (by simp [failure])
      · split at hres
        · subst hres; exact absurd hok (by simp [failure])
        · split at hres
          · subst hres; exact absurd hok (by simp [failure])
          · dsimp only at hres
            split at hres
            · subst hres; exact absurd hok (by simp [failure])
            · split at hres
              · subst hres; exact absurd hok (by simp [failure])
              · split at hres
                · subst hres; exact absurd hok (by simp [failure])
                · rename_i db1 queue hcreate
                  subst hres
                  exact (queueCreate_store hcreate).2.2

/-- Witness for C28: a business with 10 customers served and average serving time 8
estimates 16 minutes for position 2; after one join its statistics are 0 customers
and no average, and the same estimate is 10 minutes. -/
theorem joinQueue_resets_business_stats_witness :
    seasonedShop.businesses.map (fun b => (b.stats.totalCustomersServed, b.stats.avgServingTime))
      = [(some 10, some 8)] ∧
    QueueService.calculateEstimatedWaitTime seasonedShop "b1" 2 = 16 ∧
    (joinQueue seasonedShop (mondayAt 360000) "q2" none sampleJoin).2.status = 201 ∧
    (joinQueue seasonedShop (mondayAt 360000) "q2" none sampleJoin).1.businesses.map
        (fun b => (b.stats.totalCustomersServed, b.stats.avgServingTime)) = [(some 0, none)] ∧
    QueueService.calculateEstimatedWaitTime
      (joinQueue seasonedShop (mondayAt 360000) "q2" none sampleJoin).1 "b1" 2 = 10 := by
  have hok : (joinQueue seasonedShop (mondayAt 360000) "q2" none sampleJoin).2.status = 201 := by
    decide!
  have h := joinQueue_resets_business_stats seasonedShop (mondayAt 360000) "q2" none sampleJoin hok
  refine ⟨by decide, by decide!, hok, ?_, by decide!⟩
  rw [h]; decide

/-- C29: the template table has the types `customer_joined`, `call_next` and
`near_turn`, but not `service_completed`, `customer_skipped` and
`queue_transferred`, which `completeService`, `skipCustomer` and `transferQueue`
pass: for these, whatever the contact fields and the transports, `sendNotification`
returns `success: false` with the error "Unknown notification type". -/
theorem sendNotification_unknown_controller_types (n : NotificationData) (t : Transports) :
    hasTemplate "customer_joined" = true ∧
    hasTemplate "call_next" = true ∧
    hasTemplate "near_turn" = true ∧
    hasTemplate "service_completed" = false ∧
    hasTemplate "customer_skipped" = false ∧
    hasTemplate "queue_transferred" = false ∧
    sendNotification (some { n with type := "service_completed" }) t
      = .ok { success := false, results := [],
              error := some "Unknown notification type: service_completed" } ∧
    sendNotification (some { n with type := "customer_skipped" }) t
      = .ok { success := false, results := [],
              error := some "Unknown notification type: customer_skipped" } ∧
    sendNotification (some { n with type := "queue_transferred" }) t
      = .ok { success := false, results := [],
              error := some "Unknown notification type: queue_transferred" } := by
  refine ⟨by decide, by decide, by decide, by decide, by decide, by decide, ?_, ?_, ?_⟩ <;> rfl

/-- C30: for a store with distinct entry ids and distinct counter ids in which every
entry's `counterId` refers to a counter of the entry's own business, each of the
nine staff controllers, called for business `businessId` with any ids and body,
leaves the entries and counters of every other business (and the other business
documents) unchanged; a request that names an entry of another business is
answered 404, and so is one that names a counter of another business. -/
theorem requests_change_only_own_business (db : Store) (clock : Clock) (businessId : String)
    (hqids : (db.queues.map (fun q => q.id)).Nodup)
    (hcids : (db.counters.map (fun c => c.id)).Nodup)
    (href : countersOfOwnBusiness db) :
    (∀ body, unchangedOutside businessId db (callNextCustomer db clock businessId body).1) ∧
    (∀ queueId, unchangedOutside businessId db (startServing db clock businessId queueId).1) ∧
    (∀ queueId,
      unchangedOutside businessId db (completeService db clock businessId queueId).1) ∧
    (∀ queueId reason,
      unchangedOutside businessId db (skipCustomer db clock businessId queueId reason).1) ∧
    (∀ queueId toCounterId,
      unchangedOutside businessId db
        (transferQueue db clock businessId queueId toCounterId).1) ∧
    (∀ counterId, unchangedOutside businessId db (deleteCounter db businessId counterId).1) ∧
    (∀ counterId status,
      unchangedOutside businessId db
        (setCounterStatus db clock businessId counterId status).1) ∧
    (∀ counterId duration,
      unchangedOutside businessId db
        (setCounterBreak db clock businessId counterId duration).1) ∧
    (∀ counterId,
      unchangedOutside businessId db (endCounterBreak db clock businessId counterId).1) ∧
    (∀ e ∈ db.queues, e.businessId ≠ businessId →
      (startServing db clock businessId e.id).2.status = 404 ∧
      (completeService db clock businessId e.id).2.status = 404 ∧
      (∀ reason, (skipCustomer db clock businessId e.id reason).2.status = 404) ∧
      (∀ toCounterId, (transferQueue db clock businessId e.id toCounterId).2.status = 404)) ∧
    (∀ c ∈ db.counters, c.businessId ≠ businessId →
      (truthy c.id = true → ∀ serviceType,
        (callNextCustomer db clock businessId
          { counterId := some c.id, serviceType := serviceType }).2.status = 404) ∧
      (∀ queueId, (transferQueue db clock businessId queueId c.id).2.status = 404) ∧
      (deleteCounter db businessId c.id).2.status = 404 ∧
      (∀ status, (setCounterStatus db clock businessId c.id status).2.status = 404) ∧
      (∀ duration, (setCounterBreak db clock businessId c.id duration).2.status = 404) ∧
      (endCounterBreak db clock businessId c.id).2.status = 404) := by
  refine ⟨fun body => callNextCustomer_isolated clock businessId body hqids hcids,
    fun queueId => startServing_isolated clock businessId queueId hqids,
    fun queueId => completeService_isolated clock businessId queueId hqids href,
    fun queueId reason => skipCustomer_isolated clock businessId queueId reason hqids href,
    fun queueId toCounterId =>
      transferQueue_isolated clock businessId queueId toCounterId hqids hcids href,
    fun counterId => deleteCounter_isolated businessId counterId hcids,
    fun counterId status => setCounterStatus_isolated clock businessId counterId status hcids,
    fun counterId duration =>
      setCounterBreak_isolated clock businessId counterId duration hcids,
    fun counterId => endCounterBreak_isolated clock businessId counterId hcids, ?_, ?_⟩
  · intro e he hb
    have hnone := findOwnQueue_foreign hqids he hb
    refine ⟨?_, ?_, fun reason => ?_, fun toCounterId => ?_⟩
    · unfold startServing; rw [hnone]; rfl
    · unfold completeService; rw [hnone]; rfl
    · unfold skipCustomer; rw [hnone]; rfl
    · unfold transferQueue; rw [hnone]; rfl
  · intro c hc hb
    have hnone := findOwnCounter_foreign hcids hc hb
    refine ⟨fun hid serviceType => callNextCustomer_foreign_counter clock serviceType hcids hc hb hid,
      fun queueId => transferQueue_foreign_counter clock queueId hcids hc hb, ?_,
      fun status => ?_, fun duration => ?_, ?_⟩
    · unfold deleteCounter; rw [hnone]; rfl
    · unfold setCounterStatus; rw [hnone]; rfl
    · unfold setCounterBreak; rw [hnone]; rfl
    · unfold endCounterBreak; rw [hnone]; rfl

/-- Witness for C30, on two businesses: a call-next by `b1` succeeds and leaves the
entries and counters of `b2` as they were; completing the entry `x1` of `b2`,
transferring to the counter `k1` of `b2` and setting the status of `k1` are each
answered 404. -/
theorem requests_change_only_own_business_witness :
    (callNextCustomer twoShops (mondayAt 3000) "b1" {}).2.status = 200 ∧
    (callNextCustomer twoShops (mondayAt 3000) "b1" {}).1.queues.filter
        (fun q => q.businessId != "b1")
      = twoShops.queues.filter (fun q => q.businessId != "b1") ∧
    (callNextCustomer twoShops (mondayAt 3000) "b1" {}).1.counters.filter
        (fun c => c.businessId != "b1")
      = twoShops.counters.filter (fun c => c.businessId != "b1") ∧
    (completeService twoShops (mondayAt 3000) "b1" "x1").2.status = 404 ∧
    (transferQueue twoShops (mondayAt 3000) "b1" "q1" "k1").2.status = 404 ∧
    (setCounterStatus twoShops (mondayAt 3000) "b1" "k1" "inactive").2.status = 404 := by
  have h := requests_change_only_own_business twoShops (mondayAt 3000) "b1" (by decide)
    (by decide) (by decide)
  have hx := h.2.2.2.2.2.2.2.2.2.1
    ({ sampleEntry "x1" "Q001" 1500 QueueStatus.called 1 (some "k1") with businessId := "b2" })
    (by decide) (by decide)
  have hk := h.2.2.2.2.2.2.2.2.2.2
    ({ sampleCounter "k1" 1 "general" CounterStatus.busy (some "x1") "Q001" with
        businessId := "b2" })
    (by decide) (by decide)
  exact ⟨by decide, (h.1 {}).1, (h.1 {}).2.1, hx.2.1, hk.2.1 "q1", hk.2.2.2.1 "inactive"⟩

end QNow
